import Mathlib

/-!
STIR: `ProjDataInfoCylindricalArcCorr::get_bin` and the region-of-interest values.

A shallow embedding of `src/buildblock/ProjDataInfoCylindricalArcCorr.cxx` and of
`src/eval_buildblock/compute_ROI_values.cxx`.

* The scalar type of the C++ code (`float`) is a type parameter `K`.  The body of
  `get_bin` only divides scalars, rounds them to an `int` and stores the constant `-1`,
  so the embedding asks for nothing but `Div K`, `Neg K` and `One K`; results that need
  exact arithmetic say so by asking for a field.
* `int` is `ℤ`.
* `round` (declared in `stir/round.h`, which is not among the sources) is an explicit
  argument of `get_bin`.
* `Bin`, `LOR`, `Scanner` and the base class `ProjDataInfoCylindrical` are declared in
  headers that are not among the sources.  Their state is a record; each accessor that
  `get_bin` calls is a field holding the accessor's value.
* A default-constructed `Bin` (`Bin bin;`) is the explicit argument `bin0`.
* The two `assert` statements of `get_bin` do not change the value that is returned.
  They are kept apart, as the predicate `get_bin_asserts`.
-/

namespace STIR

/-- The result type of operations that can fail without raising an error. -/
inductive Succeeded where
  | yes
  | no
  deriving DecidableEq, Repr

/-- A projection-data element address with its value: `stir/Bin.h`. -/
structure Bin (K : Type) where
  segment_num : ℤ
  view_num : ℤ
  axial_pos_num : ℤ
  tangential_pos_num : ℤ
  bin_value : K
  deriving DecidableEq, Repr

/-- The member `Bin::set_bin_value`. -/
def Bin.set_bin_value {K : Type} (bin : Bin K) (v : K) : Bin K :=
  { bin with bin_value := v }

/-- The class `LORInAxialAndSinogramCoordinates<coordT>`: azimuthal angle, tangential
offset and the axial positions of the two detection points. -/
structure LORInAxialAndSinogramCoordinates (K : Type) where
  phi : K
  s : K
  z1 : K
  z2 : K
  deriving DecidableEq, Repr

/-- The abstract class `LOR<coordT>`, seen through the one virtual member that `get_bin`
calls.  `change_representation radius` is `none` when the C++ member returns
`Succeeded::no` and `some lor_coords` when it returns `Succeeded::yes` after filling in
`lor_coords`. -/
structure LOR (K : Type) where
  change_representation : K → Option (LORInAxialAndSinogramCoordinates K)

/-- The class `VectorWithOffset<T>`: a vector whose first index is `min_index`. -/
structure VectorWithOffset (α : Type) where
  min_index : ℤ
  elems : List α
  deriving DecidableEq, Repr

/-- Modelled from the spec: the class `Scanner` is not among the sources.  Section 3 of
the specification lists its data: ring radius, ring spacing, number of rings and
detectors per ring. -/
structure Scanner (K : Type) where
  get_num_rings : ℤ
  get_num_detectors_per_ring : ℤ
  get_ring_radius : K
  get_ring_spacing : K
  deriving DecidableEq, Repr

/-- The base class `ProjDataInfoCylindrical`.  The first five fields are the constructor
arguments that `ProjDataInfoCylindricalArcCorr` hands on to it.  The other fields are the
values of the accessors used by `get_bin`, whose definitions are not among the sources.

`get_segment_axial_pos_num_for_ring_pair segment_num axial_pos_num ring1 ring2` models
the C++ member with two reference arguments: it receives their current contents and
returns the status together with their contents after the call. -/
structure ProjDataInfoCylindrical (K : Type) where
  scanner_ptr : Scanner K
  num_axial_pos_per_segment : VectorWithOffset ℤ
  min_ring_diff : VectorWithOffset ℤ
  max_ring_diff : VectorWithOffset ℤ
  num_tangential_poss : ℤ
  get_ring_radius : K
  get_ring_spacing : K
  get_azimuthal_angle_sampling : K
  get_num_views : ℤ
  get_min_view_num : ℤ
  get_max_view_num : ℤ
  get_min_tangential_pos_num : ℤ
  get_max_tangential_pos_num : ℤ
  get_segment_axial_pos_num_for_ring_pair : ℤ → ℤ → ℤ → ℤ → Succeeded × ℤ × ℤ

/-- The class `ProjDataInfoCylindricalArcCorr`: the base class and the data member
`bin_size`. -/
structure ProjDataInfoCylindricalArcCorr (K : Type) extends ProjDataInfoCylindrical K where
  bin_size : K

section get_bin

variable {K : Type}

/-- The inline accessor `get_tangential_sampling`, which returns `bin_size`. -/
def ProjDataInfoCylindricalArcCorr.get_tangential_sampling
    (pdi : ProjDataInfoCylindricalArcCorr K) : K :=
  pdi.bin_size

/-- The member `set_tangential_sampling`: `bin_size = new_tangential_sampling`. -/
def ProjDataInfoCylindricalArcCorr.set_tangential_sampling
    (pdi : ProjDataInfoCylindricalArcCorr K) (new_tangential_sampling : K) :
    ProjDataInfoCylindricalArcCorr K :=
  { pdi with bin_size := new_tangential_sampling }

variable [Div K]

/-- Line 107 of `get_bin`: `round(lor_coords.phi() / get_azimuthal_angle_sampling())`. -/
def get_bin_view_num (round : K → ℤ) (pdi : ProjDataInfoCylindricalArcCorr K)
    (lor_coords : LORInAxialAndSinogramCoordinates K) : ℤ :=
  round (lor_coords.phi / pdi.get_azimuthal_angle_sampling)

/-- Lines 110-111 of `get_bin`: `swap_direction = bin.view_num() > get_max_view_num()`. -/
def get_bin_swap_direction (round : K → ℤ) (pdi : ProjDataInfoCylindricalArcCorr K)
    (lor_coords : LORInAxialAndSinogramCoordinates K) : Bool :=
  decide (get_bin_view_num round pdi lor_coords > pdi.get_max_view_num)

/-- Lines 113-123 of `get_bin`: the local variable `ring1`. -/
def get_bin_ring1 (round : K → ℤ) (pdi : ProjDataInfoCylindricalArcCorr K)
    (lor_coords : LORInAxialAndSinogramCoordinates K) : ℤ :=
  if !get_bin_swap_direction round pdi lor_coords then
    round (lor_coords.z1 / pdi.get_ring_spacing)
  else
    round (lor_coords.z2 / pdi.get_ring_spacing)

/-- Lines 113-123 of `get_bin`: the local variable `ring2`. -/
def get_bin_ring2 (round : K → ℤ) (pdi : ProjDataInfoCylindricalArcCorr K)
    (lor_coords : LORInAxialAndSinogramCoordinates K) : ℤ :=
  if !get_bin_swap_direction round pdi lor_coords then
    round (lor_coords.z2 / pdi.get_ring_spacing)
  else
    round (lor_coords.z1 / pdi.get_ring_spacing)

/-- Lines 137-139 of `get_bin`: `round(lor_coords.s() / get_tangential_sampling())`,
multiplied by `-1` if `swap_direction`. -/
def get_bin_tangential_pos_num (round : K → ℤ) (pdi : ProjDataInfoCylindricalArcCorr K)
    (lor_coords : LORInAxialAndSinogramCoordinates K) : ℤ :=
  if get_bin_swap_direction round pdi lor_coords then
    round (lor_coords.s / pdi.get_tangential_sampling) * -1
  else
    round (lor_coords.s / pdi.get_tangential_sampling)

/-- The two `assert` statements of `get_bin` (lines 108-109): `bin.view_num() >= 0` and
`bin.view_num() <= get_num_views()`.  They are reached only after a successful
conversion. -/
def get_bin_asserts (round : K → ℤ) (pdi : ProjDataInfoCylindricalArcCorr K)
    (lor : LOR K) : Prop :=
  match lor.change_representation pdi.get_ring_radius with
  | none => True
  | some lor_coords =>
    get_bin_view_num round pdi lor_coords ≥ 0 ∧
    get_bin_view_num round pdi lor_coords ≤ pdi.get_num_views

instance get_bin_asserts_decidable (round : K → ℤ)
    (pdi : ProjDataInfoCylindricalArcCorr K) (lor : LOR K) :
    Decidable (get_bin_asserts round pdi lor) := by
  unfold get_bin_asserts
  split <;> infer_instance

variable [Neg K] [One K]

/-- The member `ProjDataInfoCylindricalArcCorr::get_bin` (lines 91-148).  The argument
`bin0` is the default-constructed `Bin bin;` of line 96. -/
def get_bin (round : K → ℤ) (bin0 : Bin K) (pdi : ProjDataInfoCylindricalArcCorr K)
    (lor : LOR K) : Bin K :=
  let bin := bin0
  match lor.change_representation pdi.get_ring_radius with
  | none => bin.set_bin_value (-1)
  | some lor_coords =>
    let bin := { bin with view_num := get_bin_view_num round pdi lor_coords }
    let ring1 := get_bin_ring1 round pdi lor_coords
    let ring2 := get_bin_ring2 round pdi lor_coords
    if ¬ (ring1 ≥ 0 ∧ ring1 < pdi.scanner_ptr.get_num_rings ∧
          ring2 ≥ 0 ∧ ring2 < pdi.scanner_ptr.get_num_rings) then
      bin.set_bin_value (-1)
    else
      let found := pdi.get_segment_axial_pos_num_for_ring_pair
        bin.segment_num bin.axial_pos_num ring1 ring2
      let bin := { bin with segment_num := found.2.1, axial_pos_num := found.2.2 }
      if ¬ (found.1 = Succeeded.yes) then
        bin.set_bin_value (-1)
      else
        let bin := { bin with
          tangential_pos_num := get_bin_tangential_pos_num round pdi lor_coords }
        if bin.tangential_pos_num < pdi.get_min_tangential_pos_num ∨
            bin.tangential_pos_num > pdi.get_max_tangential_pos_num then
          bin.set_bin_value (-1)
        else
          bin

/-- The four conditions under which `get_bin` accepts a line of response: the conversion
succeeds, both rings are inside `[0, num_rings)`, the ring-pair lookup succeeds, and the
tangential position is inside the configured range. -/
def get_bin_accepts (round : K → ℤ) (bin0 : Bin K) (pdi : ProjDataInfoCylindricalArcCorr K)
    (lor : LOR K) : Prop :=
  match lor.change_representation pdi.get_ring_radius with
  | none => False
  | some lor_coords =>
    (get_bin_ring1 round pdi lor_coords ≥ 0 ∧
      get_bin_ring1 round pdi lor_coords < pdi.scanner_ptr.get_num_rings ∧
      get_bin_ring2 round pdi lor_coords ≥ 0 ∧
      get_bin_ring2 round pdi lor_coords < pdi.scanner_ptr.get_num_rings) ∧
    (pdi.get_segment_axial_pos_num_for_ring_pair bin0.segment_num bin0.axial_pos_num
      (get_bin_ring1 round pdi lor_coords) (get_bin_ring2 round pdi lor_coords)).1
        = Succeeded.yes ∧
    ¬ (get_bin_tangential_pos_num round pdi lor_coords < pdi.get_min_tangential_pos_num ∨
      get_bin_tangential_pos_num round pdi lor_coords > pdi.get_max_tangential_pos_num)

instance get_bin_accepts_decidable (round : K → ℤ) (bin0 : Bin K)
    (pdi : ProjDataInfoCylindricalArcCorr K) (lor : LOR K) :
    Decidable (get_bin_accepts round bin0 pdi lor) := by
  unfold get_bin_accepts
  split <;> infer_instance

end get_bin

/-! ## A concrete configuration

The scanner of section 8 of the specification: 24 rings of spacing 3.125 mm and radius
350 mm, one segment with ring differences -1 to 1, 60 views, tangential sampling 2 mm.
Scalars are rationals, so that `get_bin` can be evaluated. -/

/-- Modelled from the spec: `stir/round.h` is not among the sources.  A nearest-integer
rule (section 4.3: every rounding is to the nearest integer), here with ties away from
zero.  It is used to evaluate `get_bin` on concrete inputs only; the general results hold
for every `round`. -/
def round_to_nearest (x : ℚ) : ℤ :=
  if x ≥ 0 then ⌊x + 1 / 2⌋ else -⌊-x + 1 / 2⌋

/-- Modelled from the spec: `get_segment_axial_pos_num_for_ring_pair` of the base class
is not among the sources.  Section 4.2: the segment is the ring-difference bucket, the
axial position comes from the mean ring position, and a ring pair outside all segments
is reported as not found.  This is the instance for a single segment whose ring
differences run from -1 to 1. -/
def scenario_ring_pair_lookup (segment_num axial_pos_num ring1 ring2 : ℤ) :
    Succeeded × ℤ × ℤ :=
  if -1 ≤ ring2 - ring1 ∧ ring2 - ring1 ≤ 1 then
    (Succeeded.yes, 0, ring1 + ring2)
  else
    (Succeeded.no, segment_num, axial_pos_num)

/-- The projection-data info of the concrete scenario.  The azimuthal sampling is the
rational 3.141593 / 60. -/
def scenario_proj_data_info : ProjDataInfoCylindricalArcCorr ℚ where
  scanner_ptr :=
    { get_num_rings := 24
      get_num_detectors_per_ring := 576
      get_ring_radius := 350
      get_ring_spacing := 25 / 8 }
  num_axial_pos_per_segment := { min_index := 0, elems := [47] }
  min_ring_diff := { min_index := 0, elems := [-1] }
  max_ring_diff := { min_index := 0, elems := [1] }
  num_tangential_poss := 128
  get_ring_radius := 350
  get_ring_spacing := 25 / 8
  get_azimuthal_angle_sampling := 3141593 / 60000000
  get_num_views := 60
  get_min_view_num := 0
  get_max_view_num := 59
  get_min_tangential_pos_num := -64
  get_max_tangential_pos_num := 63
  get_segment_axial_pos_num_for_ring_pair := scenario_ring_pair_lookup
  bin_size := 2

/-- A default-constructed bin for the concrete scenario. -/
def scenario_bin0 : Bin ℚ :=
  { segment_num := 0, view_num := 0, axial_pos_num := 0, tangential_pos_num := 0,
    bin_value := 0 }

/-- A line of response that is given in axial and sinogram coordinates: its conversion
succeeds and returns these coordinates. -/
def lor_with_coords {K : Type} (lor_coords : LORInAxialAndSinogramCoordinates K) : LOR K :=
  { change_representation := fun _ => some lor_coords }

/-- A line of response that misses the detector cylinder: its conversion fails. -/
def lor_outside_cylinder {K : Type} : LOR K :=
  { change_representation := fun _ => none }

/-- The projection-data info of the concrete scenario over any scalar field, with the
azimuthal sampling as an argument (so that it can be pi / 60 over the reals). -/
def scenario_geometry (K : Type) [Field K] (azimuthal_angle_sampling : K) :
    ProjDataInfoCylindricalArcCorr K where
  scanner_ptr :=
    { get_num_rings := 24
      get_num_detectors_per_ring := 576
      get_ring_radius := 350
      get_ring_spacing := 25 / 8 }
  num_axial_pos_per_segment := { min_index := 0, elems := [47] }
  min_ring_diff := { min_index := 0, elems := [-1] }
  max_ring_diff := { min_index := 0, elems := [1] }
  num_tangential_poss := 128
  get_ring_radius := 350
  get_ring_spacing := 25 / 8
  get_azimuthal_angle_sampling := azimuthal_angle_sampling
  get_num_views := 60
  get_min_view_num := 0
  get_max_view_num := 59
  get_min_tangential_pos_num := -64
  get_max_tangential_pos_num := 63
  get_segment_axial_pos_num_for_ring_pair := scenario_ring_pair_lookup
  bin_size := 2

/-! ## Region-of-interest values: `src/eval_buildblock/compute_ROI_values.cxx`

Images are regular voxel grids.  The scalar type is again a parameter; the classes
`VoxelsOnCartesianGrid`, `Array`, `Shape3D` and `ROIValues` are declared in headers that
are not among the sources. -/

/-- The class `CartesianCoordinate3D<T>`, with its coordinates in the order z, y, x. -/
structure CartesianCoordinate3D (α : Type) where
  z : α
  y : α
  x : α
  deriving DecidableEq, Repr

/-- The indices visited by `for (int i = lo; i <= hi; i++)`. -/
def index_range (lo hi : ℤ) : List ℤ :=
  (List.range (hi - lo + 1).toNat).map (fun (i : ℕ) => lo + (i : ℤ))

/-- The class `VoxelsOnCartesianGrid<float>`: a regular grid of voxels with index ranges
`[min_z, max_z]`, `[min_y, max_y]`, `[min_x, max_x]` and a voxel size.  Only the voxels
with indices inside the ranges belong to the image. -/
structure VoxelsOnCartesianGrid (K : Type) where
  min_z : ℤ
  max_z : ℤ
  min_y : ℤ
  max_y : ℤ
  min_x : ℤ
  max_x : ℤ
  voxel_size : CartesianCoordinate3D K
  voxels : ℤ → ℤ → ℤ → K

/-- The class `Shape3D`, seen through the one virtual member used here:
`construct_volume image num_samples` is the content of `image` after the call. -/
structure Shape3D (K : Type) where
  construct_volume : VoxelsOnCartesianGrid K → CartesianCoordinate3D ℤ →
    VoxelsOnCartesianGrid K

/-- Modelled from the spec: `ROIValues.h` is not among the sources.  Section 3 of the
specification: volume, integral, integral of the square, minimum and maximum.  The
constructor `ROIValues(volume, integral, integral_square, ROI_min, ROI_max)` stores its
arguments in this order. -/
structure ROIValues (K : Type) where
  roi_volume : K
  integral : K
  integral_of_square : K
  min_value : K
  max_value : K
  deriving DecidableEq, Repr

section roi_values

variable {K : Type}

/-- The member `get_min_index` of the image: the first plane. -/
def VoxelsOnCartesianGrid.get_min_index (image : VoxelsOnCartesianGrid K) : ℤ :=
  image.min_z

/-- The member `get_max_index` of the image: the last plane. -/
def VoxelsOnCartesianGrid.get_max_index (image : VoxelsOnCartesianGrid K) : ℤ :=
  image.max_z

/-- The member `get_voxel_size`. -/
def VoxelsOnCartesianGrid.get_voxel_size (image : VoxelsOnCartesianGrid K) :
    CartesianCoordinate3D K :=
  image.voxel_size

/-- The member `get_empty_voxels_on_cartesian_grid`: the same grid, filled with 0. -/
def VoxelsOnCartesianGrid.get_empty_voxels_on_cartesian_grid [Zero K]
    (image : VoxelsOnCartesianGrid K) : VoxelsOnCartesianGrid K :=
  { image with voxels := fun _ _ _ => 0 }

/-- The values of `f y x` over the index range of a plane of `image`, row by row. -/
def VoxelsOnCartesianGrid.over_plane (image : VoxelsOnCartesianGrid K) (f : ℤ → ℤ → K) :
    List K :=
  (index_range image.min_y image.max_y).flatMap
    (fun y => (index_range image.min_x image.max_x).map (fun x => f y x))

/-- The elements of `image[z]`, row by row. -/
def VoxelsOnCartesianGrid.plane (image : VoxelsOnCartesianGrid K) (z : ℤ) : List K :=
  image.over_plane (image.voxels z)

/-- The statement `discretised_shape[z] *= image[z]`: plane `z` is multiplied element by
element, the other planes are left alone. -/
def VoxelsOnCartesianGrid.multiply_plane [Mul K] (discretised_shape : VoxelsOnCartesianGrid K)
    (z : ℤ) (image : VoxelsOnCartesianGrid K) : VoxelsOnCartesianGrid K :=
  { discretised_shape with
    voxels := fun z2 y x =>
      if z2 = z then discretised_shape.voxels z y x * image.voxels z y x
      else discretised_shape.voxels z2 y x }

/-- Modelled from the spec: the member `sum` of `Array` is not among the sources.  It is
the sum of all elements. -/
def array_sum [Add K] [Zero K] (elements : List K) : K :=
  elements.sum

/-- Modelled from the spec: the member `find_min` of `Array` is not among the sources.
It is the smallest element (0 for an array without elements). -/
def array_find_min [Min K] [Zero K] : List K → K
  | [] => 0
  | a :: elements => elements.foldl min a

/-- Modelled from the spec: the member `find_max` of `Array` is not among the sources.
It is the largest element (0 for an array without elements). -/
def array_find_max [Max K] [Zero K] : List K → K
  | [] => 0
  | a :: elements => elements.foldl max a

/-- The element `values[z]` of a vector with offset, if `z` is one of its indices. -/
def VectorWithOffset.lookup {α : Type} (values : VectorWithOffset α) (z : ℤ) : Option α :=
  if z < values.min_index then none else values.elems[(z - values.min_index).toNat]?

variable [Zero K] [Add K] [Mul K] [Min K] [Max K]

/-- The body of the loop of `compute_ROI_values_per_plane` (lines 56-66) for plane `z`.
The state is the discretised shape, which the body changes, and the values assigned so
far. -/
def compute_ROI_values_per_plane_body (image : VoxelsOnCartesianGrid K) (voxel_volume : K)
    (state : VoxelsOnCartesianGrid K × List (ROIValues K)) (z : ℤ) :
    VoxelsOnCartesianGrid K × List (ROIValues K) :=
  let discretised_shape := state.1
  let volume := array_sum (discretised_shape.plane z) * voxel_volume
  let discretised_shape := discretised_shape.multiply_plane z image
  let ROI_min := array_find_min (discretised_shape.plane z)
  let ROI_max := array_find_max (discretised_shape.plane z)
  let integral := array_sum (discretised_shape.plane z) * voxel_volume
  let discretised_shape := discretised_shape.multiply_plane z image
  let integral_square := array_sum (discretised_shape.plane z) * voxel_volume
  (discretised_shape,
    state.2 ++ [{ roi_volume := volume, integral := integral,
                  integral_of_square := integral_square,
                  min_value := ROI_min, max_value := ROI_max }])

/-- The function `compute_ROI_values_per_plane` (lines 29-69), for a density that is a
`VoxelsOnCartesianGrid`.  The result is the vector `values`. -/
def compute_ROI_values_per_plane (image : VoxelsOnCartesianGrid K) (shape : Shape3D K)
    (num_samples : CartesianCoordinate3D ℤ) : VectorWithOffset (ROIValues K) :=
  let min_z := image.get_min_index
  let max_z := image.get_max_index
  let voxel_size := image.get_voxel_size
  let voxel_volume := voxel_size.x * voxel_size.y * voxel_size.z
  let discretised_shape :=
    shape.construct_volume image.get_empty_voxels_on_cartesian_grid num_samples
  let final := (index_range min_z max_z).foldl
    (compute_ROI_values_per_plane_body image voxel_volume) (discretised_shape, [])
  { min_index := min_z, elems := final.2 }

end roi_values

/-- The values that `compute_ROI_values_per_plane` computes for plane `z`, written in terms
of the discretised shape `mask` as `construct_volume` left it: the closed form of one
pass of the loop body. -/
def plane_ROI_values {K : Type} [Zero K] [Add K] [Mul K] [Min K] [Max K]
    (image : VoxelsOnCartesianGrid K) (voxel_volume : K) (mask : VoxelsOnCartesianGrid K)
    (z : ℤ) : ROIValues K :=
  { roi_volume := array_sum (mask.over_plane (mask.voxels z)) * voxel_volume
    integral := array_sum
      (mask.over_plane (fun y x => mask.voxels z y x * image.voxels z y x)) * voxel_volume
    integral_of_square := array_sum
      (mask.over_plane (fun y x => mask.voxels z y x * image.voxels z y x
        * image.voxels z y x)) * voxel_volume
    min_value := array_find_min
      (mask.over_plane (fun y x => mask.voxels z y x * image.voxels z y x))
    max_value := array_find_max
      (mask.over_plane (fun y x => mask.voxels z y x * image.voxels z y x)) }

/-- A small image for evaluation: two planes of one row and two columns, with voxel size
2 x 1 x 1 mm and the voxel values 2, 3 (plane 0) and 4, 5 (plane 1). -/
def scenario_image : VoxelsOnCartesianGrid ℚ :=
  { min_z := 0, max_z := 1, min_y := 0, max_y := 0, min_x := 0, max_x := 1
    voxel_size := { z := 1, y := 1, x := 2 }
    voxels := fun z _ x => 2 + 2 * (z : ℚ) + (x : ℚ) }

/-- A shape for evaluation: it covers half of every voxel of column 0 and nothing of
column 1. -/
def scenario_shape : Shape3D ℚ :=
  { construct_volume := fun image _ =>
      { image with voxels := fun _ _ x => if x = 0 then 1 / 2 else 0 } }

/-- The number of samples used in the evaluations. -/
def scenario_num_samples : CartesianCoordinate3D ℤ :=
  { z := 1, y := 1, x := 1 }

section roi_totals

variable {K : Type}

/-- Modelled from the spec: `ROIValues::operator+=` is declared in `ROIValues.h`, which is
not among the sources.  Section 4.4 of the specification: volume, integral and integral
of the square are summed, minimum and maximum take the running minimum and maximum. -/
def ROIValues.add_assign [Add K] [Min K] [Max K] (tmp iv : ROIValues K) : ROIValues K :=
  { roi_volume := tmp.roi_volume + iv.roi_volume
    integral := tmp.integral + iv.integral
    integral_of_square := tmp.integral_of_square + iv.integral_of_square
    min_value := min tmp.min_value iv.min_value
    max_value := max tmp.max_value iv.max_value }

/-- The function `compute_total_ROI_values(values)` (lines 71-81): the loop
`tmp += *iter` over the vector.  The argument `tmp0` is the default-constructed
`ROIValues tmp;` of line 75. -/
def compute_total_ROI_values [Add K] [Min K] [Max K] (tmp0 : ROIValues K)
    (values : VectorWithOffset (ROIValues K)) : ROIValues K :=
  values.elems.foldl ROIValues.add_assign tmp0

/-- The function `compute_total_ROI_values(image, shape, num_samples)` (lines 83-93). -/
def compute_total_ROI_values_of_image [Zero K] [Add K] [Mul K] [Min K] [Max K]
    (tmp0 : ROIValues K) (image : VoxelsOnCartesianGrid K) (shape : Shape3D K)
    (num_samples : CartesianCoordinate3D ℤ) : ROIValues K :=
  let values := compute_ROI_values_per_plane image shape num_samples
  compute_total_ROI_values tmp0 values

/-- The values of `f z y x` over all voxels of the planes `[min_z, max_z]` of `image`,
with the plane index range of `mask`. -/
def over_volume (image mask : VoxelsOnCartesianGrid K) (f : ℤ → ℤ → ℤ → K) : List K :=
  (index_range image.min_z image.max_z).flatMap (fun z => mask.over_plane (f z))

/-- Following the specification (section 8, property 4): volume, integral and integral of
the square computed directly over the full 3D volume in one pass, for the mask `mask`.
The integral of the square is the mask-weighted one, as in the per-plane values. -/
def one_pass_ROI_totals [Zero K] [Add K] [Mul K] (image mask : VoxelsOnCartesianGrid K) :
    K × K × K :=
  let voxel_volume := image.voxel_size.x * image.voxel_size.y * image.voxel_size.z
  (voxel_volume * array_sum (over_volume image mask (fun z y x => mask.voxels z y x)),
    voxel_volume * array_sum (over_volume image mask
      (fun z y x => mask.voxels z y x * image.voxels z y x)),
    voxel_volume * array_sum (over_volume image mask
      (fun z y x => mask.voxels z y x * image.voxels z y x * image.voxels z y x)))

end roi_totals

/-- A default-constructed `ROIValues` for the evaluations: the three sums are 0. -/
def scenario_ROI_values0 : ROIValues ℚ :=
  { roi_volume := 0, integral := 0, integral_of_square := 0, min_value := 1000,
    max_value := -1000 }

section roi_ratios

variable {K : Type}

/-- Modelled from the spec: the accessor `get_mean` is declared in `ROIValues.h`, which is
not among the sources.  Section 3 of the specification: mean = integral / volume. -/
def ROIValues.get_mean [Div K] (val : ROIValues K) : K :=
  val.integral / val.roi_volume

/-- Modelled from the spec: the variance behind `get_stddev` (section 3: the standard
deviation is derived from the integral of the square): the mean of the square minus the
square of the mean. -/
def ROIValues.get_variance [Div K] [Sub K] [Mul K] (val : ROIValues K) : K :=
  val.integral_of_square / val.roi_volume - val.get_mean * val.get_mean

/-- Modelled from the spec: the accessor `get_stddev`, the square root of the variance.
The square root function is an argument. -/
def ROIValues.get_stddev [Div K] [Sub K] [Mul K] (sqrt : K → K) (val : ROIValues K) : K :=
  sqrt val.get_variance

/-- The function `compute_CR_hot` (lines 146-151). -/
def compute_CR_hot [One K] [Sub K] [Div K] (val1 val2 : ROIValues K) : K :=
  1 - val1.get_mean / val2.get_mean

/-- The function `compute_CR_cold` (lines 153-157). -/
def compute_CR_cold [One K] [Sub K] [Div K] (val1 val2 : ROIValues K) : K :=
  val1.get_mean / val2.get_mean - 1

/-- The function `compute_uniformity` (lines 160-164). -/
def compute_uniformity [Sub K] [Mul K] [Div K] (sqrt : K → K) (val : ROIValues K) : K :=
  val.get_stddev sqrt / val.get_mean

end roi_ratios

/-- Floating-point scalars with the special values of IEEE arithmetic: a finite value, an
infinity with its sign, or not-a-number.  Finite arithmetic is exact; rounding, overflow
and the sign of zero are not modelled. -/
inductive ExtendedFloat (K : Type) where
  | finite (x : K)
  | infinity (negative : Bool)
  | nan
  deriving DecidableEq, Repr

section extended_float

variable {K : Type} [LinearOrderedField K]

/-- Whether a floating-point value is finite, that is neither an infinity nor
not-a-number. -/
def ExtendedFloat.is_finite : ExtendedFloat K → Bool
  | ExtendedFloat.finite _ => true
  | ExtendedFloat.infinity _ => false
  | ExtendedFloat.nan => false

/-- Floating-point subtraction: infinity minus the same infinity is not-a-number. -/
def ExtendedFloat.sub : ExtendedFloat K → ExtendedFloat K → ExtendedFloat K
  | ExtendedFloat.nan, _ => ExtendedFloat.nan
  | _, ExtendedFloat.nan => ExtendedFloat.nan
  | ExtendedFloat.finite a, ExtendedFloat.finite b => ExtendedFloat.finite (a - b)
  | ExtendedFloat.finite _, ExtendedFloat.infinity s => ExtendedFloat.infinity (!s)
  | ExtendedFloat.infinity s, ExtendedFloat.finite _ => ExtendedFloat.infinity s
  | ExtendedFloat.infinity s, ExtendedFloat.infinity t =>
    if s = t then ExtendedFloat.nan else ExtendedFloat.infinity s

/-- Floating-point multiplication: zero times infinity is not-a-number. -/
def ExtendedFloat.mul : ExtendedFloat K → ExtendedFloat K → ExtendedFloat K
  | ExtendedFloat.nan, _ => ExtendedFloat.nan
  | _, ExtendedFloat.nan => ExtendedFloat.nan
  | ExtendedFloat.finite a, ExtendedFloat.finite b => ExtendedFloat.finite (a * b)
  | ExtendedFloat.finite a, ExtendedFloat.infinity s =>
    if a = 0 then ExtendedFloat.nan else ExtendedFloat.infinity (xor s (decide (a < 0)))
  | ExtendedFloat.infinity s, ExtendedFloat.finite b =>
    if b = 0 then ExtendedFloat.nan else ExtendedFloat.infinity (xor s (decide (b < 0)))
  | ExtendedFloat.infinity s, ExtendedFloat.infinity t => ExtendedFloat.infinity (xor s t)

/-- Floating-point division: a non-zero value divided by zero is an infinity, zero
divided by zero is not-a-number; no error is raised. -/
def ExtendedFloat.div : ExtendedFloat K → ExtendedFloat K → ExtendedFloat K
  | ExtendedFloat.nan, _ => ExtendedFloat.nan
  | _, ExtendedFloat.nan => ExtendedFloat.nan
  | ExtendedFloat.finite a, ExtendedFloat.finite b =>
    if b = 0 then
      (if a = 0 then ExtendedFloat.nan else ExtendedFloat.infinity (decide (a < 0)))
    else ExtendedFloat.finite (a / b)
  | ExtendedFloat.finite _, ExtendedFloat.infinity _ => ExtendedFloat.finite 0
  | ExtendedFloat.infinity s, ExtendedFloat.finite b =>
    ExtendedFloat.infinity (xor s (decide (b < 0)))
  | ExtendedFloat.infinity _, ExtendedFloat.infinity _ => ExtendedFloat.nan

instance ExtendedFloat.instOne : One (ExtendedFloat K) := ⟨ExtendedFloat.finite 1⟩

instance ExtendedFloat.instZero : Zero (ExtendedFloat K) := ⟨ExtendedFloat.finite 0⟩

instance ExtendedFloat.instSub : Sub (ExtendedFloat K) := ⟨ExtendedFloat.sub⟩

instance ExtendedFloat.instMul : Mul (ExtendedFloat K) := ⟨ExtendedFloat.mul⟩

instance ExtendedFloat.instDiv : Div (ExtendedFloat K) := ⟨ExtendedFloat.div⟩

end extended_float

/-! ## Objects on the free store: `clone` and `set_tangential_sampling` -/

/-- The objects of class `ProjDataInfoCylindricalArcCorr` on the free store.  A pointer
is a position in the list. -/
structure ObjectStore (K : Type) where
  objects : List (ProjDataInfoCylindricalArcCorr K)

/-- The object a pointer points to, if any. -/
def ObjectStore.deref {K : Type} (store : ObjectStore K) (ptr : ℕ) :
    Option (ProjDataInfoCylindricalArcCorr K) :=
  store.objects[ptr]?

/-- The member `clone` (lines 66-70), called on the object at `this_ptr`:
`new ProjDataInfoCylindricalArcCorr(*this)` allocates a new object, copy-constructed
member by member from `*this`, and returns the pointer to it. -/
def ObjectStore.clone {K : Type} (store : ObjectStore K) (this_ptr : ℕ) :
    Option (ObjectStore K × ℕ) :=
  match store.deref this_ptr with
  | none => none
  | some pdi => some ({ objects := store.objects ++ [pdi] }, store.objects.length)

/-- The member `set_tangential_sampling` (lines 60-62), called on the object at
`this_ptr`. -/
def ObjectStore.set_tangential_sampling {K : Type} (store : ObjectStore K) (this_ptr : ℕ)
    (new_tangential_sampling : K) : ObjectStore K :=
  match store.deref this_ptr with
  | none => store
  | some pdi =>
    { objects := store.objects.set this_ptr
        (pdi.set_tangential_sampling new_tangential_sampling) }

/-- A store for the evaluations: the projection-data info of the concrete scenario is
its only object. -/
def scenario_store : ObjectStore ℚ :=
  { objects := [scenario_proj_data_info] }

/-- The member `get_bin` called on the object at `this_ptr`.  It is a `const` member
taking the line of response by `const` reference: the result is the bin together with the
store after the call. -/
def ObjectStore.get_bin {K : Type} [Div K] [Neg K] [One K] (store : ObjectStore K)
    (this_ptr : ℕ) (round : K → ℤ) (bin0 : Bin K) (lor : LOR K) :
    Option (Bin K × ObjectStore K) :=
  match store.deref this_ptr with
  | none => none
  | some pdi => some (STIR.get_bin round bin0 pdi lor, store)

/-- The class `CartesianCoordinate2D<T>`, with its coordinates in the order y, x. -/
structure CartesianCoordinate2D (α : Type) where
  y : α
  x : α
  deriving DecidableEq, Repr

section roi_plane_range

variable {K : Type}

/-- All elements of the image, plane by plane: what the members `sum`, `find_min` and
`find_max` of the whole 3D array range over. -/
def VoxelsOnCartesianGrid.elements (image : VoxelsOnCartesianGrid K) : List K :=
  (index_range image.min_z image.max_z).flatMap (fun z => image.plane z)

variable [Zero K] [Add K] [Mul K] [Min K] [Max K]

/-- The body of the loop of `compute_plane_range_ROI_values_per_plane` (lines 132-141)
for plane `z`.  `sum`, `find_min` and `find_max` are called on `discretised_shape`, the
whole 3D array, and only the two multiplications are restricted to plane `z`. -/
def compute_plane_range_ROI_values_per_plane_body (image : VoxelsOnCartesianGrid K)
    (voxel_volume : K) (state : VoxelsOnCartesianGrid K × List (ROIValues K)) (z : ℤ) :
    VoxelsOnCartesianGrid K × List (ROIValues K) :=
  let discretised_shape := state.1
  let volume := array_sum discretised_shape.elements * voxel_volume
  let discretised_shape := discretised_shape.multiply_plane z image
  let ROI_min := array_find_min discretised_shape.elements
  let ROI_max := array_find_max discretised_shape.elements
  let integral := array_sum discretised_shape.elements * voxel_volume
  let discretised_shape := discretised_shape.multiply_plane z image
  let integral_square := array_sum discretised_shape.elements * voxel_volume
  (discretised_shape,
    state.2 ++ [{ roi_volume := volume, integral := integral,
                  integral_of_square := integral_square,
                  min_value := ROI_min, max_value := ROI_max }])

/-- The function `compute_plane_range_ROI_values_per_plane` (lines 102-143), for a
density that is a `VoxelsOnCartesianGrid`.  The result is the vector `values`. -/
def compute_plane_range_ROI_values_per_plane (image : VoxelsOnCartesianGrid K)
    (plane_range : CartesianCoordinate2D ℤ) (shape : Shape3D K)
    (num_samples : CartesianCoordinate3D ℤ) : VectorWithOffset (ROIValues K) :=
  let min_z := image.get_min_index
  let max_z := image.get_max_index
  let min_z_new := plane_range.x - min_z
  let max_z_new := max_z - plane_range.y
  let voxel_size := image.get_voxel_size
  let voxel_volume := voxel_size.x * voxel_size.y * voxel_size.z
  let discretised_shape :=
    shape.construct_volume image.get_empty_voxels_on_cartesian_grid num_samples
  let final := (index_range min_z_new max_z_new).foldl
    (compute_plane_range_ROI_values_per_plane_body image voxel_volume)
    (discretised_shape, [])
  { min_index := min_z_new, elems := final.2 }

end roi_plane_range

/-! ## Time frames: the class `TimeFrameDefinitions` of `src/local/listmode/lm_fansums.cxx` -/

/-- The class `TimeFrameDefinitions`: the vector `frame_times` of (start, end) pairs. -/
structure TimeFrameDefinitions (K : Type) where
  frame_times : List (K × K)
  deriving DecidableEq, Repr

/-- The two ways in which the constructor of `TimeFrameDefinitions` calls `error`. -/
inductive TimeFrameDefinitionsError where
  | error_reading
  | encountered_negative_numbers
  deriving DecidableEq, Repr

/-- What one execution of `in >> num >> duration` (line 147) extracts, together with the
value of `in.eof()` after it.  The stream is at the end of the file after an extraction
exactly when the last digit of `duration` is the last character of the file; white space
after it (a final newline) keeps `in.eof()` false. -/
structure FrameExtraction (K : Type) where
  num : ℤ
  duration : K
  eof : Bool
  deriving DecidableEq, Repr

/-- The extractions that a frame definition file delivers.  The file holds the entries
`num duration`, separated by white space; `trailing_white_space` tells whether white
space follows the last entry.  Every extraction but the last leaves `in.eof()` false;
the last one leaves it false if white space follows and true otherwise. -/
def frame_def_file {K : Type} : List (ℤ × K) → Bool → List (FrameExtraction K)
  | [], _ => []
  | [entry], trailing_white_space =>
    [{ num := entry.1, duration := entry.2, eof := !trailing_white_space }]
  | entry :: next :: rest, trailing_white_space =>
    { num := entry.1, duration := entry.2, eof := false }
      :: frame_def_file (next :: rest) trailing_white_space

section time_frames

variable {K : Type}

/-- The member `get_num_frames` (lines 124-129). -/
def TimeFrameDefinitions.get_num_frames (frame_defs : TimeFrameDefinitions K) : ℕ :=
  frame_defs.frame_times.length

/-- The member `get_start_time(frame_num)` (lines 92-99), 1 based.  The result is `none`
when an `assert` fails, that is when `frame_num` is not in `[1, get_num_frames()]`. -/
def TimeFrameDefinitions.get_start_time (frame_defs : TimeFrameDefinitions K)
    (frame_num : ℕ) : Option K :=
  if frame_num ≥ 1 ∧ frame_num ≤ frame_defs.get_num_frames then
    (frame_defs.frame_times[frame_num - 1]?).map Prod.fst
  else none

/-- The member `get_end_time(frame_num)` (lines 101-108), 1 based.  The result is `none`
when an `assert` fails. -/
def TimeFrameDefinitions.get_end_time (frame_defs : TimeFrameDefinitions K)
    (frame_num : ℕ) : Option K :=
  if frame_num ≥ 1 ∧ frame_num ≤ frame_defs.get_num_frames then
    (frame_defs.frame_times[frame_num - 1]?).map Prod.snd
  else none

variable [Add K]

/-- The loop `while (num--)` of the constructor (lines 155-159), run `num` times.  The
state is `frame_times` and `previous_end_time`. -/
def TimeFrameDefinitions.push_frames (duration : K) :
    ℕ → List (K × K) × K → List (K × K) × K
  | 0, state => state
  | num + 1, state =>
    TimeFrameDefinitions.push_frames duration num
      (state.1 ++ [(state.2, state.2 + duration)], state.2 + duration)

variable [Zero K] [LE K] [DecidableRel (fun a b : K => a ≤ b)]

/-- The loop `while (true)` of the constructor (lines 144-160).  The list holds the
extractions `in >> num >> duration` that succeed, in order; after them the extraction
fails and `!in` is the `break`.  An extraction that succeeds but leaves the stream at the
end of the file is a `break` too (line 148), before the entry is checked or stored. -/
def TimeFrameDefinitions.read_frames :
    List (FrameExtraction K) → List (K × K) × K →
      Except TimeFrameDefinitionsError (List (K × K) × K)
  | [], state => Except.ok state
  | entry :: rest, state =>
    if entry.eof then Except.ok state
    else if entry.num ≤ 0 ∨ entry.duration ≤ 0 then
      Except.error TimeFrameDefinitionsError.encountered_negative_numbers
    else
      TimeFrameDefinitions.read_frames rest
        (TimeFrameDefinitions.push_frames entry.duration entry.num.toNat state)

/-- The constructor `TimeFrameDefinitions(fdef_filename)` (lines 135-172).  The file is
`none` if it cannot be opened and otherwise the list of extractions it delivers. -/
def TimeFrameDefinitions.from_file (file : Option (List (FrameExtraction K))) :
    Except TimeFrameDefinitionsError (TimeFrameDefinitions K) :=
  match file with
  | none => Except.error TimeFrameDefinitionsError.error_reading
  | some entries =>
    match TimeFrameDefinitions.read_frames entries ([], 0) with
    | Except.error e => Except.error e
    | Except.ok state => Except.ok { frame_times := state.1 }

/-- The durations of the frames that a list of entries describes: entry `(num, duration)`
stands for `num` frames of that duration. -/
def frame_durations (entries : List (ℤ × K)) : List K :=
  entries.flatMap (fun entry => List.replicate entry.1.toNat entry.2)

/-- Contiguous frames with the given durations, the first one starting at `start`. -/
def contiguous_frames : List K → K → List (K × K)
  | [], _ => []
  | duration :: rest, start =>
    (start, start + duration) :: contiguous_frames rest (start + duration)

end time_frames

/-! ## Floating-point arithmetic: the types `float` and `double`

The fit functions compute with `float` and, in one expression, with `double`.  Both are
modelled as IEEE 754 binary formats (binary32 and binary64) with rounding to nearest, ties
to even, every operation rounding its exact result once. -/

/-- A value of a binary floating-point format: a finite number
`(-1)^negative * mantissa * 2^exponent` (zero has a sign), an infinity, or a NaN. -/
inductive FloatValue where
  | finite (negative : Bool) (mantissa : ℕ) (exponent : ℤ)
  | infinite (negative : Bool)
  | nan
  deriving DecidableEq, Repr

/-- A binary floating-point format: the number of bits of the significand, the exponent of
the last bit of the subnormal numbers, and the largest exponent of the first bit. -/
structure FloatFormat where
  precision : ℕ
  min_exponent : ℤ
  max_exponent : ℤ
  deriving DecidableEq, Repr

/-- The format of `float`: 24 bits, subnormal numbers are multiples of `2^-149`, the
largest numbers are below `2^128`. -/
def binary32 : FloatFormat :=
  { precision := 24, min_exponent := -149, max_exponent := 127 }

/-- The format of `double`: 53 bits, subnormal numbers are multiples of `2^-1074`, the
largest numbers are below `2^1024`. -/
def binary64 : FloatFormat :=
  { precision := 53, min_exponent := -1074, max_exponent := 1023 }

/-- The number of binary digits of `n`, counted in at most `fuel` steps. -/
def bit_length_steps : ℕ → ℕ → ℕ
  | 0, _ => 0
  | fuel + 1, n => if n = 0 then 0 else bit_length_steps fuel (n / 2) + 1

/-- The number of binary digits of `n`. -/
def bit_length (n : ℕ) : ℕ :=
  bit_length_steps n n

/-- The largest `k` with `2^k <= num / den`, for positive `num` and `den`. -/
def floor_log2 (num den : ℕ) : ℤ :=
  let k : ℤ := (bit_length num : ℤ) - (bit_length den : ℤ)
  if 0 ≤ k then
    if den * 2 ^ k.toNat ≤ num then k else k - 1
  else
    if den ≤ num * 2 ^ (-k).toNat then k else k - 1

/-- Rounding to nearest, ties to even: the value of the format nearest to the exact number
`(-1)^negative * (num / den) * 2^exponent`, with `den` positive.  A number that rounds to
`2^(max_exponent + 1)` or more becomes an infinity. -/
def FloatFormat.round (format : FloatFormat) (negative : Bool) (num den : ℕ)
    (exponent : ℤ) : FloatValue :=
  if num = 0 then FloatValue.finite negative 0 format.min_exponent
  else
    let target : ℤ :=
      max (floor_log2 num den + exponent - ((format.precision : ℤ) - 1))
        format.min_exponent
    let shift : ℤ := exponent - target
    let a : ℕ := if 0 ≤ shift then num * 2 ^ shift.toNat else num
    let b : ℕ := if 0 ≤ shift then den else den * 2 ^ (-shift).toNat
    let quotient := a / b
    let remainder := a % b
    let mantissa :=
      if b < 2 * remainder ∨ (2 * remainder = b ∧ quotient % 2 = 1) then quotient + 1
      else quotient
    if mantissa = 2 ^ format.precision then
      if format.max_exponent < target + 1 + ((format.precision : ℤ) - 1) then
        FloatValue.infinite negative
      else FloatValue.finite negative (2 ^ (format.precision - 1)) (target + 1)
    else if mantissa = 0 then FloatValue.finite negative 0 format.min_exponent
    else if format.max_exponent < target + ((format.precision : ℤ) - 1) then
      FloatValue.infinite negative
    else FloatValue.finite negative mantissa target

/-- The unary minus. -/
def FloatValue.neg : FloatValue → FloatValue
  | FloatValue.finite negative mantissa exponent =>
    FloatValue.finite (!negative) mantissa exponent
  | FloatValue.infinite negative => FloatValue.infinite (!negative)
  | FloatValue.nan => FloatValue.nan

/-- The sum, rounded to the format.  An exact sum of zero is `+0`, except that
`-0 + -0 = -0`. -/
def FloatValue.add (format : FloatFormat) : FloatValue → FloatValue → FloatValue
  | FloatValue.nan, _ => FloatValue.nan
  | _, FloatValue.nan => FloatValue.nan
  | FloatValue.infinite s, FloatValue.infinite t =>
    if s = t then FloatValue.infinite s else FloatValue.nan
  | FloatValue.infinite s, FloatValue.finite _ _ _ => FloatValue.infinite s
  | FloatValue.finite _ _ _, FloatValue.infinite t => FloatValue.infinite t
  | FloatValue.finite s m e, FloatValue.finite t n f =>
    let exponent := min e f
    let a := m * 2 ^ (e - exponent).toNat
    let b := n * 2 ^ (f - exponent).toNat
    if s = t then format.round s (a + b) 1 exponent
    else if b < a then format.round s (a - b) 1 exponent
    else if a < b then format.round t (b - a) 1 exponent
    else FloatValue.finite false 0 format.min_exponent

/-- The difference, rounded to the format. -/
def FloatValue.sub (format : FloatFormat) (x y : FloatValue) : FloatValue :=
  FloatValue.add format x y.neg

/-- The product, rounded to the format. -/
def FloatValue.mul (format : FloatFormat) : FloatValue → FloatValue → FloatValue
  | FloatValue.nan, _ => FloatValue.nan
  | _, FloatValue.nan => FloatValue.nan
  | FloatValue.infinite s, FloatValue.infinite t => FloatValue.infinite (xor s t)
  | FloatValue.infinite s, FloatValue.finite t n _ =>
    if n = 0 then FloatValue.nan else FloatValue.infinite (xor s t)
  | FloatValue.finite s m _, FloatValue.infinite t =>
    if m = 0 then FloatValue.nan else FloatValue.infinite (xor s t)
  | FloatValue.finite s m e, FloatValue.finite t n f =>
    format.round (xor s t) (m * n) 1 (e + f)

/-- The quotient, rounded to the format: `0/0` is a NaN and a non-zero number divided by
zero is an infinity. -/
def FloatValue.div (format : FloatFormat) : FloatValue → FloatValue → FloatValue
  | FloatValue.nan, _ => FloatValue.nan
  | _, FloatValue.nan => FloatValue.nan
  | FloatValue.infinite _, FloatValue.infinite _ => FloatValue.nan
  | FloatValue.infinite s, FloatValue.finite t _ _ => FloatValue.infinite (xor s t)
  | FloatValue.finite s _ _, FloatValue.infinite t =>
    FloatValue.finite (xor s t) 0 format.min_exponent
  | FloatValue.finite s m e, FloatValue.finite t n f =>
    if n = 0 then
      if m = 0 then FloatValue.nan else FloatValue.infinite (xor s t)
    else format.round (xor s t) m n (e - f)

/-- The comparison `x < y`: false if either is a NaN; `-0` and `+0` are equal. -/
def FloatValue.lt : FloatValue → FloatValue → Bool
  | FloatValue.nan, _ => false
  | _, FloatValue.nan => false
  | FloatValue.infinite s, FloatValue.infinite t => s && !t
  | FloatValue.infinite s, FloatValue.finite _ _ _ => s
  | FloatValue.finite _ _ _, FloatValue.infinite t => !t
  | FloatValue.finite s m e, FloatValue.finite t n f =>
    let exponent := min e f
    let a := m * 2 ^ (e - exponent).toNat
    let b := n * 2 ^ (f - exponent).toNat
    if s then
      if t then decide (b < a) else decide (a ≠ 0 ∨ b ≠ 0)
    else
      if t then false else decide (a < b)

/-- The conversion of a value to a format, as in the conversion of a `double` to
`float`, which rounds, and of a `float` to `double`, which is exact. -/
def FloatValue.convert (format : FloatFormat) : FloatValue → FloatValue
  | FloatValue.finite s m e => format.round s m 1 e
  | FloatValue.infinite s => FloatValue.infinite s
  | FloatValue.nan => FloatValue.nan

/-- The decimal literal `mantissa * 10^(-decimal_exponent)` (or
`mantissa * 10^decimal_exponent`) in a format. -/
def FloatFormat.of_scientific (format : FloatFormat) (mantissa : ℕ)
    (exponent_sign : Bool) (decimal_exponent : ℕ) : FloatValue :=
  if exponent_sign then format.round false mantissa (10 ^ decimal_exponent) 0
  else format.round false (mantissa * 10 ^ decimal_exponent) 1 0

/-- The type `float`. -/
structure Binary32 where
  value : FloatValue
  deriving DecidableEq, Repr

/-- The type `double`. -/
structure Binary64 where
  value : FloatValue
  deriving DecidableEq, Repr

instance Binary32.instAdd : Add Binary32 :=
  ⟨fun x y => ⟨FloatValue.add binary32 x.value y.value⟩⟩

instance Binary32.instSub : Sub Binary32 :=
  ⟨fun x y => ⟨FloatValue.sub binary32 x.value y.value⟩⟩

instance Binary32.instMul : Mul Binary32 :=
  ⟨fun x y => ⟨FloatValue.mul binary32 x.value y.value⟩⟩

instance Binary32.instDiv : Div Binary32 :=
  ⟨fun x y => ⟨FloatValue.div binary32 x.value y.value⟩⟩

instance Binary32.instNeg : Neg Binary32 :=
  ⟨fun x => ⟨x.value.neg⟩⟩

instance Binary32.instZero : Zero Binary32 :=
  ⟨⟨binary32.of_scientific 0 false 0⟩⟩

instance Binary32.instOne : One Binary32 :=
  ⟨⟨binary32.of_scientific 1 false 0⟩⟩

instance Binary32.instOfScientific : OfScientific Binary32 :=
  ⟨fun mantissa exponent_sign decimal_exponent =>
    ⟨binary32.of_scientific mantissa exponent_sign decimal_exponent⟩⟩

instance Binary32.instLT : LT Binary32 :=
  ⟨fun x y => FloatValue.lt x.value y.value = true⟩

instance Binary32.instDecidableLT : DecidableRel (fun x y : Binary32 => x < y) :=
  fun x y => inferInstanceAs (Decidable (FloatValue.lt x.value y.value = true))

instance Binary64.instMul : Mul Binary64 :=
  ⟨fun x y => ⟨FloatValue.mul binary64 x.value y.value⟩⟩

instance Binary64.instDiv : Div Binary64 :=
  ⟨fun x y => ⟨FloatValue.div binary64 x.value y.value⟩⟩

instance Binary64.instOfScientific : OfScientific Binary64 :=
  ⟨fun mantissa exponent_sign decimal_exponent =>
    ⟨binary64.of_scientific mantissa exponent_sign decimal_exponent⟩⟩

/-- The conversions between the type `F` of `float` and the type `D` of `double`. -/
structure FloatConversion (F D : Type) where
  to_double : F → D
  to_float : D → F

/-- Exact arithmetic: `float` and `double` are the same field and no operation rounds. -/
def FloatConversion.exact (K : Type) : FloatConversion K K :=
  { to_double := fun x => x, to_float := fun x => x }

/-- The arithmetic of the machine: `float` is binary32, `double` is binary64. -/
def FloatConversion.ieee : FloatConversion Binary32 Binary64 :=
  { to_double := fun x => ⟨x.value.convert binary64⟩
    to_float := fun x => ⟨x.value.convert binary32⟩ }

/-! ## Resolution: `src/local/buildblock/find_fwhm_in_image.cxx`

A range `[begin_iter, end_iter)` is a list; an iterator is a position in it.  The fit
functions take the types of `float` and `double` with their operations as parameters, so
that they can be run in the arithmetic of the machine and in exact arithmetic. -/

section find_fwhm

variable {K : Type}

/-- The loop of the standard algorithm `std::max_element`: `best` is the position and
value of the largest element so far, replaced only by a strictly larger element. -/
def max_element_from [LT K] [DecidableRel (fun a b : K => a < b)] :
    List K → ℕ → ℕ × K → ℕ × K
  | [], _, best => best
  | x :: rest, i, best =>
    max_element_from rest (i + 1) (if best.2 < x then (i, x) else best)

/-- The standard algorithm `std::max_element`: the position of the first of the largest
elements, and the end position (0) for an empty range. -/
def max_element [LT K] [DecidableRel (fun a b : K => a < b)] : List K → ℕ
  | [] => 0
  | a :: rest => (max_element_from rest 1 (0, a)).1

end find_fwhm

section parabolic_fit

variable {F D : Type} [Add F] [Sub F] [Mul F] [Div F] [Neg F] [Zero F] [One F] [LT F]
  [DecidableRel (fun a b : F => a < b)] [Mul D] [Div D] [OfScientific D]

/-- The function `parabolic_3points_fit_x0` (lines 384-412).  The samples and the local
variables are of type `float`, here `F`.  In the expression for `x0` the literal `0.5` is
a `double`, here `D`: numerator and divisor are computed in `float`, converted to
`double`, multiplied by `0.5` and divided in `double`, and the quotient is converted to
`float`.  The result is `none` if an iterator outside the range is dereferenced. -/
def parabolic_3points_fit_x0 (conversion : FloatConversion F D) (range : List F) :
    Option F :=
  let max_iter := max_element range
  if max_iter + 1 = range.length then some 0
  else if max_iter = 0 then some 0
  else do
    let y1 ← range[max_iter - 1]?
    let y2 ← range[max_iter]?
    let y3 ← range[max_iter + 1]?
    let x1 : F := -1
    let x2 : F := 0
    let x3 : F := 1
    let a1 := (x1 - x2) * (x1 - x3)
    let a2 := (x2 - x1) * (x2 - x3)
    let a3 := (x3 - x2) * (x3 - x1)
    let x0 := conversion.to_float
      (0.5
        * conversion.to_double
          (x1 * a1 * (y2 * a3 + y3 * a2) + x2 * a2 * (y1 * a3 + y3 * a1)
            + x3 * a3 * (y1 * a2 + y2 * a1))
        / conversion.to_double (y1 * a2 * a3 + y2 * a1 * a3 + y3 * a1 * a2))
    some x0

/-- The function `parabolic_3points_fit` (lines 350-382), with `float` and `double` as in
`parabolic_3points_fit_x0`.  The result is `none` if an iterator outside the range is
dereferenced. -/
def parabolic_3points_fit (conversion : FloatConversion F D) (range : List F) :
    Option F :=
  let max_iter := max_element range
  if max_iter + 1 = range.length ∨ max_iter = 0 then range[max_iter]?
  else do
    let y1 ← range[max_iter - 1]?
    let y2 ← range[max_iter]?
    let y3 ← range[max_iter + 1]?
    let x1 : F := -1
    let x2 : F := 0
    let x3 : F := 1
    let a1 := (x1 - x2) * (x1 - x3)
    let a2 := (x2 - x1) * (x2 - x3)
    let a3 := (x3 - x2) * (x3 - x1)
    let x0 := conversion.to_float
      (0.5
        * conversion.to_double
          (x1 * a1 * (y2 * a3 + y3 * a2) + x2 * a2 * (y1 * a3 + y3 * a1)
            + x3 * a3 * (y1 * a2 + y2 * a1))
        / conversion.to_double (y1 * a2 * a3 + y2 * a1 * a3 + y3 * a1 * a2))
    let real_max_value := ((x0 - x2) * (x0 - x3) * y1 / a1)
      + ((x0 - x1) * (x0 - x3) * y2 / a2)
      + ((x0 - x1) * (x0 - x2) * y3 / a3)
    some real_max_value

end parabolic_fit

section find_level

variable {K : Type}

/-- The element `*iter` for an iterator at position `i` relative to `begin_iterator`;
`none` when the position is outside the range. -/
def dereference (range : List K) (i : ℤ) : Option K :=
  if i < 0 then none else range[i.toNat]?

variable [LT K] [DecidableRel (fun a b : K => a < b)]

/-- The loop `while (current_iter != end_iterator && *current_iter > level_height)
++current_iter` (line 117): `remaining` holds the elements from `current_iter` to the end
of the range, and the result is the position where the loop stops. -/
def find_level_scan_right (level_height : K) : List K → ℕ → ℕ
  | [], current_iter => current_iter
  | x :: remaining, current_iter =>
    if x > level_height then find_level_scan_right level_height remaining (current_iter + 1)
    else current_iter

/-- The loop `while (current_iter != begin_iterator-1 && *current_iter > level_height)
--current_iter` (line 129), started at the given position.  The result is the position
where the loop stops, -1 for `begin_iterator-1`; it is `none` if the loop dereferences a
position outside the range. -/
def find_level_scan_left (range : List K) (level_height : K) : ℕ → Option ℤ
  | 0 =>
    match range[0]? with
    | none => none
    | some x => if x > level_height then some (-1) else some 0
  | current_iter + 1 =>
    match range[current_iter + 1]? with
    | none => none
    | some x =>
      if x > level_height then find_level_scan_left range level_height current_iter
      else some ((current_iter : ℤ) + 1)

variable [Field K]

/-- The function `find_level_width(begin_iterator, current_max_iterator, end_iterator,
level_height)` (lines 109-141); `current_max` is the position of `current_max_iterator`.
The two warnings only print.  The result is `none` if an iterator outside the range is
dereferenced. -/
def find_level_width (range : List K) (current_max : ℕ) (level_height : K) : Option K := do
  let max_position : ℤ := (current_max : ℤ) + 1
  let current_iter : ℤ :=
    (find_level_scan_right level_height (range.drop current_max) current_max : ℕ)
  let at_current ← dereference range current_iter
  let at_previous ← dereference range (current_iter - 1)
  let right_level_max := (at_current - level_height) / (at_current - at_previous)
  let right_level_max := ((current_iter - (0 + max_position) : ℤ) : K) - right_level_max
  let current_iter ← find_level_scan_left range level_height current_max
  let at_current ← dereference range current_iter
  let at_next ← dereference range (current_iter + 1)
  let left_level_max := (at_current - level_height) / (at_current - at_next)
  let left_level_max := left_level_max + ((current_iter - (0 + max_position) : ℤ) : K)
  some (right_level_max - left_level_max)

/-- The overload `find_level_width(begin_iterator, end_iterator, level_height)` (lines
143-152), which starts at `std::max_element`. -/
def find_level_width_of_max (range : List K) (level_height : K) : Option K :=
  find_level_width range (max_element range) level_height

end find_level

/-! ## Singles rates: `src/local/buildblock/SinglesRatesFromSglFile.cxx` -/

/-- What a call of `get_singles_rate` can do wrong: read `times[i]` or `singles[i]` with
an index outside the container, or divide by zero. -/
inductive SinglesFault where
  | times_index_out_of_range (i : ℤ)
  | singles_index_out_of_range (i : ℤ)
  | division_by_zero
  deriving DecidableEq, Repr

/-- The class `DetectionPosition<>`, seen through the two coordinates used here. -/
structure DetectionPosition where
  axial_coord : ℤ
  tangential_coord : ℤ
  deriving DecidableEq, Repr

/-- The data members of the class `SinglesRatesFromSglFile` that `get_singles_rate` uses.
The array `singles` has the index range `[0, number_of_elements - 1] x [0, 2] x [0, 35]`
(line 97). -/
structure SinglesRatesFromSglFile (K : Type) where
  singles : ℤ → ℤ → ℤ → K
  number_of_elements : ℤ
  times : List K
  singles_time_interval : K
  trans_blocks_per_bucket : ℤ
  angular_crystals_per_block : ℤ
  axial_crystals_per_block : ℤ

section singles_rates

variable {K : Type} [LinearOrderedField K] [FloorRing K]

/-- The conversion `static_cast<int>` of a floating-point value: truncation towards
zero. -/
def static_cast_int (x : K) : ℤ :=
  if 0 ≤ x then ⌊x⌋ else ⌈x⌉

/-- The read `times[i]`. -/
def SinglesRatesFromSglFile.read_times (rates : SinglesRatesFromSglFile K) (i : ℕ) :
    Except SinglesFault K :=
  match rates.times[i]? with
  | some t => Except.ok t
  | none => Except.error (SinglesFault.times_index_out_of_range i)

/-- The read `singles[i][axial_bucket_num][transaxial_bucket_num]`. -/
def SinglesRatesFromSglFile.read_singles (rates : SinglesRatesFromSglFile K) (i : ℤ)
    (axial_bucket_num transaxial_bucket_num : ℤ) : Except SinglesFault K :=
  if 0 ≤ i ∧ i ≤ rates.number_of_elements - 1 ∧
      0 ≤ axial_bucket_num ∧ axial_bucket_num ≤ 2 ∧
      0 ≤ transaxial_bucket_num ∧ transaxial_bucket_num ≤ 35 then
    Except.ok (rates.singles i axial_bucket_num transaxial_bucket_num)
  else Except.error (SinglesFault.singles_index_out_of_range i)

/-- The loop `while (start_index<times.size() && times[start_index+1]<start_time)
++start_index` (lines 184-186); the result is the final `start_index`. -/
def SinglesRatesFromSglFile.advance_start_index (rates : SinglesRatesFromSglFile K)
    (start_time : K) (start_index : ℕ) : Except SinglesFault ℕ :=
  if start_index < rates.times.length then
    match rates.read_times (start_index + 1) with
    | Except.error e => Except.error e
    | Except.ok t =>
      if t < start_time then rates.advance_start_index start_time (start_index + 1)
      else Except.ok start_index
  else Except.ok start_index
termination_by rates.times.length - start_index

/-- The loop `for (i = start_index; i<=times.size() && times[i]<end_time; i++)` (lines
192-195); the result is the final `i` and `singles_average`. -/
def SinglesRatesFromSglFile.sum_singles (rates : SinglesRatesFromSglFile K)
    (end_time : K) (axial_bucket_num transaxial_bucket_num : ℤ) (i : ℕ)
    (singles_average : K) : Except SinglesFault (ℕ × K) :=
  if i ≤ rates.times.length then
    match rates.read_times i with
    | Except.error e => Except.error e
    | Except.ok t =>
      if t < end_time then
        match rates.read_singles i axial_bucket_num transaxial_bucket_num with
        | Except.error e => Except.error e
        | Except.ok x =>
          rates.sum_singles end_time axial_bucket_num transaxial_bucket_num (i + 1)
            (singles_average + x)
      else Except.ok (i, singles_average)
  else Except.ok (i, singles_average)
termination_by rates.times.length + 1 - i

/-- The member `get_singles_rate` (lines 141-208), with the branch `#if 1`.  Integer
division is the truncating division of C++. -/
def SinglesRatesFromSglFile.get_singles_rate (rates : SinglesRatesFromSglFile K)
    (det_pos : DetectionPosition) (start_time end_time : K) : Except SinglesFault K :=
  let denom := rates.trans_blocks_per_bucket * rates.angular_crystals_per_block
  let axial_pos := det_pos.axial_coord
  let transaxial_pos := det_pos.tangential_coord
  let axial_bucket_num := Int.tdiv axial_pos (2 * rates.axial_crystals_per_block)
  let transaxial_bucket_num := Int.tdiv transaxial_pos denom
  if start_time = end_time ∧ start_time ≤ 2.1 then
    match rates.read_singles 0 axial_bucket_num transaxial_bucket_num with
    | Except.error e => Except.error e
    | Except.ok x => Except.ok (x / 4)
  else
    let min_index : ℤ := 0
    let start_index :=
      max (static_cast_int (start_time / rates.singles_time_interval) - 3) min_index
    match rates.advance_start_index start_time start_index.toNat with
    | Except.error e => Except.error e
    | Except.ok start_index =>
      match rates.sum_singles end_time axial_bucket_num transaxial_bucket_num
          start_index 0 with
      | Except.error e => Except.error e
      | Except.ok (i, singles_average) =>
        if 4 * ((i : ℤ) - (start_index : ℤ)) = 0 then
          Except.error SinglesFault.division_by_zero
        else Except.ok (singles_average / ((4 * ((i : ℤ) - (start_index : ℤ)) : ℤ) : K))

end singles_rates

/-- Singles rates for evaluation: two records at 2 s and 4 s, every singles value 1. -/
def scenario_singles_rates : SinglesRatesFromSglFile ℚ :=
  { singles := fun _ _ _ => 1
    number_of_elements := 2
    times := [2, 4]
    singles_time_interval := 2
    trans_blocks_per_bucket := 4
    angular_crystals_per_block := 8
    axial_crystals_per_block := 8 }

/-! ## The fan of `LmFansums::compute` in `src/local/listmode/lm_fansums.cxx` -/

/-- Lines 375-376: `det_num_diff = (a-b+3*num_detectors_per_ring/2)%num_detectors_per_ring`,
with the truncating division and remainder of C++. -/
def det_num_diff (num_detectors_per_ring a b : ℤ) : ℤ :=
  Int.tmod (a - b + Int.tdiv (3 * num_detectors_per_ring) 2) num_detectors_per_ring

/-- Lines 377-378: the condition under which an event with detectors `a` and `b` is
stored in the fan sums. -/
def fan_accepts (num_detectors_per_ring fan_size a b : ℤ) : Prop :=
  det_num_diff num_detectors_per_ring a b ≤ Int.tdiv fan_size 2 ∨
    det_num_diff num_detectors_per_ring a b
      ≥ num_detectors_per_ring - Int.tdiv fan_size 2

instance fan_accepts_decidable (num_detectors_per_ring fan_size a b : ℤ) :
    Decidable (fan_accepts num_detectors_per_ring fan_size a b) := by
  unfold fan_accepts
  infer_instance

/-! ## Corrections of projection data: `src/utilities/correct_projdata.cxx`

A set of related viewgrams is a function from its bins (the index type `ι`) to scalars;
the operators `+=`, `-=`, `*=`, `/=` of `RelatedViewgrams` act bin by bin. -/

/-- The class `ViewSegmentNumbers`. -/
structure ViewSegmentNumbers where
  view_num : ℤ
  segment_num : ℤ
  deriving DecidableEq, Repr

/-- The class `ProjData`, seen through the members used by `correct_projection_data`:
the segment and view ranges and, for every view and segment, the related viewgrams. -/
structure ProjData (ι K : Type) where
  min_segment_num : ℤ
  max_segment_num : ℤ
  min_view_num : ℤ
  max_view_num : ℤ
  related_viewgrams : ViewSegmentNumbers → ι → K

/-- The abstract class `BinNormalisation`, seen through its virtual members
`apply(viewgrams, start_time, end_time)` and `undo(viewgrams, start_time, end_time)`;
each returns the viewgrams after the call. -/
structure BinNormalisation (ι K : Type) where
  apply : (ι → K) → K → K → (ι → K)
  undo : (ι → K) → K → K → (ι → K)

/-- The abstract class `ForwardProjectorByBin`, seen through the members used here:
whether a view and segment is basic for the symmetries it uses, and the viewgrams that
`forward_project` computes from an image. -/
structure ForwardProjectorByBin (ι K : Type) where
  is_basic : ViewSegmentNumbers → Bool
  forward_project : VoxelsOnCartesianGrid K → ViewSegmentNumbers → ι → K

section correct_projdata

variable {ι K : Type}

/-- The member `get_related_viewgrams`. -/
def ProjData.get_related_viewgrams (projdata : ProjData ι K)
    (view_seg_nums : ViewSegmentNumbers) : ι → K :=
  projdata.related_viewgrams view_seg_nums

/-- The member `get_empty_related_viewgrams`: viewgrams filled with 0. -/
def ProjData.get_empty_related_viewgrams [Zero K] (_projdata : ProjData ι K)
    (_view_seg_nums : ViewSegmentNumbers) : ι → K :=
  fun _ => 0

/-- The member `set_related_viewgrams`, which stores the viewgrams. -/
def ProjData.set_related_viewgrams (projdata : ProjData ι K)
    (view_seg_nums : ViewSegmentNumbers) (viewgrams : ι → K) : ProjData ι K :=
  { projdata with
    related_viewgrams := fun vs =>
      if vs = view_seg_nums then viewgrams else projdata.related_viewgrams vs }

variable [Field K]

/-- Lines 191-305 of `correct_projection_data`: the viewgrams that one pass of the inner
loop hands to `set_related_viewgrams`.  A null `shared_ptr` is `none`; `exp` is the
exponential used by `in_place_exp`; `start_frame` and `end_frame` are the values of
`frame_def.get_start_time(frame_num)` and `frame_def.get_end_time(frame_num)`. -/
def corrected_viewgrams (exp : K → K) (output_projdata input_projdata : ProjData ι K)
    (use_data_or_set_to_1 apply_or_undo_correction : Bool)
    (scatter_projdata_ptr : Option (ProjData ι K))
    (attenuation_image_ptr : Option (VoxelsOnCartesianGrid K))
    (forward_projector_ptr : ForwardProjectorByBin ι K)
    (normalisation : BinNormalisation ι K)
    (randoms_projdata_ptr : Option (ProjData ι K))
    (start_frame end_frame : K) (view_seg_nums : ViewSegmentNumbers) : ι → K :=
  let viewgrams := output_projdata.get_empty_related_viewgrams view_seg_nums
  let viewgrams :=
    if use_data_or_set_to_1 then
      viewgrams + input_projdata.get_related_viewgrams view_seg_nums
    else fun _ => 1
  let viewgrams :=
    match scatter_projdata_ptr with
    | some scatter_projdata =>
      if !apply_or_undo_correction then
        viewgrams + scatter_projdata.get_related_viewgrams view_seg_nums
      else viewgrams
    | none => viewgrams
  let viewgrams :=
    match randoms_projdata_ptr with
    | some randoms_projdata =>
      if apply_or_undo_correction then
        viewgrams - randoms_projdata.get_related_viewgrams view_seg_nums
      else viewgrams
    | none => viewgrams
  let viewgrams :=
    if apply_or_undo_correction then normalisation.apply viewgrams start_frame end_frame
    else normalisation.undo viewgrams start_frame end_frame
  let viewgrams :=
    match attenuation_image_ptr with
    | some attenuation_image =>
      let attenuation_viewgrams : ι → K := fun bin =>
        exp (forward_projector_ptr.forward_project attenuation_image view_seg_nums bin)
      if apply_or_undo_correction then viewgrams * attenuation_viewgrams
      else viewgrams / attenuation_viewgrams
    | none => viewgrams
  let viewgrams :=
    match scatter_projdata_ptr with
    | some scatter_projdata =>
      if apply_or_undo_correction then
        viewgrams - scatter_projdata.get_related_viewgrams view_seg_nums
      else viewgrams
    | none => viewgrams
  let viewgrams :=
    match randoms_projdata_ptr with
    | some randoms_projdata =>
      if !apply_or_undo_correction then
        viewgrams + randoms_projdata.get_related_viewgrams view_seg_nums
      else viewgrams
    | none => viewgrams
  viewgrams

/-- The function `correct_projection_data` (lines 158-313): the content of
`output_projdata` after the call.  Without attenuation image the symmetries are the
trivial ones, for which every view and segment is basic. -/
def correct_projection_data (exp : K → K) (output_projdata input_projdata : ProjData ι K)
    (use_data_or_set_to_1 apply_or_undo_correction : Bool)
    (scatter_projdata_ptr : Option (ProjData ι K))
    (attenuation_image_ptr : Option (VoxelsOnCartesianGrid K))
    (forward_projector_ptr : ForwardProjectorByBin ι K)
    (normalisation : BinNormalisation ι K)
    (randoms_projdata_ptr : Option (ProjData ι K))
    (start_frame end_frame : K) : ProjData ι K :=
  let is_basic : ViewSegmentNumbers → Bool :=
    match attenuation_image_ptr with
    | none => fun _ => true
    | some _ => forward_projector_ptr.is_basic
  (index_range output_projdata.min_segment_num output_projdata.max_segment_num).foldl
    (fun output segment_num =>
      (index_range input_projdata.min_view_num input_projdata.max_view_num).foldl
        (fun output view_num =>
          if !is_basic { view_num := view_num, segment_num := segment_num } then output
          else
            output.set_related_viewgrams
              { view_num := view_num, segment_num := segment_num }
              (corrected_viewgrams exp output_projdata input_projdata
                use_data_or_set_to_1 apply_or_undo_correction scatter_projdata_ptr
                attenuation_image_ptr forward_projector_ptr normalisation
                randoms_projdata_ptr start_frame end_frame
                { view_num := view_num, segment_num := segment_num }))
        output)
    output_projdata

end correct_projdata

/-- A normalisation for evaluation: `apply` adds 1 to every bin and `undo` subtracts 1
from every bin, so that `undo` inverts `apply`. -/
def scenario_additive_normalisation (ι K : Type) [Field K] : BinNormalisation ι K :=
  { apply := fun viewgrams _ _ => viewgrams + 1
    undo := fun viewgrams _ _ => viewgrams - 1 }

/-- A normalisation for evaluation: `apply` multiplies every bin by 3 and `undo` divides
every bin by 3. -/
def scenario_multiplicative_normalisation (ι K : Type) [Field K] : BinNormalisation ι K :=
  { apply := fun viewgrams _ _ => viewgrams * 3
    undo := fun viewgrams _ _ => viewgrams / 3 }

/-- Projection data for evaluation: one segment, one view, one bin, with value `value`. -/
def scenario_proj_data (K : Type) (value : K) : ProjData Unit K :=
  { min_segment_num := 0, max_segment_num := 0, min_view_num := 0, max_view_num := 0
    related_viewgrams := fun _ _ => value }

/-- A forward projector for evaluation: every line integral is 1 and every view and
segment is basic. -/
def scenario_forward_projector (K : Type) [One K] : ForwardProjectorByBin Unit K :=
  { is_basic := fun _ => true
    forward_project := fun _ _ _ => 1 }

/-- An attenuation image for evaluation, of one voxel. -/
def scenario_attenuation_image (K : Type) [One K] : VoxelsOnCartesianGrid K :=
  { min_z := 0, max_z := 0, min_y := 0, max_y := 0, min_x := 0, max_x := 0
    voxel_size := { z := 1, y := 1, x := 1 }
    voxels := fun _ _ _ => 1 }

/-! ## Results on `get_bin` -/

section theorems

variable {K : Type} [Div K] [Neg K] [One K]

/-- The bin that `get_bin` returns when the conversion succeeds, both rings are in range
and the ring-pair lookup fails. -/
theorem get_bin_of_lookup_failed (round : K → ℤ) (bin0 : Bin K)
    (pdi : ProjDataInfoCylindricalArcCorr K) (lor : LOR K)
    (lor_coords : LORInAxialAndSinogramCoordinates K)
    (hconv : lor.change_representation pdi.get_ring_radius = some lor_coords)
    (hring : get_bin_ring1 round pdi lor_coords ≥ 0 ∧
      get_bin_ring1 round pdi lor_coords < pdi.scanner_ptr.get_num_rings ∧
      get_bin_ring2 round pdi lor_coords ≥ 0 ∧
      get_bin_ring2 round pdi lor_coords < pdi.scanner_ptr.get_num_rings)
    (hfound : (pdi.get_segment_axial_pos_num_for_ring_pair bin0.segment_num
      bin0.axial_pos_num (get_bin_ring1 round pdi lor_coords)
      (get_bin_ring2 round pdi lor_coords)).1 ≠ Succeeded.yes) :
    get_bin round bin0 pdi lor =
      { segment_num := (pdi.get_segment_axial_pos_num_for_ring_pair bin0.segment_num
          bin0.axial_pos_num (get_bin_ring1 round pdi lor_coords)
          (get_bin_ring2 round pdi lor_coords)).2.1
        view_num := get_bin_view_num round pdi lor_coords
        axial_pos_num := (pdi.get_segment_axial_pos_num_for_ring_pair bin0.segment_num
          bin0.axial_pos_num (get_bin_ring1 round pdi lor_coords)
          (get_bin_ring2 round pdi lor_coords)).2.2
        tangential_pos_num := bin0.tangential_pos_num
        bin_value := -1 } := by
  simp only [get_bin, hconv]
  rw [if_neg (not_not_intro hring), if_pos hfound]
  rfl

/-- The bin that `get_bin` returns when the conversion succeeds, both rings are in range
and the ring-pair lookup succeeds: the value is -1 if the tangential position is out of
range and the value of the default-constructed bin otherwise. -/
theorem get_bin_of_lookup_succeeded (round : K → ℤ) (bin0 : Bin K)
    (pdi : ProjDataInfoCylindricalArcCorr K) (lor : LOR K)
    (lor_coords : LORInAxialAndSinogramCoordinates K)
    (hconv : lor.change_representation pdi.get_ring_radius = some lor_coords)
    (hring : get_bin_ring1 round pdi lor_coords ≥ 0 ∧
      get_bin_ring1 round pdi lor_coords < pdi.scanner_ptr.get_num_rings ∧
      get_bin_ring2 round pdi lor_coords ≥ 0 ∧
      get_bin_ring2 round pdi lor_coords < pdi.scanner_ptr.get_num_rings)
    (hfound : (pdi.get_segment_axial_pos_num_for_ring_pair bin0.segment_num
      bin0.axial_pos_num (get_bin_ring1 round pdi lor_coords)
      (get_bin_ring2 round pdi lor_coords)).1 = Succeeded.yes) :
    get_bin round bin0 pdi lor =
      { segment_num := (pdi.get_segment_axial_pos_num_for_ring_pair bin0.segment_num
          bin0.axial_pos_num (get_bin_ring1 round pdi lor_coords)
          (get_bin_ring2 round pdi lor_coords)).2.1
        view_num := get_bin_view_num round pdi lor_coords
        axial_pos_num := (pdi.get_segment_axial_pos_num_for_ring_pair bin0.segment_num
          bin0.axial_pos_num (get_bin_ring1 round pdi lor_coords)
          (get_bin_ring2 round pdi lor_coords)).2.2
        tangential_pos_num := get_bin_tangential_pos_num round pdi lor_coords
        bin_value :=
          if get_bin_tangential_pos_num round pdi lor_coords
                < pdi.get_min_tangential_pos_num ∨
              get_bin_tangential_pos_num round pdi lor_coords
                > pdi.get_max_tangential_pos_num then -1
          else bin0.bin_value } := by
  simp only [get_bin, hconv]
  rw [if_neg (not_not_intro hring), if_neg (not_not_intro hfound)]
  split_ifs <;> rfl

/-- C1: if the conversion of the line of response to axial and sinogram coordinates
fails, `get_bin` returns the default-constructed bin with its value set to -1.  The
result mentions neither `round` nor any sampling of the projection-data info: no view,
ring or tangential computation takes part in it.  No error is raised: `get_bin` is a
total function and no `assert` is reached. -/
theorem get_bin_conversion_failed (round : K → ℤ) (bin0 : Bin K)
    (pdi : ProjDataInfoCylindricalArcCorr K) (lor : LOR K)
    (hconv : lor.change_representation pdi.get_ring_radius = none) :
    get_bin round bin0 pdi lor = bin0.set_bin_value (-1) ∧
      (get_bin round bin0 pdi lor).bin_value = -1 ∧
      get_bin_asserts round pdi lor := by
  simp [get_bin, get_bin_asserts, hconv, Bin.set_bin_value]

/-- C1, at a concrete input: a line of response outside the detector cylinder. -/
theorem get_bin_conversion_failed_witness :
    get_bin round_to_nearest scenario_bin0 scenario_proj_data_info lor_outside_cylinder
        = scenario_bin0.set_bin_value (-1) ∧
      (get_bin round_to_nearest scenario_bin0 scenario_proj_data_info
        lor_outside_cylinder).bin_value = -1 ∧
      get_bin_asserts round_to_nearest scenario_proj_data_info lor_outside_cylinder :=
  get_bin_conversion_failed round_to_nearest scenario_bin0 scenario_proj_data_info
    lor_outside_cylinder rfl

/-- C2: if the conversion succeeds and `ring1` or `ring2` (the rounded axial positions
divided by the ring spacing, after the direction swap) lies outside `[0, num_rings)`,
`get_bin` returns a bin with value -1, whatever the ring-pair lookup of the
projection-data info is. -/
theorem get_bin_ring_out_of_range (round : K → ℤ) (bin0 : Bin K)
    (pdi : ProjDataInfoCylindricalArcCorr K) (lor : LOR K)
    (lor_coords : LORInAxialAndSinogramCoordinates K)
    (hconv : lor.change_representation pdi.get_ring_radius = some lor_coords)
    (hring : get_bin_ring1 round pdi lor_coords < 0 ∨
      get_bin_ring1 round pdi lor_coords ≥ pdi.scanner_ptr.get_num_rings ∨
      get_bin_ring2 round pdi lor_coords < 0 ∨
      get_bin_ring2 round pdi lor_coords ≥ pdi.scanner_ptr.get_num_rings) :
    (get_bin round bin0 pdi lor).bin_value = -1 := by
  have hnot : ¬ (get_bin_ring1 round pdi lor_coords ≥ 0 ∧
      get_bin_ring1 round pdi lor_coords < pdi.scanner_ptr.get_num_rings ∧
      get_bin_ring2 round pdi lor_coords ≥ 0 ∧
      get_bin_ring2 round pdi lor_coords < pdi.scanner_ptr.get_num_rings) := by
    omega
  simp only [get_bin, hconv]
  rw [if_pos hnot]
  rfl

/-- C2, at a concrete input: the first axial position, 100 mm, is ring 32 of 24. -/
theorem get_bin_ring_out_of_range_witness :
    get_bin_ring1 round_to_nearest scenario_proj_data_info
        { phi := 1 / 20, s := 1, z1 := 100, z2 := 50 } = 32 ∧
      (get_bin round_to_nearest scenario_bin0 scenario_proj_data_info
        (lor_with_coords { phi := 1 / 20, s := 1, z1 := 100, z2 := 50 })).bin_value = -1 := by
  have hring1 : get_bin_ring1 round_to_nearest scenario_proj_data_info
      { phi := 1 / 20, s := 1, z1 := 100, z2 := 50 } = 32 := by
    simp [get_bin_ring1, get_bin_swap_direction, get_bin_view_num, round_to_nearest,
      scenario_proj_data_info]
    norm_num
  refine ⟨hring1, ?_⟩
  apply get_bin_ring_out_of_range round_to_nearest scenario_bin0 scenario_proj_data_info
    (lor_with_coords { phi := 1 / 20, s := 1, z1 := 100, z2 := 50 })
    { phi := 1 / 20, s := 1, z1 := 100, z2 := 50 } rfl
  rw [hring1]
  simp [scenario_proj_data_info]

/-- When the direction is swapped, the view number that `get_bin` returns is the rounded
one, which is above `get_max_view_num`: it is not brought back into the view range. -/
theorem get_bin_view_num_of_swap (round : K → ℤ) (bin0 : Bin K)
    (pdi : ProjDataInfoCylindricalArcCorr K) (lor : LOR K)
    (lor_coords : LORInAxialAndSinogramCoordinates K)
    (hconv : lor.change_representation pdi.get_ring_radius = some lor_coords)
    (hswap : get_bin_swap_direction round pdi lor_coords = true) :
    (get_bin round bin0 pdi lor).view_num > pdi.get_max_view_num := by
  have hview : get_bin_view_num round pdi lor_coords > pdi.get_max_view_num := by
    simpa [get_bin_swap_direction] using hswap
  simp only [get_bin, hconv]
  split_ifs <;> exact hview

/-- C3: a line of response with `phi` = 3.13 (below pi) in the concrete scenario of 60
views.  `phi` rounds to view 60 = `num_views`, both `assert` statements hold, the rings
(16, 16) and the tangential position -2 pass their checks, and `get_bin` returns a bin
whose value is not -1 and whose view number is 60, outside the view range `[0, 59]`. -/
theorem get_bin_boundary_view_out_of_range :
    get_bin round_to_nearest scenario_bin0 scenario_proj_data_info
        (lor_with_coords { phi := 313 / 100, s := 4, z1 := 50, z2 := 50 })
      = { segment_num := 0, view_num := 60, axial_pos_num := 32, tangential_pos_num := -2,
          bin_value := 0 } ∧
    get_bin_accepts round_to_nearest scenario_bin0 scenario_proj_data_info
        (lor_with_coords { phi := 313 / 100, s := 4, z1 := 50, z2 := 50 }) ∧
    get_bin_asserts round_to_nearest scenario_proj_data_info
        (lor_with_coords { phi := 313 / 100, s := 4, z1 := 50, z2 := 50 }) ∧
    scenario_proj_data_info.get_num_views = 60 ∧
    ¬ (scenario_proj_data_info.get_min_view_num ≤
          (get_bin round_to_nearest scenario_bin0 scenario_proj_data_info
            (lor_with_coords { phi := 313 / 100, s := 4, z1 := 50, z2 := 50 })).view_num ∧
        (get_bin round_to_nearest scenario_bin0 scenario_proj_data_info
            (lor_with_coords { phi := 313 / 100, s := 4, z1 := 50, z2 := 50 })).view_num
          ≤ scenario_proj_data_info.get_max_view_num) := by
  have hbin : get_bin round_to_nearest scenario_bin0 scenario_proj_data_info
        (lor_with_coords { phi := 313 / 100, s := 4, z1 := 50, z2 := 50 })
      = { segment_num := 0, view_num := 60, axial_pos_num := 32, tangential_pos_num := -2,
          bin_value := 0 } := by
    simp [get_bin, get_bin_view_num, get_bin_ring1, get_bin_ring2, get_bin_swap_direction,
      get_bin_tangential_pos_num, round_to_nearest, scenario_bin0, scenario_proj_data_info,
      lor_with_coords, scenario_ring_pair_lookup, Bin.set_bin_value,
      ProjDataInfoCylindricalArcCorr.get_tangential_sampling]
    norm_num
  refine ⟨hbin, ?_, ?_, rfl, ?_⟩
  · simp [get_bin_accepts, get_bin_view_num, get_bin_ring1, get_bin_ring2,
      get_bin_swap_direction, get_bin_tangential_pos_num, round_to_nearest, scenario_bin0,
      scenario_proj_data_info, lor_with_coords, scenario_ring_pair_lookup,
      ProjDataInfoCylindricalArcCorr.get_tangential_sampling]
    norm_num
  · simp [get_bin_asserts, get_bin_view_num, round_to_nearest, scenario_proj_data_info,
      lor_with_coords]
    norm_num
  · rw [hbin]
    simp [scenario_proj_data_info]

/-- C5: if the conversion succeeds, the ring pair is accepted (both rings in range, lookup
successful) and the tangential position is below the minimum or above the maximum,
`get_bin` returns a bin with value -1 whose segment and axial position are the ones the
ring-pair lookup returned. -/
theorem get_bin_tangential_out_of_range (round : K → ℤ) (bin0 : Bin K)
    (pdi : ProjDataInfoCylindricalArcCorr K) (lor : LOR K)
    (lor_coords : LORInAxialAndSinogramCoordinates K) (segment_num axial_pos_num : ℤ)
    (hconv : lor.change_representation pdi.get_ring_radius = some lor_coords)
    (hring : get_bin_ring1 round pdi lor_coords ≥ 0 ∧
      get_bin_ring1 round pdi lor_coords < pdi.scanner_ptr.get_num_rings ∧
      get_bin_ring2 round pdi lor_coords ≥ 0 ∧
      get_bin_ring2 round pdi lor_coords < pdi.scanner_ptr.get_num_rings)
    (hfound : pdi.get_segment_axial_pos_num_for_ring_pair bin0.segment_num
      bin0.axial_pos_num (get_bin_ring1 round pdi lor_coords)
      (get_bin_ring2 round pdi lor_coords) = (Succeeded.yes, segment_num, axial_pos_num))
    (htang : get_bin_tangential_pos_num round pdi lor_coords
          < pdi.get_min_tangential_pos_num ∨
        get_bin_tangential_pos_num round pdi lor_coords
          > pdi.get_max_tangential_pos_num) :
    (get_bin round bin0 pdi lor).bin_value = -1 ∧
      (get_bin round bin0 pdi lor).segment_num = segment_num ∧
      (get_bin round bin0 pdi lor).axial_pos_num = axial_pos_num := by
  rw [get_bin_of_lookup_succeeded round bin0 pdi lor lor_coords hconv hring
    (by rw [hfound])]
  simp [hfound, htang]

/-- C6: if the conversion succeeds, both rings are inside `[0, num_rings)` and the
ring-pair lookup reports `Succeeded::no`, `get_bin` returns a bin with value -1. -/
theorem get_bin_ring_pair_not_found (round : K → ℤ) (bin0 : Bin K)
    (pdi : ProjDataInfoCylindricalArcCorr K) (lor : LOR K)
    (lor_coords : LORInAxialAndSinogramCoordinates K)
    (hconv : lor.change_representation pdi.get_ring_radius = some lor_coords)
    (hring : get_bin_ring1 round pdi lor_coords ≥ 0 ∧
      get_bin_ring1 round pdi lor_coords < pdi.scanner_ptr.get_num_rings ∧
      get_bin_ring2 round pdi lor_coords ≥ 0 ∧
      get_bin_ring2 round pdi lor_coords < pdi.scanner_ptr.get_num_rings)
    (hfound : (pdi.get_segment_axial_pos_num_for_ring_pair bin0.segment_num
      bin0.axial_pos_num (get_bin_ring1 round pdi lor_coords)
      (get_bin_ring2 round pdi lor_coords)).1 = Succeeded.no) :
    (get_bin round bin0 pdi lor).bin_value = -1 := by
  rw [get_bin_of_lookup_failed round bin0 pdi lor lor_coords hconv hring
    (by rw [hfound]; decide)]

/-- C8: if the conversion succeeds, the view number of the returned bin is
`round (phi / azimuthal_angle_sampling)`, on the accepting path and on every rejecting
path, for whichever nearest-integer rule `round` stands for. -/
theorem get_bin_view_num_eq (round : K → ℤ) (bin0 : Bin K)
    (pdi : ProjDataInfoCylindricalArcCorr K) (lor : LOR K)
    (lor_coords : LORInAxialAndSinogramCoordinates K)
    (hconv : lor.change_representation pdi.get_ring_radius = some lor_coords) :
    (get_bin round bin0 pdi lor).view_num
      = round (lor_coords.phi / pdi.get_azimuthal_angle_sampling) := by
  simp only [get_bin, hconv]
  split_ifs <;> rfl

/-- C9: for every accepted line of response the returned segment and axial position are
the ones the ring-pair lookup gives for `(round (z1 / ring_spacing),
round (z2 / ring_spacing))` when the rounded view is at most `get_max_view_num`, and for
the swapped pair when the rounded view exceeds it. -/
theorem get_bin_segment_axial_pos (round : K → ℤ) (bin0 : Bin K)
    (pdi : ProjDataInfoCylindricalArcCorr K) (lor : LOR K)
    (lor_coords : LORInAxialAndSinogramCoordinates K)
    (hconv : lor.change_representation pdi.get_ring_radius = some lor_coords)
    (haccept : get_bin_accepts round bin0 pdi lor) :
    (round (lor_coords.phi / pdi.get_azimuthal_angle_sampling) ≤ pdi.get_max_view_num →
      ((get_bin round bin0 pdi lor).segment_num, (get_bin round bin0 pdi lor).axial_pos_num)
        = (pdi.get_segment_axial_pos_num_for_ring_pair bin0.segment_num bin0.axial_pos_num
            (round (lor_coords.z1 / pdi.get_ring_spacing))
            (round (lor_coords.z2 / pdi.get_ring_spacing))).2) ∧
    (round (lor_coords.phi / pdi.get_azimuthal_angle_sampling) > pdi.get_max_view_num →
      ((get_bin round bin0 pdi lor).segment_num, (get_bin round bin0 pdi lor).axial_pos_num)
        = (pdi.get_segment_axial_pos_num_for_ring_pair bin0.segment_num bin0.axial_pos_num
            (round (lor_coords.z2 / pdi.get_ring_spacing))
            (round (lor_coords.z1 / pdi.get_ring_spacing))).2) := by
  simp only [get_bin_accepts, hconv] at haccept
  obtain ⟨hring, hfound, -⟩ := haccept
  rw [get_bin_of_lookup_succeeded round bin0 pdi lor lor_coords hconv hring hfound]
  constructor
  · intro hview
    have hswap : get_bin_swap_direction round pdi lor_coords = false := by
      simpa [get_bin_swap_direction, get_bin_view_num] using hview
    simp [get_bin_ring1, get_bin_ring2, hswap]
  · intro hview
    have hswap : get_bin_swap_direction round pdi lor_coords = true := by
      simpa [get_bin_swap_direction, get_bin_view_num] using hview
    simp [get_bin_ring1, get_bin_ring2, hswap]

/-- C10: for every line of response that passes the ring checks the returned tangential
position is `round (s / tangential_sampling)` when the direction is not swapped and its
negation when it is swapped; so two such lines with the same `s`, one swapped and one
not, get tangential positions that are negations of each other. -/
theorem get_bin_tangential_pos_num_eq (round : K → ℤ) (bin0 : Bin K)
    (pdi : ProjDataInfoCylindricalArcCorr K) (lor : LOR K)
    (lor_coords : LORInAxialAndSinogramCoordinates K)
    (hconv : lor.change_representation pdi.get_ring_radius = some lor_coords)
    (hring : get_bin_ring1 round pdi lor_coords ≥ 0 ∧
      get_bin_ring1 round pdi lor_coords < pdi.scanner_ptr.get_num_rings ∧
      get_bin_ring2 round pdi lor_coords ≥ 0 ∧
      get_bin_ring2 round pdi lor_coords < pdi.scanner_ptr.get_num_rings)
    (hfound : (pdi.get_segment_axial_pos_num_for_ring_pair bin0.segment_num
      bin0.axial_pos_num (get_bin_ring1 round pdi lor_coords)
      (get_bin_ring2 round pdi lor_coords)).1 = Succeeded.yes) :
    (get_bin round bin0 pdi lor).tangential_pos_num
      = (if round (lor_coords.phi / pdi.get_azimuthal_angle_sampling)
            > pdi.get_max_view_num then
          -round (lor_coords.s / pdi.get_tangential_sampling)
        else round (lor_coords.s / pdi.get_tangential_sampling)) ∧
    ∀ (lor2 : LOR K) (lor_coords2 : LORInAxialAndSinogramCoordinates K),
      lor2.change_representation pdi.get_ring_radius = some lor_coords2 →
      (get_bin_ring1 round pdi lor_coords2 ≥ 0 ∧
        get_bin_ring1 round pdi lor_coords2 < pdi.scanner_ptr.get_num_rings ∧
        get_bin_ring2 round pdi lor_coords2 ≥ 0 ∧
        get_bin_ring2 round pdi lor_coords2 < pdi.scanner_ptr.get_num_rings) →
      (pdi.get_segment_axial_pos_num_for_ring_pair bin0.segment_num
        bin0.axial_pos_num (get_bin_ring1 round pdi lor_coords2)
        (get_bin_ring2 round pdi lor_coords2)).1 = Succeeded.yes →
      lor_coords2.s = lor_coords.s →
      get_bin_swap_direction round pdi lor_coords2
        ≠ get_bin_swap_direction round pdi lor_coords →
      (get_bin round bin0 pdi lor2).tangential_pos_num
        = -(get_bin round bin0 pdi lor).tangential_pos_num := by
  have htang : ∀ (l : LOR K) (c : LORInAxialAndSinogramCoordinates K),
      l.change_representation pdi.get_ring_radius = some c →
      (get_bin_ring1 round pdi c ≥ 0 ∧
        get_bin_ring1 round pdi c < pdi.scanner_ptr.get_num_rings ∧
        get_bin_ring2 round pdi c ≥ 0 ∧
        get_bin_ring2 round pdi c < pdi.scanner_ptr.get_num_rings) →
      (pdi.get_segment_axial_pos_num_for_ring_pair bin0.segment_num
        bin0.axial_pos_num (get_bin_ring1 round pdi c)
        (get_bin_ring2 round pdi c)).1 = Succeeded.yes →
      (get_bin round bin0 pdi l).tangential_pos_num
        = (if get_bin_swap_direction round pdi c = true then
            -round (c.s / pdi.get_tangential_sampling)
          else round (c.s / pdi.get_tangential_sampling)) := by
    intro l c hc hr hf
    rw [get_bin_of_lookup_succeeded round bin0 pdi l c hc hr hf]
    simp only [get_bin_tangential_pos_num]
    split_ifs <;> simp
  constructor
  · rw [htang lor lor_coords hconv hring hfound]
    simp [get_bin_swap_direction, get_bin_view_num]
  · intro lor2 lor_coords2 hconv2 hring2 hfound2 hs hswap
    rw [htang lor lor_coords hconv hring hfound, htang lor2 lor_coords2 hconv2 hring2 hfound2,
      hs]
    cases h1 : get_bin_swap_direction round pdi lor_coords <;>
      cases h2 : get_bin_swap_direction round pdi lor_coords2 <;>
      simp_all

end theorems

section round_trip

variable {F : Type} [Field F]

/-- C4: round trip.  Let `b` be a bin with `0 < view_num < max_view_num` and a tangential
position inside the configured range, and let `(ring1, ring2)` be a ring pair inside
`[0, num_rings)` that the ring-pair lookup sends to the segment and axial position of
`b`.  The line of response with `phi = view_num * azimuthal_angle_sampling`,
`s = tangential_pos_num * tangential_sampling`, `z1 = ring1 * ring_spacing` and
`z2 = ring2 * ring_spacing` is mapped by `get_bin` to a bin with the segment, view, axial
position and tangential position of `b`.  Scalars are exact (a field), the samplings are
not zero, and `round` returns every integer unchanged. -/
theorem get_bin_round_trip (round : F → ℤ) (bin0 b : Bin F)
    (pdi : ProjDataInfoCylindricalArcCorr F) (lor : LOR F) (ring1 ring2 : ℤ)
    (hround : ∀ n : ℤ, round (n : F) = n)
    (hphi : pdi.get_azimuthal_angle_sampling ≠ 0)
    (hspacing : pdi.get_ring_spacing ≠ 0)
    (hsampling : pdi.get_tangential_sampling ≠ 0)
    (hview : 0 < b.view_num ∧ b.view_num < pdi.get_max_view_num)
    (htang : pdi.get_min_tangential_pos_num ≤ b.tangential_pos_num ∧
      b.tangential_pos_num ≤ pdi.get_max_tangential_pos_num)
    (hring1 : 0 ≤ ring1 ∧ ring1 < pdi.scanner_ptr.get_num_rings)
    (hring2 : 0 ≤ ring2 ∧ ring2 < pdi.scanner_ptr.get_num_rings)
    (hpair : pdi.get_segment_axial_pos_num_for_ring_pair bin0.segment_num
      bin0.axial_pos_num ring1 ring2 = (Succeeded.yes, b.segment_num, b.axial_pos_num))
    (hlor : lor.change_representation pdi.get_ring_radius = some
      { phi := (b.view_num : F) * pdi.get_azimuthal_angle_sampling
        s := (b.tangential_pos_num : F) * pdi.get_tangential_sampling
        z1 := (ring1 : F) * pdi.get_ring_spacing
        z2 := (ring2 : F) * pdi.get_ring_spacing }) :
    (get_bin round bin0 pdi lor).segment_num = b.segment_num ∧
      (get_bin round bin0 pdi lor).view_num = b.view_num ∧
      (get_bin round bin0 pdi lor).axial_pos_num = b.axial_pos_num ∧
      (get_bin round bin0 pdi lor).tangential_pos_num = b.tangential_pos_num ∧
      (get_bin round bin0 pdi lor).bin_value = bin0.bin_value := by
  set lor_coords : LORInAxialAndSinogramCoordinates F :=
    { phi := (b.view_num : F) * pdi.get_azimuthal_angle_sampling
      s := (b.tangential_pos_num : F) * pdi.get_tangential_sampling
      z1 := (ring1 : F) * pdi.get_ring_spacing
      z2 := (ring2 : F) * pdi.get_ring_spacing } with hcoords
  have hv : get_bin_view_num round pdi lor_coords = b.view_num := by
    simp only [get_bin_view_num, hcoords, mul_div_cancel_right₀ _ hphi, hround]
  have hswap : get_bin_swap_direction round pdi lor_coords = false := by
    simp only [get_bin_swap_direction, hv, decide_eq_false_iff_not]
    omega
  have hr1 : get_bin_ring1 round pdi lor_coords = ring1 := by
    simp [get_bin_ring1, hswap, hcoords, mul_div_cancel_right₀ _ hspacing, hround]
  have hr2 : get_bin_ring2 round pdi lor_coords = ring2 := by
    simp [get_bin_ring2, hswap, hcoords, mul_div_cancel_right₀ _ hspacing, hround]
  have ht : get_bin_tangential_pos_num round pdi lor_coords = b.tangential_pos_num := by
    simp [get_bin_tangential_pos_num, hswap, hcoords, mul_div_cancel_right₀ _ hsampling,
      hround]
  rw [get_bin_of_lookup_succeeded round bin0 pdi lor lor_coords hlor
    (by rw [hr1, hr2]; exact ⟨hring1.1, hring1.2, hring2.1, hring2.2⟩)
    (by rw [hr1, hr2, hpair])]
  have hin : ¬ (b.tangential_pos_num < pdi.get_min_tangential_pos_num ∨
      b.tangential_pos_num > pdi.get_max_tangential_pos_num) := by
    omega
  simp only [hv, hr1, hr2, ht, hpair, if_neg hin, and_self]

end round_trip

/-- The nearest-integer rule of the concrete scenario returns every integer unchanged. -/
theorem round_to_nearest_intCast (n : ℤ) : round_to_nearest (n : ℚ) = n := by
  unfold round_to_nearest
  split_ifs with h
  · rw [Int.floor_eq_iff]
    constructor <;> linarith
  · rw [neg_eq_iff_eq_neg, Int.floor_eq_iff]
    push_cast
    constructor <;> linarith

/-- C4, at a concrete input: the bin (segment 0, view 30, axial position 32, tangential
position 5) of the concrete scenario and the ring pair (16, 16). -/
theorem get_bin_round_trip_witness :
    (get_bin round_to_nearest scenario_bin0 scenario_proj_data_info
        (lor_with_coords
          { phi := 30 * (3141593 / 60000000), s := 5 * 2, z1 := 16 * (25 / 8),
            z2 := 16 * (25 / 8) })).segment_num = 0 ∧
      (get_bin round_to_nearest scenario_bin0 scenario_proj_data_info
        (lor_with_coords
          { phi := 30 * (3141593 / 60000000), s := 5 * 2, z1 := 16 * (25 / 8),
            z2 := 16 * (25 / 8) })).view_num = 30 ∧
      (get_bin round_to_nearest scenario_bin0 scenario_proj_data_info
        (lor_with_coords
          { phi := 30 * (3141593 / 60000000), s := 5 * 2, z1 := 16 * (25 / 8),
            z2 := 16 * (25 / 8) })).axial_pos_num = 32 ∧
      (get_bin round_to_nearest scenario_bin0 scenario_proj_data_info
        (lor_with_coords
          { phi := 30 * (3141593 / 60000000), s := 5 * 2, z1 := 16 * (25 / 8),
            z2 := 16 * (25 / 8) })).tangential_pos_num = 5 ∧
      (get_bin round_to_nearest scenario_bin0 scenario_proj_data_info
        (lor_with_coords
          { phi := 30 * (3141593 / 60000000), s := 5 * 2, z1 := 16 * (25 / 8),
            z2 := 16 * (25 / 8) })).bin_value = 0 := by
  have h := get_bin_round_trip round_to_nearest scenario_bin0
    { segment_num := 0, view_num := 30, axial_pos_num := 32, tangential_pos_num := 5,
      bin_value := 0 }
    scenario_proj_data_info
    (lor_with_coords
      { phi := 30 * (3141593 / 60000000), s := 5 * 2, z1 := 16 * (25 / 8),
        z2 := 16 * (25 / 8) })
    16 16 round_to_nearest_intCast
    (by norm_num [scenario_proj_data_info])
    (by norm_num [scenario_proj_data_info])
    (by norm_num [scenario_proj_data_info,
      ProjDataInfoCylindricalArcCorr.get_tangential_sampling])
    (by norm_num [scenario_proj_data_info])
    (by norm_num [scenario_proj_data_info])
    (by norm_num [scenario_proj_data_info])
    (by norm_num [scenario_proj_data_info])
    (by simp [scenario_proj_data_info, scenario_ring_pair_lookup])
    (by simp [lor_with_coords, scenario_proj_data_info,
      ProjDataInfoCylindricalArcCorr.get_tangential_sampling])
  exact h

/-- C5, at a concrete input: `s` = 200 mm is tangential position 100, above the maximum
63; the rings (16, 16) are accepted as segment 0, axial position 32. -/
theorem get_bin_tangential_out_of_range_witness :
    get_bin_tangential_pos_num round_to_nearest scenario_proj_data_info
        { phi := 1 / 20, s := 200, z1 := 50, z2 := 50 } = 100 ∧
      (get_bin round_to_nearest scenario_bin0 scenario_proj_data_info
        (lor_with_coords { phi := 1 / 20, s := 200, z1 := 50, z2 := 50 })).bin_value = -1 ∧
      (get_bin round_to_nearest scenario_bin0 scenario_proj_data_info
        (lor_with_coords { phi := 1 / 20, s := 200, z1 := 50, z2 := 50 })).segment_num = 0 ∧
      (get_bin round_to_nearest scenario_bin0 scenario_proj_data_info
        (lor_with_coords { phi := 1 / 20, s := 200, z1 := 50, z2 := 50 })).axial_pos_num
          = 32 := by
  have htang : get_bin_tangential_pos_num round_to_nearest scenario_proj_data_info
      { phi := 1 / 20, s := 200, z1 := 50, z2 := 50 } = 100 := by
    simp [get_bin_accepts, get_bin_view_num, get_bin_ring1, get_bin_ring2,
      get_bin_swap_direction, get_bin_tangential_pos_num, round_to_nearest, scenario_bin0,
      scenario_proj_data_info, lor_with_coords, scenario_ring_pair_lookup,
      ProjDataInfoCylindricalArcCorr.get_tangential_sampling]
    norm_num
  refine ⟨htang, ?_⟩
  apply get_bin_tangential_out_of_range round_to_nearest scenario_bin0
    scenario_proj_data_info
    (lor_with_coords { phi := 1 / 20, s := 200, z1 := 50, z2 := 50 })
    { phi := 1 / 20, s := 200, z1 := 50, z2 := 50 } 0 32 rfl
  · simp [get_bin_accepts, get_bin_view_num, get_bin_ring1, get_bin_ring2,
      get_bin_swap_direction, get_bin_tangential_pos_num, round_to_nearest, scenario_bin0,
      scenario_proj_data_info, lor_with_coords, scenario_ring_pair_lookup,
      ProjDataInfoCylindricalArcCorr.get_tangential_sampling]
    norm_num
  · simp [get_bin_accepts, get_bin_view_num, get_bin_ring1, get_bin_ring2,
      get_bin_swap_direction, get_bin_tangential_pos_num, round_to_nearest, scenario_bin0,
      scenario_proj_data_info, lor_with_coords, scenario_ring_pair_lookup,
      ProjDataInfoCylindricalArcCorr.get_tangential_sampling]
    norm_num
  · rw [htang]
    simp [scenario_proj_data_info]

/-- C6, at a concrete input: the axial positions 50 mm and 60 mm are rings 16 and 19,
both inside `[0, 24)`, with ring difference 3, which belongs to no segment. -/
theorem get_bin_ring_pair_not_found_witness :
    (get_bin_ring1 round_to_nearest scenario_proj_data_info
        { phi := 1 / 20, s := 1, z1 := 50, z2 := 60 } = 16 ∧
      get_bin_ring2 round_to_nearest scenario_proj_data_info
        { phi := 1 / 20, s := 1, z1 := 50, z2 := 60 } = 19) ∧
      (get_bin round_to_nearest scenario_bin0 scenario_proj_data_info
        (lor_with_coords { phi := 1 / 20, s := 1, z1 := 50, z2 := 60 })).bin_value = -1 := by
  have hring1 : get_bin_ring1 round_to_nearest scenario_proj_data_info
      { phi := 1 / 20, s := 1, z1 := 50, z2 := 60 } = 16 := by
    simp [get_bin_accepts, get_bin_view_num, get_bin_ring1, get_bin_ring2,
      get_bin_swap_direction, get_bin_tangential_pos_num, round_to_nearest, scenario_bin0,
      scenario_proj_data_info, lor_with_coords, scenario_ring_pair_lookup,
      ProjDataInfoCylindricalArcCorr.get_tangential_sampling]
    norm_num
  have hring2 : get_bin_ring2 round_to_nearest scenario_proj_data_info
      { phi := 1 / 20, s := 1, z1 := 50, z2 := 60 } = 19 := by
    simp [get_bin_accepts, get_bin_view_num, get_bin_ring1, get_bin_ring2,
      get_bin_swap_direction, get_bin_tangential_pos_num, round_to_nearest, scenario_bin0,
      scenario_proj_data_info, lor_with_coords, scenario_ring_pair_lookup,
      ProjDataInfoCylindricalArcCorr.get_tangential_sampling]
    norm_num
  refine ⟨⟨hring1, hring2⟩, ?_⟩
  apply get_bin_ring_pair_not_found round_to_nearest scenario_bin0
    scenario_proj_data_info
    (lor_with_coords { phi := 1 / 20, s := 1, z1 := 50, z2 := 60 })
    { phi := 1 / 20, s := 1, z1 := 50, z2 := 60 } rfl
  · rw [hring1, hring2]
    simp [scenario_proj_data_info]
  · rw [hring1, hring2]
    simp [scenario_proj_data_info, scenario_ring_pair_lookup]

/-- C8, at a concrete input: `phi` = 0.05 with 60 views is view 1. -/
theorem get_bin_view_num_eq_witness :
    (get_bin round_to_nearest scenario_bin0 scenario_proj_data_info
        (lor_with_coords { phi := 1 / 20, s := 4, z1 := 50, z2 := 50 })).view_num = 1 := by
  rw [get_bin_view_num_eq round_to_nearest scenario_bin0 scenario_proj_data_info
    (lor_with_coords { phi := 1 / 20, s := 4, z1 := 50, z2 := 50 })
    { phi := 1 / 20, s := 4, z1 := 50, z2 := 50 } rfl]
  simp [round_to_nearest, scenario_proj_data_info]
  norm_num

/-- C9, at a concrete input: `phi` = 3.13 rounds to view 60, above the maximum 59, so the
rings of `z1` = 50 mm and `z2` = 53 mm are looked up as the swapped pair (17, 16). -/
theorem get_bin_segment_axial_pos_witness :
    round_to_nearest ((313 / 100 : ℚ) / scenario_proj_data_info.get_azimuthal_angle_sampling)
        > scenario_proj_data_info.get_max_view_num ∧
      ((get_bin round_to_nearest scenario_bin0 scenario_proj_data_info
          (lor_with_coords { phi := 313 / 100, s := 4, z1 := 50, z2 := 53 })).segment_num,
        (get_bin round_to_nearest scenario_bin0 scenario_proj_data_info
          (lor_with_coords { phi := 313 / 100, s := 4, z1 := 50, z2 := 53 })).axial_pos_num)
        = (scenario_ring_pair_lookup 0 0 17 16).2 := by
  have hview : round_to_nearest
      ((313 / 100 : ℚ) / scenario_proj_data_info.get_azimuthal_angle_sampling)
        > scenario_proj_data_info.get_max_view_num := by
    simp [round_to_nearest, scenario_proj_data_info]
    norm_num
  have haccept : get_bin_accepts round_to_nearest scenario_bin0 scenario_proj_data_info
      (lor_with_coords { phi := 313 / 100, s := 4, z1 := 50, z2 := 53 }) := by
    simp [get_bin_accepts, get_bin_view_num, get_bin_ring1, get_bin_ring2,
      get_bin_swap_direction, get_bin_tangential_pos_num, round_to_nearest, scenario_bin0,
      scenario_proj_data_info, lor_with_coords, scenario_ring_pair_lookup,
      ProjDataInfoCylindricalArcCorr.get_tangential_sampling]
    norm_num
  refine ⟨hview, ?_⟩
  rw [(get_bin_segment_axial_pos round_to_nearest scenario_bin0 scenario_proj_data_info
    (lor_with_coords { phi := 313 / 100, s := 4, z1 := 50, z2 := 53 })
    { phi := 313 / 100, s := 4, z1 := 50, z2 := 53 } rfl haccept).2 hview]
  simp [round_to_nearest, scenario_bin0, scenario_proj_data_info]
  norm_num

/-- C10, at a concrete input: `s` = 4 mm with `phi` = 0.05 (not swapped) is tangential
position 2, and with `phi` = 3.13 (swapped) it is the negation. -/
theorem get_bin_tangential_pos_num_eq_witness :
    (get_bin round_to_nearest scenario_bin0 scenario_proj_data_info
        (lor_with_coords { phi := 1 / 20, s := 4, z1 := 50, z2 := 50 })).tangential_pos_num
        = 2 ∧
      (get_bin round_to_nearest scenario_bin0 scenario_proj_data_info
        (lor_with_coords { phi := 313 / 100, s := 4, z1 := 50, z2 := 50 })).tangential_pos_num
        = -(get_bin round_to_nearest scenario_bin0 scenario_proj_data_info
          (lor_with_coords { phi := 1 / 20, s := 4, z1 := 50, z2 := 50 })).tangential_pos_num
      := by
  have h := get_bin_tangential_pos_num_eq round_to_nearest scenario_bin0
    scenario_proj_data_info
    (lor_with_coords { phi := 1 / 20, s := 4, z1 := 50, z2 := 50 })
    { phi := 1 / 20, s := 4, z1 := 50, z2 := 50 } rfl
    (by simp [get_bin_accepts, get_bin_view_num, get_bin_ring1, get_bin_ring2,
      get_bin_swap_direction, get_bin_tangential_pos_num, round_to_nearest, scenario_bin0,
      scenario_proj_data_info, lor_with_coords, scenario_ring_pair_lookup,
      ProjDataInfoCylindricalArcCorr.get_tangential_sampling]; norm_num)
    (by simp [get_bin_accepts, get_bin_view_num, get_bin_ring1, get_bin_ring2,
      get_bin_swap_direction, get_bin_tangential_pos_num, round_to_nearest, scenario_bin0,
      scenario_proj_data_info, lor_with_coords, scenario_ring_pair_lookup,
      ProjDataInfoCylindricalArcCorr.get_tangential_sampling])
  refine ⟨?_, ?_⟩
  · rw [h.1]
    simp [round_to_nearest, scenario_proj_data_info,
      ProjDataInfoCylindricalArcCorr.get_tangential_sampling]
    norm_num
  · apply h.2 (lor_with_coords { phi := 313 / 100, s := 4, z1 := 50, z2 := 50 })
      { phi := 313 / 100, s := 4, z1 := 50, z2 := 50 } rfl
    · simp [get_bin_accepts, get_bin_view_num, get_bin_ring1, get_bin_ring2,
      get_bin_swap_direction, get_bin_tangential_pos_num, round_to_nearest, scenario_bin0,
      scenario_proj_data_info, lor_with_coords, scenario_ring_pair_lookup,
      ProjDataInfoCylindricalArcCorr.get_tangential_sampling]
      norm_num
    · simp [get_bin_accepts, get_bin_view_num, get_bin_ring1, get_bin_ring2,
      get_bin_swap_direction, get_bin_tangential_pos_num, round_to_nearest, scenario_bin0,
      scenario_proj_data_info, lor_with_coords, scenario_ring_pair_lookup,
      ProjDataInfoCylindricalArcCorr.get_tangential_sampling]
    · rfl
    · simp [get_bin_accepts, get_bin_view_num, get_bin_ring1, get_bin_ring2,
      get_bin_swap_direction, get_bin_tangential_pos_num, round_to_nearest, scenario_bin0,
      scenario_proj_data_info, lor_with_coords, scenario_ring_pair_lookup,
      ProjDataInfoCylindricalArcCorr.get_tangential_sampling]
      norm_num

/-- A nearest-integer rule is determined away from ties: if `x` is strictly within 1/2 of
the integer `n`, every such rule rounds `x` to `n`. -/
theorem round_eq_of_nearest (round : ℝ → ℤ) (hround : ∀ x : ℝ, |x - (round x : ℝ)| ≤ 1 / 2)
    (x : ℝ) (n : ℤ) (hlo : (n : ℝ) - 1 / 2 < x) (hhi : x < (n : ℝ) + 1 / 2) :
    round x = n := by
  have h := abs_le.mp (hround x)
  have h1 : ((round x : ℤ) : ℝ) < ((n + 1 : ℤ) : ℝ) := by
    push_cast
    linarith [h.1]
  have h2 : ((n - 1 : ℤ) : ℝ) < ((round x : ℤ) : ℝ) := by
    push_cast
    linarith [h.2]
  have h3 : round x < n + 1 := by exact_mod_cast h1
  have h4 : n - 1 < round x := by exact_mod_cast h2
  omega

/-- C11: the concrete scenario.  Ring radius 350 mm, ring spacing 3.125 mm, 24 rings, 60
views with azimuthal sampling pi / 60, tangential sampling 2 mm, and a ring-pair lookup
that puts the pair (16, 16) in segment 0 (one segment).  For the line of response with
`z1 = z2 = 50`, `phi = 0.05`, `s = 1`, and for every nearest-integer rule `round`,
`get_bin` returns view 1, uses the rings 16 and 16 (inside `[0, 24)`), returns segment 0,
and returns the tangential position `round (1 / 2)`: the same `round` does all three
roundings. -/
theorem get_bin_concrete_scenario (round : ℝ → ℤ)
    (hround : ∀ x : ℝ, |x - (round x : ℝ)| ≤ 1 / 2)
    (bin0 : Bin ℝ) (pdi : ProjDataInfoCylindricalArcCorr ℝ) (lor : LOR ℝ)
    (axial_pos_num : ℤ)
    (hradius : pdi.get_ring_radius = 350)
    (hspacing : pdi.get_ring_spacing = 3.125)
    (hrings : pdi.scanner_ptr.get_num_rings = 24)
    (hviews : pdi.get_num_views = 60 ∧ pdi.get_max_view_num = 59)
    (hphi : pdi.get_azimuthal_angle_sampling = Real.pi / 60)
    (hsampling : pdi.get_tangential_sampling = 2)
    (hsegment : pdi.get_segment_axial_pos_num_for_ring_pair bin0.segment_num
      bin0.axial_pos_num 16 16 = (Succeeded.yes, 0, axial_pos_num))
    (hconv : lor.change_representation 350 = some
      { phi := 0.05, s := 1, z1 := 50, z2 := 50 }) :
    (get_bin round bin0 pdi lor).view_num = 1 ∧
      round ((0.05 : ℝ) / (Real.pi / 60)) = 1 ∧
      get_bin_ring1 round pdi { phi := 0.05, s := 1, z1 := 50, z2 := 50 } = 16 ∧
      get_bin_ring2 round pdi { phi := 0.05, s := 1, z1 := 50, z2 := 50 } = 16 ∧
      (0 ≤ (16 : ℤ) ∧ (16 : ℤ) < pdi.scanner_ptr.get_num_rings) ∧
      (get_bin round bin0 pdi lor).segment_num = 0 ∧
      (get_bin round bin0 pdi lor).tangential_pos_num = round ((1 : ℝ) / 2) := by
  have hpi3 := Real.pi_gt_three
  have hpi4 := Real.pi_le_four
  have hquot : (0.05 : ℝ) / (Real.pi / 60) = 3 / Real.pi := by
    field_simp
    norm_num
  have hview : round ((0.05 : ℝ) / (Real.pi / 60)) = 1 := by
    apply round_eq_of_nearest round hround
    · rw [hquot, lt_div_iff₀ (by linarith)]
      push_cast
      linarith
    · rw [hquot, div_lt_iff₀ (by linarith)]
      push_cast
      linarith
  have hring : round ((50 : ℝ) / 3.125) = 16 := by
    apply round_eq_of_nearest round hround <;> norm_num
  have hv : get_bin_view_num round pdi { phi := 0.05, s := 1, z1 := 50, z2 := 50 } = 1 := by
    simp only [get_bin_view_num, hphi, hview]
  have hswap : get_bin_swap_direction round pdi
      { phi := 0.05, s := 1, z1 := 50, z2 := 50 } = false := by
    simp [get_bin_swap_direction, hv, hviews.2]
  have hr1 : get_bin_ring1 round pdi { phi := 0.05, s := 1, z1 := 50, z2 := 50 } = 16 := by
    simp [get_bin_ring1, hswap, hspacing, hring]
  have hr2 : get_bin_ring2 round pdi { phi := 0.05, s := 1, z1 := 50, z2 := 50 } = 16 := by
    simp [get_bin_ring2, hswap, hspacing, hring]
  have ht : get_bin_tangential_pos_num round pdi
      { phi := 0.05, s := 1, z1 := 50, z2 := 50 } = round ((1 : ℝ) / 2) := by
    simp [get_bin_tangential_pos_num, hswap, hsampling]
  rw [← hradius] at hconv
  rw [get_bin_of_lookup_succeeded round bin0 pdi lor
    { phi := 0.05, s := 1, z1 := 50, z2 := 50 } hconv
    (by rw [hr1, hr2, hrings]; norm_num) (by rw [hr1, hr2, hsegment])]
  refine ⟨hv, hview, hr1, hr2, by rw [hrings]; norm_num, ?_, ht⟩
  simp only [hr1, hr2, hsegment]

/-- C11, at a concrete input: the scenario over the reals with azimuthal sampling
pi / 60, and the nearest-integer rule that rounds ties up. -/
theorem get_bin_concrete_scenario_witness :
    (get_bin (fun x : ℝ => round x)
        { segment_num := 0, view_num := 0, axial_pos_num := 0, tangential_pos_num := 0,
          bin_value := 0 }
        (scenario_geometry ℝ (Real.pi / 60))
        (lor_with_coords { phi := 0.05, s := 1, z1 := 50, z2 := 50 })).view_num = 1 ∧
      (get_bin (fun x : ℝ => round x)
        { segment_num := 0, view_num := 0, axial_pos_num := 0, tangential_pos_num := 0,
          bin_value := 0 }
        (scenario_geometry ℝ (Real.pi / 60))
        (lor_with_coords { phi := 0.05, s := 1, z1 := 50, z2 := 50 })).segment_num = 0 ∧
      (get_bin (fun x : ℝ => round x)
        { segment_num := 0, view_num := 0, axial_pos_num := 0, tangential_pos_num := 0,
          bin_value := 0 }
        (scenario_geometry ℝ (Real.pi / 60))
        (lor_with_coords { phi := 0.05, s := 1, z1 := 50, z2 := 50 })).tangential_pos_num
        = round ((1 : ℝ) / 2) := by
  have h := get_bin_concrete_scenario (fun x : ℝ => round x) (fun x => abs_sub_round x)
    { segment_num := 0, view_num := 0, axial_pos_num := 0, tangential_pos_num := 0,
      bin_value := 0 }
    (scenario_geometry ℝ (Real.pi / 60))
    (lor_with_coords { phi := 0.05, s := 1, z1 := 50, z2 := 50 }) 32 rfl
    (by norm_num [scenario_geometry]) rfl ⟨rfl, rfl⟩ rfl rfl
    (by simp [scenario_geometry, scenario_ring_pair_lookup]) rfl
  exact ⟨h.1, h.2.2.2.2.2.1, h.2.2.2.2.2.2⟩

/-! ## Results on the region-of-interest values -/

/-- Membership in the index range of a `for` loop. -/
theorem mem_index_range (lo hi z : ℤ) : z ∈ index_range lo hi ↔ lo ≤ z ∧ z ≤ hi := by
  simp only [index_range, List.mem_map, List.mem_range]
  constructor
  · rintro ⟨i, hi1, rfl⟩
    omega
  · intro h
    exact ⟨(z - lo).toNat, by omega, by omega⟩

/-- A `for` loop visits no index twice. -/
theorem index_range_nodup (lo hi : ℤ) : (index_range lo hi).Nodup := by
  unfold index_range
  apply List.Nodup.map _ (List.nodup_range _)
  intro i j hij
  simpa using hij

/-- The number of indices of a `for` loop. -/
theorem index_range_length (lo hi : ℤ) : (index_range lo hi).length = (hi - lo + 1).toNat := by
  simp [index_range]

/-- The entry for index `z` of a list built over an index range. -/
theorem index_range_map_getElem? {α : Type} (lo hi z : ℤ) (f : ℤ → α)
    (hz : lo ≤ z ∧ z ≤ hi) :
    ((index_range lo hi).map f)[(z - lo).toNat]? = some (f z) := by
  have hlt : (z - lo).toNat < (hi - lo + 1).toNat := by omega
  have hcast : lo + (((z - lo).toNat : ℕ) : ℤ) = z := by omega
  simp only [index_range, List.map_map, List.getElem?_map, List.getElem?_range hlt,
    Option.map_some', Function.comp_apply, hcast]

/-- Membership in the list of values over a plane. -/
theorem mem_over_plane {K : Type} (image : VoxelsOnCartesianGrid K) (f : ℤ → ℤ → K) (v : K) :
    v ∈ image.over_plane f ↔
      ∃ y x, (image.min_y ≤ y ∧ y ≤ image.max_y) ∧ (image.min_x ≤ x ∧ x ≤ image.max_x) ∧
        f y x = v := by
  simp only [VoxelsOnCartesianGrid.over_plane, List.mem_flatMap, List.mem_map,
    mem_index_range]
  constructor
  · rintro ⟨y, hy, x, hx, rfl⟩
    exact ⟨y, x, hy, hx, rfl⟩
  · rintro ⟨y, x, hy, hx, rfl⟩
    exact ⟨y, hy, x, hx, rfl⟩

/-- Two functions that agree on the index range of a plane give the same values over the
plane. -/
theorem over_plane_congr {K : Type} (image : VoxelsOnCartesianGrid K) (f g : ℤ → ℤ → K)
    (hfg : ∀ y x, (image.min_y ≤ y ∧ y ≤ image.max_y) →
      (image.min_x ≤ x ∧ x ≤ image.max_x) → f y x = g y x) :
    image.over_plane f = image.over_plane g := by
  simp only [VoxelsOnCartesianGrid.over_plane, List.flatMap]
  congr 1
  apply List.map_congr_left
  intro y hy
  apply List.map_congr_left
  intro x hx
  exact hfg y x ((mem_index_range _ _ _).mp hy) ((mem_index_range _ _ _).mp hx)

section roi_theorems

variable {K : Type} [LinearOrderedField K]

/-- One pass of the loop body appends the closed form for plane `z` and changes only
plane `z` of the discretised shape. -/
theorem compute_ROI_values_per_plane_body_eq (image : VoxelsOnCartesianGrid K)
    (voxel_volume : K) (mask : VoxelsOnCartesianGrid K) (values : List (ROIValues K))
    (z : ℤ) :
    compute_ROI_values_per_plane_body image voxel_volume (mask, values) z
      = ((mask.multiply_plane z image).multiply_plane z image,
          values ++ [plane_ROI_values image voxel_volume mask z]) := by
  simp [compute_ROI_values_per_plane_body, plane_ROI_values,
    VoxelsOnCartesianGrid.plane, VoxelsOnCartesianGrid.multiply_plane,
    VoxelsOnCartesianGrid.over_plane]

/-- The closed form for a plane only looks at the index ranges and at that plane of the
discretised shape. -/
theorem plane_ROI_values_congr (image : VoxelsOnCartesianGrid K) (voxel_volume : K)
    (mask mask2 : VoxelsOnCartesianGrid K) (z : ℤ)
    (hy : mask2.min_y = mask.min_y ∧ mask2.max_y = mask.max_y)
    (hx : mask2.min_x = mask.min_x ∧ mask2.max_x = mask.max_x)
    (hz : mask2.voxels z = mask.voxels z) :
    plane_ROI_values image voxel_volume mask2 z
      = plane_ROI_values image voxel_volume mask z := by
  simp [plane_ROI_values, VoxelsOnCartesianGrid.over_plane, hy.1, hy.2, hx.1, hx.2, hz]

/-- The loop of `compute_ROI_values_per_plane` over indices without repetition: every
plane gets the closed form computed from the discretised shape as it was before the
loop. -/
theorem compute_ROI_values_per_plane_loop (image : VoxelsOnCartesianGrid K)
    (voxel_volume : K) (mask : VoxelsOnCartesianGrid K) (zs : List ℤ) (hzs : zs.Nodup) :
    ∀ (current : VoxelsOnCartesianGrid K) (values : List (ROIValues K)),
      (current.min_y = mask.min_y ∧ current.max_y = mask.max_y) →
      (current.min_x = mask.min_x ∧ current.max_x = mask.max_x) →
      (∀ z ∈ zs, current.voxels z = mask.voxels z) →
      (zs.foldl (compute_ROI_values_per_plane_body image voxel_volume)
        (current, values)).2
        = values ++ zs.map (plane_ROI_values image voxel_volume mask) := by
  induction zs with
  | nil => intro current values _ _ _; simp
  | cons z rest ih =>
    intro current values hy hx hvox
    have hnot : z ∉ rest := (List.nodup_cons.mp hzs).1
    have hrest : ∀ z2 ∈ rest,
        ((current.multiply_plane z image).multiply_plane z image).voxels z2
          = mask.voxels z2 := by
      intro z2 hz2
      have hne : z2 ≠ z := fun h => hnot (h ▸ hz2)
      rw [← hvox z2 (List.mem_cons_of_mem z hz2)]
      funext y x
      simp [VoxelsOnCartesianGrid.multiply_plane, hne]
    rw [List.foldl_cons, compute_ROI_values_per_plane_body_eq,
      ih (List.nodup_cons.mp hzs).2
        ((current.multiply_plane z image).multiply_plane z image)
        (values ++ [plane_ROI_values image voxel_volume current z]) hy hx hrest,
      plane_ROI_values_congr image voxel_volume mask current z hy hx
        (hvox z (List.mem_cons_self z rest))]
    simp

/-- The vector that `compute_ROI_values_per_plane` returns: first index `min_z`, and for
every plane of the image the closed form computed from the constructed volume. -/
theorem compute_ROI_values_per_plane_eq (image : VoxelsOnCartesianGrid K)
    (shape : Shape3D K) (num_samples : CartesianCoordinate3D ℤ) :
    compute_ROI_values_per_plane image shape num_samples
      = { min_index := image.min_z
          elems := (index_range image.min_z image.max_z).map
            (plane_ROI_values image
              (image.voxel_size.x * image.voxel_size.y * image.voxel_size.z)
              (shape.construct_volume image.get_empty_voxels_on_cartesian_grid
                num_samples)) } := by
  simp only [compute_ROI_values_per_plane, VoxelsOnCartesianGrid.get_min_index,
    VoxelsOnCartesianGrid.get_max_index, VoxelsOnCartesianGrid.get_voxel_size]
  rw [compute_ROI_values_per_plane_loop image _ _ _ (index_range_nodup _ _) _ _
    ⟨rfl, rfl⟩ ⟨rfl, rfl⟩ (fun _ _ => rfl)]
  simp

/-- The entry of plane `z` in the result of `compute_ROI_values_per_plane`. -/
theorem compute_ROI_values_per_plane_lookup (image : VoxelsOnCartesianGrid K)
    (shape : Shape3D K) (num_samples : CartesianCoordinate3D ℤ) (z : ℤ)
    (hz : image.min_z ≤ z ∧ z ≤ image.max_z) :
    (compute_ROI_values_per_plane image shape num_samples).lookup z
      = some (plane_ROI_values image
          (image.voxel_size.x * image.voxel_size.y * image.voxel_size.z)
          (shape.construct_volume image.get_empty_voxels_on_cartesian_grid num_samples)
          z) := by
  rw [compute_ROI_values_per_plane_eq]
  simp only [VectorWithOffset.lookup]
  rw [if_neg (by omega), index_range_map_getElem? _ _ _ _ hz]

/-- A running minimum is below its start and below every element. -/
theorem foldl_min_le (elements : List K) :
    ∀ a : K, elements.foldl min a ≤ a ∧ ∀ v ∈ elements, elements.foldl min a ≤ v := by
  induction elements with
  | nil => intro a; simp
  | cons b rest ih =>
    intro a
    rw [List.foldl_cons]
    refine ⟨le_trans (ih (min a b)).1 (min_le_left a b), ?_⟩
    intro v hv
    rcases List.mem_cons.mp hv with rfl | hv
    · exact le_trans (ih (min a v)).1 (min_le_right a v)
    · exact (ih (min a b)).2 v hv

/-- A running minimum is its start or one of the elements. -/
theorem foldl_min_mem (elements : List K) :
    ∀ a : K, elements.foldl min a = a ∨ elements.foldl min a ∈ elements := by
  induction elements with
  | nil => intro a; simp
  | cons b rest ih =>
    intro a
    rw [List.foldl_cons]
    rcases ih (min a b) with h | h
    · rcases min_choice a b with hab | hab
      · exact Or.inl (by rw [h, hab])
      · exact Or.inr (by rw [h, hab]; exact List.mem_cons_self b rest)
    · exact Or.inr (List.mem_cons_of_mem b h)

/-- A running maximum is above its start and above every element. -/
theorem le_foldl_max (elements : List K) :
    ∀ a : K, a ≤ elements.foldl max a ∧ ∀ v ∈ elements, v ≤ elements.foldl max a := by
  induction elements with
  | nil => intro a; simp
  | cons b rest ih =>
    intro a
    rw [List.foldl_cons]
    refine ⟨le_trans (le_max_left a b) (ih (max a b)).1, ?_⟩
    intro v hv
    rcases List.mem_cons.mp hv with rfl | hv
    · exact le_trans (le_max_right a v) (ih (max a v)).1
    · exact (ih (max a b)).2 v hv

/-- A running maximum is its start or one of the elements. -/
theorem foldl_max_mem (elements : List K) :
    ∀ a : K, elements.foldl max a = a ∨ elements.foldl max a ∈ elements := by
  induction elements with
  | nil => intro a; simp
  | cons b rest ih =>
    intro a
    rw [List.foldl_cons]
    rcases ih (max a b) with h | h
    · rcases max_choice a b with hab | hab
      · exact Or.inl (by rw [h, hab])
      · exact Or.inr (by rw [h, hab]; exact List.mem_cons_self b rest)
    · exact Or.inr (List.mem_cons_of_mem b h)

/-- The member `find_min` returns a lower bound of the elements, and one of them. -/
theorem array_find_min_spec (elements : List K) (hne : elements ≠ []) :
    array_find_min elements ∈ elements ∧ ∀ v ∈ elements, array_find_min elements ≤ v := by
  cases elements with
  | nil => exact absurd rfl hne
  | cons a rest =>
    simp only [array_find_min]
    constructor
    · rcases foldl_min_mem rest a with h | h
      · rw [h]; exact List.mem_cons_self a rest
      · exact List.mem_cons_of_mem a h
    · intro v hv
      rcases List.mem_cons.mp hv with rfl | hv
      · exact (foldl_min_le rest v).1
      · exact (foldl_min_le rest a).2 v hv

/-- The member `find_max` returns an upper bound of the elements, and one of them. -/
theorem array_find_max_spec (elements : List K) (hne : elements ≠ []) :
    array_find_max elements ∈ elements ∧ ∀ v ∈ elements, v ≤ array_find_max elements := by
  cases elements with
  | nil => exact absurd rfl hne
  | cons a rest =>
    simp only [array_find_max]
    constructor
    · rcases foldl_max_mem rest a with h | h
      · rw [h]; exact List.mem_cons_self a rest
      · exact List.mem_cons_of_mem a h
    · intro v hv
      rcases List.mem_cons.mp hv with rfl | hv
      · exact (le_foldl_max rest v).1
      · exact (le_foldl_max rest a).2 v hv

/-- C12: `compute_ROI_values_per_plane` returns a vector that starts at `min_z` and has
one entry for each plane of `[min_z, max_z]`; the entry of plane `z` has
`volume = voxel_volume * (sum of the mask over plane z)` and
`integral = voxel_volume * (sum over plane z of mask * image)`, with
`voxel_volume = voxel_size.x * voxel_size.y * voxel_size.z` and the mask being what
`shape.construct_volume` makes of the empty copy of the image. -/
theorem compute_ROI_values_per_plane_volume_integral (image : VoxelsOnCartesianGrid K)
    (shape : Shape3D K) (num_samples : CartesianCoordinate3D ℤ) (z : ℤ)
    (hz : image.get_min_index ≤ z ∧ z ≤ image.get_max_index) :
    (compute_ROI_values_per_plane image shape num_samples).min_index = image.get_min_index ∧
    (compute_ROI_values_per_plane image shape num_samples).elems.length
      = (image.get_max_index - image.get_min_index + 1).toNat ∧
    ∃ values_z : ROIValues K,
      (compute_ROI_values_per_plane image shape num_samples).lookup z = some values_z ∧
      values_z.roi_volume
        = (image.get_voxel_size.x * image.get_voxel_size.y * image.get_voxel_size.z)
          * array_sum ((shape.construct_volume image.get_empty_voxels_on_cartesian_grid
              num_samples).plane z) ∧
      values_z.integral
        = (image.get_voxel_size.x * image.get_voxel_size.y * image.get_voxel_size.z)
          * array_sum ((shape.construct_volume image.get_empty_voxels_on_cartesian_grid
              num_samples).over_plane (fun y x =>
                (shape.construct_volume image.get_empty_voxels_on_cartesian_grid
                  num_samples).voxels z y x * image.voxels z y x)) := by
  refine ⟨?_, ?_, _, compute_ROI_values_per_plane_lookup image shape num_samples z hz, ?_, ?_⟩
  · rw [compute_ROI_values_per_plane_eq]
    rfl
  · rw [compute_ROI_values_per_plane_eq]
    simp [index_range_length, VoxelsOnCartesianGrid.get_min_index,
      VoxelsOnCartesianGrid.get_max_index]
  · simp only [plane_ROI_values, VoxelsOnCartesianGrid.plane,
      VoxelsOnCartesianGrid.get_voxel_size]
    rw [mul_comm]
  · simp only [plane_ROI_values, VoxelsOnCartesianGrid.get_voxel_size]
    rw [mul_comm]

/-- C13, as amended: the entry of plane `z` has
`integral_square = voxel_volume * (sum over plane z of mask * image * image)`, the
mask-weighted integral of the squared image.  When every mask value of the plane (the
voxels of plane `z` inside the index ranges of the discretised shape) is 0 or 1 this is
`voxel_volume * (sum over plane z of (mask * image)^2)`. -/
theorem compute_ROI_values_per_plane_integral_square (image : VoxelsOnCartesianGrid K)
    (shape : Shape3D K) (num_samples : CartesianCoordinate3D ℤ) (z : ℤ)
    (hz : image.get_min_index ≤ z ∧ z ≤ image.get_max_index) :
    ∃ values_z : ROIValues K,
      (compute_ROI_values_per_plane image shape num_samples).lookup z = some values_z ∧
      values_z.integral_of_square
        = (image.get_voxel_size.x * image.get_voxel_size.y * image.get_voxel_size.z)
          * array_sum ((shape.construct_volume image.get_empty_voxels_on_cartesian_grid
              num_samples).over_plane (fun y x =>
                (shape.construct_volume image.get_empty_voxels_on_cartesian_grid
                  num_samples).voxels z y x * image.voxels z y x * image.voxels z y x)) ∧
      ((∀ y x,
          ((shape.construct_volume image.get_empty_voxels_on_cartesian_grid
              num_samples).min_y ≤ y ∧
            y ≤ (shape.construct_volume image.get_empty_voxels_on_cartesian_grid
              num_samples).max_y) →
          ((shape.construct_volume image.get_empty_voxels_on_cartesian_grid
              num_samples).min_x ≤ x ∧
            x ≤ (shape.construct_volume image.get_empty_voxels_on_cartesian_grid
              num_samples).max_x) →
          (shape.construct_volume image.get_empty_voxels_on_cartesian_grid
            num_samples).voxels z y x = 0 ∨
          (shape.construct_volume image.get_empty_voxels_on_cartesian_grid
            num_samples).voxels z y x = 1) →
        values_z.integral_of_square
          = (image.get_voxel_size.x * image.get_voxel_size.y * image.get_voxel_size.z)
            * array_sum ((shape.construct_volume image.get_empty_voxels_on_cartesian_grid
                num_samples).over_plane (fun y x =>
                  ((shape.construct_volume image.get_empty_voxels_on_cartesian_grid
                    num_samples).voxels z y x * image.voxels z y x) ^ 2))) := by
  refine ⟨_, compute_ROI_values_per_plane_lookup image shape num_samples z hz, ?_, ?_⟩
  · simp only [plane_ROI_values, VoxelsOnCartesianGrid.get_voxel_size]
    rw [mul_comm]
  · intro hmask
    simp only [plane_ROI_values, VoxelsOnCartesianGrid.get_voxel_size]
    rw [mul_comm]
    congr 2
    apply over_plane_congr
    intro y x hy hx
    rcases hmask y x hy hx with h | h <;> rw [h] <;> ring

/-- C14: the entry of plane `z` has as minimum and maximum the smallest and the largest
value of `mask * image` over all voxels of the plane, inside the shape or not: both are
attained at voxels of the plane and bound `mask * image` at every voxel of the plane.
Hence a voxel `(y0, x0)` of the plane with mask value 0 forces `min <= 0 <= max`. -/
theorem compute_ROI_values_per_plane_min_max (image : VoxelsOnCartesianGrid K)
    (shape : Shape3D K) (num_samples : CartesianCoordinate3D ℤ) (z y0 x0 : ℤ)
    (hz : image.get_min_index ≤ z ∧ z ≤ image.get_max_index)
    (hy0 : (shape.construct_volume image.get_empty_voxels_on_cartesian_grid
        num_samples).min_y ≤ y0 ∧
      y0 ≤ (shape.construct_volume image.get_empty_voxels_on_cartesian_grid
        num_samples).max_y)
    (hx0 : (shape.construct_volume image.get_empty_voxels_on_cartesian_grid
        num_samples).min_x ≤ x0 ∧
      x0 ≤ (shape.construct_volume image.get_empty_voxels_on_cartesian_grid
        num_samples).max_x) :
    ∃ values_z : ROIValues K,
      (compute_ROI_values_per_plane image shape num_samples).lookup z = some values_z ∧
      (∀ y x,
        ((shape.construct_volume image.get_empty_voxels_on_cartesian_grid
            num_samples).min_y ≤ y ∧
          y ≤ (shape.construct_volume image.get_empty_voxels_on_cartesian_grid
            num_samples).max_y) →
        ((shape.construct_volume image.get_empty_voxels_on_cartesian_grid
            num_samples).min_x ≤ x ∧
          x ≤ (shape.construct_volume image.get_empty_voxels_on_cartesian_grid
            num_samples).max_x) →
        values_z.min_value
            ≤ (shape.construct_volume image.get_empty_voxels_on_cartesian_grid
                num_samples).voxels z y x * image.voxels z y x ∧
          (shape.construct_volume image.get_empty_voxels_on_cartesian_grid
              num_samples).voxels z y x * image.voxels z y x ≤ values_z.max_value) ∧
      values_z.min_value ∈
        (shape.construct_volume image.get_empty_voxels_on_cartesian_grid
          num_samples).over_plane (fun y x =>
            (shape.construct_volume image.get_empty_voxels_on_cartesian_grid
              num_samples).voxels z y x * image.voxels z y x) ∧
      values_z.max_value ∈
        (shape.construct_volume image.get_empty_voxels_on_cartesian_grid
          num_samples).over_plane (fun y x =>
            (shape.construct_volume image.get_empty_voxels_on_cartesian_grid
              num_samples).voxels z y x * image.voxels z y x) ∧
      ((shape.construct_volume image.get_empty_voxels_on_cartesian_grid
          num_samples).voxels z y0 x0 = 0 →
        values_z.min_value ≤ 0 ∧ 0 ≤ values_z.max_value) := by
  set mask := shape.construct_volume image.get_empty_voxels_on_cartesian_grid num_samples
    with hmask
  have hmem : ∀ y x, (mask.min_y ≤ y ∧ y ≤ mask.max_y) → (mask.min_x ≤ x ∧ x ≤ mask.max_x) →
      mask.voxels z y x * image.voxels z y x ∈
        mask.over_plane (fun y x => mask.voxels z y x * image.voxels z y x) :=
    fun y x hy hx => (mem_over_plane mask _ _).mpr ⟨y, x, hy, hx, rfl⟩
  have hne : mask.over_plane (fun y x => mask.voxels z y x * image.voxels z y x) ≠ [] :=
    List.ne_nil_of_mem (hmem y0 x0 hy0 hx0)
  have hmin := array_find_min_spec _ hne
  have hmax := array_find_max_spec _ hne
  refine ⟨_, compute_ROI_values_per_plane_lookup image shape num_samples z hz, ?_, hmin.1,
    hmax.1, ?_⟩
  · intro y x hy hx
    exact ⟨hmin.2 _ (hmem y x hy hx), hmax.2 _ (hmem y x hy hx)⟩
  · intro hzero
    have h0 := hmem y0 x0 hy0 hx0
    rw [hzero, zero_mul] at h0
    exact ⟨hmin.2 _ h0, hmax.2 _ h0⟩

end roi_theorems

/-- The column indices of the small image. -/
theorem index_range_zero_one : index_range 0 1 = [0, 1] := by
  decide

/-- The row indices of the small image. -/
theorem index_range_zero_zero : index_range 0 0 = [0] := by
  decide

/-- C13, as stated, fails for a fractional mask.  In plane 0 of the small image the mask
is 1/2, 0 and the image is 2, 3, with voxel volume 2: the reported integral of the square
is 2 * (1/2 * 2 * 2) = 4, while `voxel_volume * sum of (mask * image)^2` is
2 * (1/2 * 2)^2 = 2. -/
theorem compute_ROI_values_per_plane_integral_square_fractional_mask :
    ∃ values_z : ROIValues ℚ,
      (compute_ROI_values_per_plane scenario_image scenario_shape
        scenario_num_samples).lookup 0 = some values_z ∧
      values_z.integral_of_square = 4 ∧
      (scenario_image.get_voxel_size.x * scenario_image.get_voxel_size.y
          * scenario_image.get_voxel_size.z)
        * array_sum ((scenario_shape.construct_volume
            scenario_image.get_empty_voxels_on_cartesian_grid
            scenario_num_samples).over_plane (fun y x =>
              ((scenario_shape.construct_volume
                scenario_image.get_empty_voxels_on_cartesian_grid
                scenario_num_samples).voxels 0 y x * scenario_image.voxels 0 y x) ^ 2))
        = 2 ∧
      values_z.integral_of_square ≠
        (scenario_image.get_voxel_size.x * scenario_image.get_voxel_size.y
            * scenario_image.get_voxel_size.z)
          * array_sum ((scenario_shape.construct_volume
              scenario_image.get_empty_voxels_on_cartesian_grid
              scenario_num_samples).over_plane (fun y x =>
                ((scenario_shape.construct_volume
                  scenario_image.get_empty_voxels_on_cartesian_grid
                  scenario_num_samples).voxels 0 y x * scenario_image.voxels 0 y x) ^ 2))
      := by
  refine ⟨_, compute_ROI_values_per_plane_lookup scenario_image scenario_shape
    scenario_num_samples 0 (by simp [scenario_image]), ?_, ?_, ?_⟩ <;>
  · simp [plane_ROI_values, VoxelsOnCartesianGrid.over_plane, array_sum, scenario_image,
      scenario_shape, VoxelsOnCartesianGrid.get_empty_voxels_on_cartesian_grid,
      VoxelsOnCartesianGrid.get_voxel_size, index_range_zero_one, index_range_zero_zero]
    try norm_num

/-- C12, at a concrete input: plane 0 of the small image has volume 2 * (1/2 + 0) = 1
and integral 2 * (1/2 * 2 + 0 * 3) = 2. -/
theorem compute_ROI_values_per_plane_volume_integral_witness :
    (scenario_image.get_min_index ≤ 0 ∧ 0 ≤ scenario_image.get_max_index) ∧
    ∃ values_z : ROIValues ℚ,
      (compute_ROI_values_per_plane scenario_image scenario_shape
        scenario_num_samples).lookup 0 = some values_z ∧
      values_z.roi_volume = 1 ∧ values_z.integral = 2 := by
  have hz : scenario_image.get_min_index ≤ 0 ∧ 0 ≤ scenario_image.get_max_index := by
    simp [scenario_image, VoxelsOnCartesianGrid.get_min_index,
      VoxelsOnCartesianGrid.get_max_index]
  obtain ⟨-, -, values_z, hlookup, hvolume, hintegral⟩ :=
    compute_ROI_values_per_plane_volume_integral scenario_image scenario_shape
      scenario_num_samples 0 hz
  refine ⟨hz, values_z, hlookup, ?_, ?_⟩
  · rw [hvolume]
    simp [plane_ROI_values, VoxelsOnCartesianGrid.over_plane,
      VoxelsOnCartesianGrid.plane, array_sum, scenario_image, scenario_shape,
      VoxelsOnCartesianGrid.get_empty_voxels_on_cartesian_grid,
      VoxelsOnCartesianGrid.get_voxel_size, index_range_zero_one, index_range_zero_zero]
  · rw [hintegral]
    simp [plane_ROI_values, VoxelsOnCartesianGrid.over_plane,
      VoxelsOnCartesianGrid.plane, array_sum, scenario_image, scenario_shape,
      VoxelsOnCartesianGrid.get_empty_voxels_on_cartesian_grid,
      VoxelsOnCartesianGrid.get_voxel_size, index_range_zero_one, index_range_zero_zero]

/-- C13 as amended, at a concrete input: plane 0 of the small image has the integral of
the square 2 * (1/2 * 2 * 2 + 0 * 3 * 3) = 4. -/
theorem compute_ROI_values_per_plane_integral_square_witness :
    (scenario_image.get_min_index ≤ 0 ∧ 0 ≤ scenario_image.get_max_index) ∧
    ∃ values_z : ROIValues ℚ,
      (compute_ROI_values_per_plane scenario_image scenario_shape
        scenario_num_samples).lookup 0 = some values_z ∧
      values_z.integral_of_square = 4 := by
  have hz : scenario_image.get_min_index ≤ 0 ∧ 0 ≤ scenario_image.get_max_index := by
    simp [scenario_image, VoxelsOnCartesianGrid.get_min_index,
      VoxelsOnCartesianGrid.get_max_index]
  obtain ⟨values_z, hlookup, hsquare, -⟩ :=
    compute_ROI_values_per_plane_integral_square scenario_image scenario_shape
      scenario_num_samples 0 hz
  refine ⟨hz, values_z, hlookup, ?_⟩
  rw [hsquare]
  simp [plane_ROI_values, VoxelsOnCartesianGrid.over_plane,
      VoxelsOnCartesianGrid.plane, array_sum, scenario_image, scenario_shape,
      VoxelsOnCartesianGrid.get_empty_voxels_on_cartesian_grid,
      VoxelsOnCartesianGrid.get_voxel_size, index_range_zero_one, index_range_zero_zero]
  norm_num

/-- C14, at a concrete input: in plane 0 of the small image the voxel of column 1 has
mask value 0, so the minimum is at most 0 although the image is positive. -/
theorem compute_ROI_values_per_plane_min_max_witness :
    (scenario_shape.construct_volume scenario_image.get_empty_voxels_on_cartesian_grid
      scenario_num_samples).voxels 0 0 1 = 0 ∧
    ∃ values_z : ROIValues ℚ,
      (compute_ROI_values_per_plane scenario_image scenario_shape
        scenario_num_samples).lookup 0 = some values_z ∧
      values_z.min_value ≤ 0 ∧ 0 ≤ values_z.max_value := by
  have hmask : (scenario_shape.construct_volume
      scenario_image.get_empty_voxels_on_cartesian_grid
      scenario_num_samples).voxels 0 0 1 = 0 := by
    simp [scenario_shape]
  obtain ⟨values_z, hlookup, -, -, -, hzero⟩ :=
    compute_ROI_values_per_plane_min_max scenario_image scenario_shape
      scenario_num_samples 0 0 1
      (by simp [scenario_image, VoxelsOnCartesianGrid.get_min_index,
        VoxelsOnCartesianGrid.get_max_index])
      (by simp [scenario_image, scenario_shape,
        VoxelsOnCartesianGrid.get_empty_voxels_on_cartesian_grid])
      (by simp [scenario_image, scenario_shape,
        VoxelsOnCartesianGrid.get_empty_voxels_on_cartesian_grid])
  exact ⟨hmask, values_z, hlookup, hzero hmask⟩

/-- Two `ROIValues` with the same five fields are equal. -/
theorem ROIValues_eq_of_fields {K : Type} (a b : ROIValues K) (h1 : a.roi_volume = b.roi_volume)
    (h2 : a.integral = b.integral) (h3 : a.integral_of_square = b.integral_of_square)
    (h4 : a.min_value = b.min_value) (h5 : a.max_value = b.max_value) : a = b := by
  cases a
  cases b
  simp_all

section roi_total_theorems

variable {K : Type} [LinearOrderedField K]

/-- The sums accumulated by the loop `tmp += *iter`. -/
theorem foldl_add_assign_sums (values : List (ROIValues K)) :
    ∀ tmp : ROIValues K,
      (values.foldl ROIValues.add_assign tmp).roi_volume
        = tmp.roi_volume + (values.map ROIValues.roi_volume).sum ∧
      (values.foldl ROIValues.add_assign tmp).integral
        = tmp.integral + (values.map ROIValues.integral).sum ∧
      (values.foldl ROIValues.add_assign tmp).integral_of_square
        = tmp.integral_of_square + (values.map ROIValues.integral_of_square).sum := by
  induction values with
  | nil => intro tmp; simp
  | cons v rest ih =>
    intro tmp
    rw [List.foldl_cons]
    obtain ⟨h1, h2, h3⟩ := ih (tmp.add_assign v)
    rw [h1, h2, h3]
    simp only [ROIValues.add_assign, List.map_cons, List.sum_cons]
    refine ⟨by ring, by ring, by ring⟩

/-- The minimum and maximum accumulated by the loop `tmp += *iter`. -/
theorem foldl_add_assign_min_max (values : List (ROIValues K)) :
    ∀ tmp : ROIValues K,
      (values.foldl ROIValues.add_assign tmp).min_value
        = (values.map ROIValues.min_value).foldl min tmp.min_value ∧
      (values.foldl ROIValues.add_assign tmp).max_value
        = (values.map ROIValues.max_value).foldl max tmp.max_value := by
  induction values with
  | nil => intro tmp; simp
  | cons v rest ih =>
    intro tmp
    rw [List.foldl_cons]
    obtain ⟨h1, h2⟩ := ih (tmp.add_assign v)
    rw [h1, h2]
    simp [ROIValues.add_assign]

/-- Summing plane by plane is summing over the whole volume. -/
theorem sum_flatMap_eq (zs : List ℤ) (g : ℤ → List K) :
    (zs.flatMap g).sum = (zs.map (fun z => (g z).sum)).sum := by
  induction zs with
  | nil => simp
  | cons z rest ih => simp [List.flatMap_cons, List.sum_append, ih]

/-- The per-plane products with the voxel volume add up to the one-pass product. -/
theorem planes_sum_eq (zs : List ℤ) (g : ℤ → List K) (voxel_volume : K) :
    (zs.map (fun z => array_sum (g z) * voxel_volume)).sum
      = voxel_volume * array_sum (zs.flatMap g) := by
  simp only [array_sum]
  rw [sum_flatMap_eq, List.sum_map_mul_right, mul_comm]

/-- C15: additivity.  The three-argument `compute_total_ROI_values` is
`compute_total_ROI_values` applied to the result of `compute_ROI_values_per_plane`, and,
the default-constructed `ROIValues` having zero volume, integral and integral of the
square, its volume, integral and integral of the square are the sums of the per-plane
values and equal the same quantities computed in one pass over the whole 3D volume. -/
theorem compute_total_ROI_values_additive (tmp0 : ROIValues K)
    (image : VoxelsOnCartesianGrid K) (shape : Shape3D K)
    (num_samples : CartesianCoordinate3D ℤ)
    (hzero : tmp0.roi_volume = 0 ∧ tmp0.integral = 0 ∧ tmp0.integral_of_square = 0) :
    compute_total_ROI_values_of_image tmp0 image shape num_samples
      = compute_total_ROI_values tmp0
          (compute_ROI_values_per_plane image shape num_samples) ∧
    ((compute_total_ROI_values_of_image tmp0 image shape num_samples).roi_volume
        = ((compute_ROI_values_per_plane image shape num_samples).elems.map
            ROIValues.roi_volume).sum ∧
      (compute_total_ROI_values_of_image tmp0 image shape num_samples).roi_volume
        = (one_pass_ROI_totals image (shape.construct_volume
            image.get_empty_voxels_on_cartesian_grid num_samples)).1) ∧
    ((compute_total_ROI_values_of_image tmp0 image shape num_samples).integral
        = ((compute_ROI_values_per_plane image shape num_samples).elems.map
            ROIValues.integral).sum ∧
      (compute_total_ROI_values_of_image tmp0 image shape num_samples).integral
        = (one_pass_ROI_totals image (shape.construct_volume
            image.get_empty_voxels_on_cartesian_grid num_samples)).2.1) ∧
    ((compute_total_ROI_values_of_image tmp0 image shape num_samples).integral_of_square
        = ((compute_ROI_values_per_plane image shape num_samples).elems.map
            ROIValues.integral_of_square).sum ∧
      (compute_total_ROI_values_of_image tmp0 image shape num_samples).integral_of_square
        = (one_pass_ROI_totals image (shape.construct_volume
            image.get_empty_voxels_on_cartesian_grid num_samples)).2.2) := by
  obtain ⟨h1, h2, h3⟩ := foldl_add_assign_sums
    (compute_ROI_values_per_plane image shape num_samples).elems tmp0
  simp only [compute_total_ROI_values_of_image, compute_total_ROI_values, h1, h2, h3,
    hzero.1, hzero.2.1, hzero.2.2, zero_add, true_and]
  simp only [compute_ROI_values_per_plane_eq, List.map_map, one_pass_ROI_totals,
    over_volume]
  refine ⟨?_, ?_, ?_⟩
  · exact planes_sum_eq _ _ _
  · exact planes_sum_eq _ _ _
  · exact planes_sum_eq _ _ _

/-- A running minimum can be taken out of the start value. -/
theorem foldl_min_start (elements : List K) :
    ∀ a b : K, elements.foldl min (min a b) = min a (elements.foldl min b) := by
  induction elements with
  | nil => intro a b; rfl
  | cons c rest ih =>
    intro a b
    rw [List.foldl_cons, List.foldl_cons, min_assoc, ih]

/-- A running maximum can be taken out of the start value. -/
theorem foldl_max_start (elements : List K) :
    ∀ a b : K, elements.foldl max (max a b) = max a (elements.foldl max b) := by
  induction elements with
  | nil => intro a b; rfl
  | cons c rest ih =>
    intro a b
    rw [List.foldl_cons, List.foldl_cons, max_assoc, ih]

/-- The running minimum over a concatenation. -/
theorem foldl_min_append (first second : List K) (t : K) :
    (first ++ second).foldl min t = min (first.foldl min t) (second.foldl min t) := by
  rw [List.foldl_append]
  nth_rewrite 1 [← min_eq_left (foldl_min_le first t).1]
  rw [foldl_min_start]

/-- The running maximum over a concatenation. -/
theorem foldl_max_append (first second : List K) (t : K) :
    (first ++ second).foldl max t = max (first.foldl max t) (second.foldl max t) := by
  rw [List.foldl_append]
  nth_rewrite 1 [← max_eq_left (le_foldl_max first t).1]
  rw [foldl_max_start]

/-- The operator `+=` is commutative and associative. -/
theorem add_assign_comm_assoc (a b c : ROIValues K) :
    a.add_assign b = b.add_assign a ∧
      (a.add_assign b).add_assign c = a.add_assign (b.add_assign c) := by
  constructor
  · apply ROIValues_eq_of_fields <;> simp only [ROIValues.add_assign]
    · ring
    · ring
    · ring
    · exact min_comm _ _
    · exact max_comm _ _
  · apply ROIValues_eq_of_fields <;> simp only [ROIValues.add_assign]
    · ring
    · ring
    · ring
    · exact min_assoc _ _ _
    · exact max_assoc _ _ _

/-- C16: `compute_total_ROI_values` is an associative and commutative reduction.  Its
result is the same for every permutation of the per-plane values; the default-constructed
`ROIValues` having zero sums, the total of a concatenation of two plane ranges is the
total of the first accumulated (`+=`) with the total of the second; and `+=` itself is
commutative and associative. -/
theorem compute_total_ROI_values_assoc_comm (tmp0 : ROIValues K)
    (values1 values2 first second : VectorWithOffset (ROIValues K))
    (hperm : values1.elems.Perm values2.elems)
    (hzero : tmp0.roi_volume = 0 ∧ tmp0.integral = 0 ∧ tmp0.integral_of_square = 0) :
    compute_total_ROI_values tmp0 values1 = compute_total_ROI_values tmp0 values2 ∧
    compute_total_ROI_values tmp0
        { min_index := first.min_index, elems := first.elems ++ second.elems }
      = (compute_total_ROI_values tmp0 first).add_assign
          (compute_total_ROI_values tmp0 second) ∧
    (∀ a b : ROIValues K, a.add_assign b = b.add_assign a) ∧
    (∀ a b c : ROIValues K,
      (a.add_assign b).add_assign c = a.add_assign (b.add_assign c)) := by
  refine ⟨?_, ?_, fun a b => (add_assign_comm_assoc a b a).1,
    fun a b c => (add_assign_comm_assoc a b c).2⟩
  · haveI : RightCommutative (ROIValues.add_assign : ROIValues K → ROIValues K → ROIValues K) :=
      ⟨fun a b c => by
        rw [(add_assign_comm_assoc a b c).2, (add_assign_comm_assoc b c a).1,
          ← (add_assign_comm_assoc a c b).2]⟩
    exact hperm.foldl_eq tmp0
  · simp only [compute_total_ROI_values]
    obtain ⟨a1, a2, a3⟩ := foldl_add_assign_sums (first.elems ++ second.elems) tmp0
    obtain ⟨a4, a5⟩ := foldl_add_assign_min_max (first.elems ++ second.elems) tmp0
    obtain ⟨b1, b2, b3⟩ := foldl_add_assign_sums first.elems tmp0
    obtain ⟨b4, b5⟩ := foldl_add_assign_min_max first.elems tmp0
    obtain ⟨c1, c2, c3⟩ := foldl_add_assign_sums second.elems tmp0
    obtain ⟨c4, c5⟩ := foldl_add_assign_min_max second.elems tmp0
    apply ROIValues_eq_of_fields <;> simp only [ROIValues.add_assign]
    · rw [a1, b1, c1, hzero.1, List.map_append, List.sum_append]
      ring
    · rw [a2, b2, c2, hzero.2.1, List.map_append, List.sum_append]
      ring
    · rw [a3, b3, c3, hzero.2.2, List.map_append, List.sum_append]
      ring
    · rw [a4, b4, c4, List.map_append, foldl_min_append]
    · rw [a5, b5, c5, List.map_append, foldl_max_append]

end roi_total_theorems

/-- C15, at a concrete input: the small image has total volume 1 + 1 = 2 and total
integral 2 + 4 = 6. -/
theorem compute_total_ROI_values_additive_witness :
    (scenario_ROI_values0.roi_volume = 0 ∧ scenario_ROI_values0.integral = 0 ∧
      scenario_ROI_values0.integral_of_square = 0) ∧
    (compute_total_ROI_values_of_image scenario_ROI_values0 scenario_image scenario_shape
      scenario_num_samples).roi_volume = 2 ∧
    (compute_total_ROI_values_of_image scenario_ROI_values0 scenario_image scenario_shape
      scenario_num_samples).integral = 6 := by
  have hzero : scenario_ROI_values0.roi_volume = 0 ∧ scenario_ROI_values0.integral = 0 ∧
      scenario_ROI_values0.integral_of_square = 0 := ⟨rfl, rfl, rfl⟩
  obtain ⟨-, ⟨-, hvolume⟩, ⟨-, hintegral⟩, -⟩ :=
    compute_total_ROI_values_additive scenario_ROI_values0 scenario_image scenario_shape
      scenario_num_samples hzero
  refine ⟨hzero, ?_, ?_⟩
  · rw [hvolume]
    simp [one_pass_ROI_totals, over_volume, VoxelsOnCartesianGrid.over_plane, array_sum,
      scenario_image, scenario_shape,
      VoxelsOnCartesianGrid.get_empty_voxels_on_cartesian_grid, index_range_zero_one,
      index_range_zero_zero]
    norm_num
  · rw [hintegral]
    simp [one_pass_ROI_totals, over_volume, VoxelsOnCartesianGrid.over_plane, array_sum,
      scenario_image, scenario_shape,
      VoxelsOnCartesianGrid.get_empty_voxels_on_cartesian_grid, index_range_zero_one,
      index_range_zero_zero]
    norm_num

/-- C16, at a concrete input: the two per-plane values of the small image, in both
orders and split into two ranges. -/
theorem compute_total_ROI_values_assoc_comm_witness :
    compute_total_ROI_values scenario_ROI_values0
        { min_index := 0
          elems := [{ roi_volume := 1, integral := 2, integral_of_square := 4,
                      min_value := 0, max_value := 1 },
                    { roi_volume := 1, integral := 4, integral_of_square := 16,
                      min_value := 0, max_value := 2 }] }
      = compute_total_ROI_values scenario_ROI_values0
        { min_index := 0
          elems := [{ roi_volume := 1, integral := 4, integral_of_square := 16,
                      min_value := 0, max_value := 2 },
                    { roi_volume := 1, integral := 2, integral_of_square := 4,
                      min_value := 0, max_value := 1 }] } ∧
    compute_total_ROI_values scenario_ROI_values0
        { min_index := 0
          elems := [{ roi_volume := 1, integral := 2, integral_of_square := 4,
                      min_value := 0, max_value := 1 }] ++
                   [{ roi_volume := 1, integral := 4, integral_of_square := 16,
                      min_value := 0, max_value := 2 }] }
      = (compute_total_ROI_values scenario_ROI_values0
          { min_index := 0
            elems := [{ roi_volume := 1, integral := 2, integral_of_square := 4,
                        min_value := 0, max_value := 1 }] }).add_assign
        (compute_total_ROI_values scenario_ROI_values0
          { min_index := 1
            elems := [{ roi_volume := 1, integral := 4, integral_of_square := 16,
                        min_value := 0, max_value := 2 }] }) := by
  have h := compute_total_ROI_values_assoc_comm scenario_ROI_values0
    { min_index := 0
      elems := [{ roi_volume := 1, integral := 2, integral_of_square := 4,
                  min_value := 0, max_value := 1 },
                { roi_volume := 1, integral := 4, integral_of_square := 16,
                  min_value := 0, max_value := 2 }] }
    { min_index := 0
      elems := [{ roi_volume := 1, integral := 4, integral_of_square := 16,
                  min_value := 0, max_value := 2 },
                { roi_volume := 1, integral := 2, integral_of_square := 4,
                  min_value := 0, max_value := 1 }] }
    { min_index := 0
      elems := [{ roi_volume := 1, integral := 2, integral_of_square := 4,
                  min_value := 0, max_value := 1 }] }
    { min_index := 1
      elems := [{ roi_volume := 1, integral := 4, integral_of_square := 16,
                  min_value := 0, max_value := 2 }] }
    (List.Perm.swap _ _ _) ⟨rfl, rfl, rfl⟩
  exact ⟨h.1, h.2.1⟩

section roi_ratio_theorems

variable {K : Type} [LinearOrderedField K]

/-- Dividing by a floating-point zero never gives a finite value. -/
theorem ExtendedFloat.div_zero_not_finite (a : ExtendedFloat K) :
    (a / (0 : ExtendedFloat K)).is_finite = false := by
  show (ExtendedFloat.div a (ExtendedFloat.finite 0)).is_finite = false
  cases a with
  | finite x =>
    by_cases hx : x = 0 <;> simp [ExtendedFloat.div, ExtendedFloat.is_finite, hx]
  | infinity s => simp [ExtendedFloat.div, ExtendedFloat.is_finite]
  | nan => simp [ExtendedFloat.div, ExtendedFloat.is_finite]

/-- Subtracting a value that is not finite from 1, or 1 from it, does not give a finite
value. -/
theorem ExtendedFloat.sub_one_not_finite (a : ExtendedFloat K)
    (ha : a.is_finite = false) :
    ((1 : ExtendedFloat K) - a).is_finite = false ∧
      (a - (1 : ExtendedFloat K)).is_finite = false := by
  show (ExtendedFloat.sub (ExtendedFloat.finite 1) a).is_finite = false ∧
    (ExtendedFloat.sub a (ExtendedFloat.finite 1)).is_finite = false
  cases a with
  | finite x => simp [ExtendedFloat.is_finite] at ha
  | infinity s => simp [ExtendedFloat.sub, ExtendedFloat.is_finite]
  | nan => simp [ExtendedFloat.sub, ExtendedFloat.is_finite]

/-- C17, as amended: the three ratio functions contain no check of the divisor and raise
no error; they return the floating-point quotient.  Whenever the dividing mean is 0 the
value returned is an infinity or not-a-number. -/
theorem compute_CR_division_by_zero (sqrt : ExtendedFloat K → ExtendedFloat K)
    (val1 val2 val : ROIValues (ExtendedFloat K))
    (hmean2 : val2.get_mean = 0) (hmean : val.get_mean = 0) :
    (compute_CR_hot val1 val2 = 1 - val1.get_mean / 0 ∧
      (compute_CR_hot val1 val2).is_finite = false) ∧
    (compute_CR_cold val1 val2 = val1.get_mean / 0 - 1 ∧
      (compute_CR_cold val1 val2).is_finite = false) ∧
    (compute_uniformity sqrt val = val.get_stddev sqrt / 0 ∧
      (compute_uniformity sqrt val).is_finite = false) := by
  simp only [compute_CR_hot, compute_CR_cold, compute_uniformity, hmean2, hmean, true_and]
  exact ⟨(ExtendedFloat.sub_one_not_finite _
      (ExtendedFloat.div_zero_not_finite val1.get_mean)).1,
    (ExtendedFloat.sub_one_not_finite _
      (ExtendedFloat.div_zero_not_finite val1.get_mean)).2,
    ExtendedFloat.div_zero_not_finite _⟩

end roi_ratio_theorems

/-- C17, as stated, fails: with mean 1 in the first region and mean 0 in the second,
`compute_CR_hot` returns minus infinity and `compute_CR_cold` returns plus infinity, and
`compute_uniformity` of a region with mean 0 and variance 0 divides `sqrt 0` by zero,
which for `sqrt 0 = 0` is not-a-number.  No error is raised. -/
theorem compute_CR_returns_infinity :
    ROIValues.get_mean
        ({ roi_volume := ExtendedFloat.finite 1, integral := ExtendedFloat.finite 0,
           integral_of_square := ExtendedFloat.finite 0, min_value := ExtendedFloat.finite 0,
           max_value := ExtendedFloat.finite 0 } : ROIValues (ExtendedFloat ℚ)) = 0 ∧
    compute_CR_hot
        ({ roi_volume := ExtendedFloat.finite 1, integral := ExtendedFloat.finite 1,
           integral_of_square := ExtendedFloat.finite 1, min_value := ExtendedFloat.finite 1,
           max_value := ExtendedFloat.finite 1 } : ROIValues (ExtendedFloat ℚ))
        { roi_volume := ExtendedFloat.finite 1, integral := ExtendedFloat.finite 0,
          integral_of_square := ExtendedFloat.finite 0, min_value := ExtendedFloat.finite 0,
          max_value := ExtendedFloat.finite 0 } = ExtendedFloat.infinity true ∧
    compute_CR_cold
        ({ roi_volume := ExtendedFloat.finite 1, integral := ExtendedFloat.finite 1,
           integral_of_square := ExtendedFloat.finite 1, min_value := ExtendedFloat.finite 1,
           max_value := ExtendedFloat.finite 1 } : ROIValues (ExtendedFloat ℚ))
        { roi_volume := ExtendedFloat.finite 1, integral := ExtendedFloat.finite 0,
          integral_of_square := ExtendedFloat.finite 0, min_value := ExtendedFloat.finite 0,
          max_value := ExtendedFloat.finite 0 } = ExtendedFloat.infinity false ∧
    (∀ sqrt : ExtendedFloat ℚ → ExtendedFloat ℚ, sqrt 0 = 0 →
      compute_uniformity sqrt
        ({ roi_volume := ExtendedFloat.finite 1, integral := ExtendedFloat.finite 0,
           integral_of_square := ExtendedFloat.finite 0, min_value := ExtendedFloat.finite 0,
           max_value := ExtendedFloat.finite 0 } : ROIValues (ExtendedFloat ℚ))
        = ExtendedFloat.nan) := by
  have hdiv1 : (ExtendedFloat.finite 1 : ExtendedFloat ℚ) / ExtendedFloat.finite 1
      = ExtendedFloat.finite 1 := by
    show ExtendedFloat.div _ _ = _
    simp [ExtendedFloat.div]
  have hdiv0 : (ExtendedFloat.finite 0 : ExtendedFloat ℚ) / ExtendedFloat.finite 1
      = ExtendedFloat.finite 0 := by
    show ExtendedFloat.div _ _ = _
    simp [ExtendedFloat.div]
  have hdiv10 : (ExtendedFloat.finite 1 : ExtendedFloat ℚ) / ExtendedFloat.finite 0
      = ExtendedFloat.infinity false := by
    show ExtendedFloat.div _ _ = _
    simp [ExtendedFloat.div]
  have hdiv00 : (ExtendedFloat.finite 0 : ExtendedFloat ℚ) / ExtendedFloat.finite 0
      = ExtendedFloat.nan := by
    show ExtendedFloat.div _ _ = _
    simp [ExtendedFloat.div]
  refine ⟨?_, ?_, ?_, ?_⟩
  · simp only [ROIValues.get_mean, hdiv0]
    rfl
  · simp only [compute_CR_hot, ROIValues.get_mean, hdiv1, hdiv0, hdiv10]
    rfl
  · simp only [compute_CR_cold, ROIValues.get_mean, hdiv1, hdiv0, hdiv10]
    rfl
  · intro sqrt hsqrt
    have hmul : (ExtendedFloat.finite 0 : ExtendedFloat ℚ) * ExtendedFloat.finite 0
        = ExtendedFloat.finite 0 := by
      show ExtendedFloat.mul _ _ = _
      simp [ExtendedFloat.mul]
    have hsub : (ExtendedFloat.finite 0 : ExtendedFloat ℚ) - ExtendedFloat.finite 0
        = ExtendedFloat.finite 0 := by
      show ExtendedFloat.sub _ _ = _
      simp [ExtendedFloat.sub]
    have hsqrt0 : sqrt (ExtendedFloat.finite 0) = ExtendedFloat.finite 0 := hsqrt
    simp only [compute_uniformity, ROIValues.get_stddev, ROIValues.get_variance,
      ROIValues.get_mean, hdiv0, hmul, hsub, hsqrt0, hdiv00]

/-- C17 as amended, at a concrete input: regions with mean 0 (integral 0, volume 1). -/
theorem compute_CR_division_by_zero_witness :
    (compute_CR_hot
        ({ roi_volume := ExtendedFloat.finite 1, integral := ExtendedFloat.finite 1,
           integral_of_square := ExtendedFloat.finite 1, min_value := ExtendedFloat.finite 1,
           max_value := ExtendedFloat.finite 1 } : ROIValues (ExtendedFloat ℚ))
        { roi_volume := ExtendedFloat.finite 1, integral := ExtendedFloat.finite 0,
          integral_of_square := ExtendedFloat.finite 0, min_value := ExtendedFloat.finite 0,
          max_value := ExtendedFloat.finite 0 }).is_finite = false ∧
    (compute_CR_cold
        ({ roi_volume := ExtendedFloat.finite 1, integral := ExtendedFloat.finite 1,
           integral_of_square := ExtendedFloat.finite 1, min_value := ExtendedFloat.finite 1,
           max_value := ExtendedFloat.finite 1 } : ROIValues (ExtendedFloat ℚ))
        { roi_volume := ExtendedFloat.finite 1, integral := ExtendedFloat.finite 0,
          integral_of_square := ExtendedFloat.finite 0, min_value := ExtendedFloat.finite 0,
          max_value := ExtendedFloat.finite 0 }).is_finite = false ∧
    (compute_uniformity (fun x => x)
        ({ roi_volume := ExtendedFloat.finite 1, integral := ExtendedFloat.finite 0,
           integral_of_square := ExtendedFloat.finite 0, min_value := ExtendedFloat.finite 0,
           max_value := ExtendedFloat.finite 0 } :
          ROIValues (ExtendedFloat ℚ))).is_finite = false := by
  have hmean : ROIValues.get_mean
      ({ roi_volume := ExtendedFloat.finite 1, integral := ExtendedFloat.finite 0,
         integral_of_square := ExtendedFloat.finite 0, min_value := ExtendedFloat.finite 0,
         max_value := ExtendedFloat.finite 0 } : ROIValues (ExtendedFloat ℚ)) = 0 := by
    show ExtendedFloat.div (ExtendedFloat.finite (0 : ℚ)) (ExtendedFloat.finite (1 : ℚ))
      = ExtendedFloat.finite (0 : ℚ)
    simp [ExtendedFloat.div]
  have h := compute_CR_division_by_zero (fun x => x)
    ({ roi_volume := ExtendedFloat.finite 1, integral := ExtendedFloat.finite 1,
       integral_of_square := ExtendedFloat.finite 1, min_value := ExtendedFloat.finite 1,
       max_value := ExtendedFloat.finite 1 } : ROIValues (ExtendedFloat ℚ))
    { roi_volume := ExtendedFloat.finite 1, integral := ExtendedFloat.finite 0,
      integral_of_square := ExtendedFloat.finite 0, min_value := ExtendedFloat.finite 0,
      max_value := ExtendedFloat.finite 0 }
    { roi_volume := ExtendedFloat.finite 1, integral := ExtendedFloat.finite 0,
      integral_of_square := ExtendedFloat.finite 0, min_value := ExtendedFloat.finite 0,
      max_value := ExtendedFloat.finite 0 }
    hmean hmean
  exact ⟨h.1.2, h.2.1.2, h.2.2.2⟩

section roi_field_theorems

variable {F : Type} [Field F]

/-- C18: for regions with `val2.get_mean() != 0`, `compute_CR_hot` is
`1 - mean(val1) / mean(val2)` and `compute_CR_cold` is `mean(val1) / mean(val2) - 1`, so
their sum is 0 (and `compute_CR_hot` times `mean(val2)` is `mean(val2) - mean(val1)`, the
quotient being a genuine one); `compute_uniformity` is `stddev(val) / mean(val)`. -/
theorem compute_CR_ratios (sqrt : F → F) (val1 val2 val : ROIValues F)
    (hmean2 : val2.get_mean ≠ 0) :
    compute_CR_hot val1 val2 = 1 - val1.get_mean / val2.get_mean ∧
    compute_CR_cold val1 val2 = val1.get_mean / val2.get_mean - 1 ∧
    compute_CR_hot val1 val2 + compute_CR_cold val1 val2 = 0 ∧
    compute_CR_hot val1 val2 * val2.get_mean = val2.get_mean - val1.get_mean ∧
    compute_uniformity sqrt val = val.get_stddev sqrt / val.get_mean := by
  refine ⟨rfl, rfl, ?_, ?_, rfl⟩
  · simp only [compute_CR_hot, compute_CR_cold]
    ring
  · simp only [compute_CR_hot]
    field_simp

end roi_field_theorems

/-- C18, at a concrete input: means 2 and 4 give the hot contrast 1/2 and the cold
contrast -1/2. -/
theorem compute_CR_ratios_witness :
    ROIValues.get_mean
        ({ roi_volume := 1, integral := 4, integral_of_square := 16, min_value := 4,
           max_value := 4 } : ROIValues ℚ) ≠ 0 ∧
    compute_CR_hot
        ({ roi_volume := 1, integral := 2, integral_of_square := 4, min_value := 2,
           max_value := 2 } : ROIValues ℚ)
        { roi_volume := 1, integral := 4, integral_of_square := 16, min_value := 4,
          max_value := 4 } = 1 / 2 ∧
    compute_CR_hot
        ({ roi_volume := 1, integral := 2, integral_of_square := 4, min_value := 2,
           max_value := 2 } : ROIValues ℚ)
        { roi_volume := 1, integral := 4, integral_of_square := 16, min_value := 4,
          max_value := 4 }
      + compute_CR_cold
        ({ roi_volume := 1, integral := 2, integral_of_square := 4, min_value := 2,
           max_value := 2 } : ROIValues ℚ)
        { roi_volume := 1, integral := 4, integral_of_square := 16, min_value := 4,
          max_value := 4 } = 0 := by
  have hmean2 : ROIValues.get_mean
      ({ roi_volume := 1, integral := 4, integral_of_square := 16, min_value := 4,
         max_value := 4 } : ROIValues ℚ) ≠ 0 := by
    norm_num [ROIValues.get_mean]
  have h := compute_CR_ratios (fun x : ℚ => x)
    ({ roi_volume := 1, integral := 2, integral_of_square := 4, min_value := 2,
       max_value := 2 } : ROIValues ℚ)
    { roi_volume := 1, integral := 4, integral_of_square := 16, min_value := 4,
      max_value := 4 }
    { roi_volume := 1, integral := 4, integral_of_square := 16, min_value := 4,
      max_value := 4 } hmean2
  refine ⟨hmean2, ?_, h.2.2.1⟩
  rw [h.1]
  norm_num [ROIValues.get_mean]

section store_theorems

variable {K : Type}

/-- C19: `set_tangential_sampling(v)` on the object at `this_ptr` changes the tangential
sampling of that object to `v` and nothing else: the base-class part (scanner, number of
views, tangential range, per-segment axial counts, ring-difference tables) keeps its
value, and every other object of the store is unchanged. -/
theorem set_tangential_sampling_frame (store : ObjectStore K) (this_ptr : ℕ)
    (pdi : ProjDataInfoCylindricalArcCorr K) (v : K)
    (hobj : store.deref this_ptr = some pdi) :
    (store.set_tangential_sampling this_ptr v).deref this_ptr
      = some (pdi.set_tangential_sampling v) ∧
    (pdi.set_tangential_sampling v).get_tangential_sampling = v ∧
    (pdi.set_tangential_sampling v).toProjDataInfoCylindrical
      = pdi.toProjDataInfoCylindrical ∧
    ((pdi.set_tangential_sampling v).scanner_ptr = pdi.scanner_ptr ∧
      (pdi.set_tangential_sampling v).get_num_views = pdi.get_num_views ∧
      (pdi.set_tangential_sampling v).num_tangential_poss = pdi.num_tangential_poss ∧
      (pdi.set_tangential_sampling v).get_min_tangential_pos_num
        = pdi.get_min_tangential_pos_num ∧
      (pdi.set_tangential_sampling v).get_max_tangential_pos_num
        = pdi.get_max_tangential_pos_num ∧
      (pdi.set_tangential_sampling v).num_axial_pos_per_segment
        = pdi.num_axial_pos_per_segment ∧
      (pdi.set_tangential_sampling v).min_ring_diff = pdi.min_ring_diff ∧
      (pdi.set_tangential_sampling v).max_ring_diff = pdi.max_ring_diff) ∧
    (∀ other : ℕ, other ≠ this_ptr →
      (store.set_tangential_sampling this_ptr v).deref other = store.deref other) := by
  have hlt : this_ptr < store.objects.length := by
    by_contra hge
    simp only [ObjectStore.deref] at hobj
    rw [List.getElem?_eq_none (by omega)] at hobj
    exact absurd hobj (by simp)
  have hget : store.objects[this_ptr]? = some pdi := hobj
  refine ⟨?_, rfl, rfl, ⟨rfl, rfl, rfl, rfl, rfl, rfl, rfl, rfl⟩, ?_⟩
  · simp only [ObjectStore.set_tangential_sampling, ObjectStore.deref, hget,
      List.getElem?_set, if_pos hlt, if_true]
  · intro other hne
    simp only [ObjectStore.set_tangential_sampling, ObjectStore.deref, hget,
      List.getElem?_set, if_neg (Ne.symm hne)]

/-- A pointer that points to an object is a position of the list. -/
theorem ObjectStore.lt_length_of_deref (store : ObjectStore K) (ptr : ℕ)
    (pdi : ProjDataInfoCylindricalArcCorr K) (hobj : store.deref ptr = some pdi) :
    ptr < store.objects.length := by
  by_contra hge
  simp only [ObjectStore.deref] at hobj
  rw [List.getElem?_eq_none (by omega)] at hobj
  exact absurd hobj (by simp)

/-- C20: `clone()` on the object at `this_ptr` returns a pointer to a new object with the
same field values.  The original is untouched, for every line of response `get_bin` of
the clone equals `get_bin` of the original, and `set_tangential_sampling` on the clone
changes the clone only: the original keeps its tangential sampling and its `get_bin`
results. -/
theorem clone_independent [Div K] [Neg K] [One K] (store : ObjectStore K) (this_ptr : ℕ)
    (pdi : ProjDataInfoCylindricalArcCorr K)
    (hobj : store.deref this_ptr = some pdi) :
    ∃ (store2 : ObjectStore K) (copy_ptr : ℕ),
      store.clone this_ptr = some (store2, copy_ptr) ∧
      copy_ptr ≠ this_ptr ∧
      store.deref copy_ptr = none ∧
      store2.deref copy_ptr = some pdi ∧
      store2.deref this_ptr = some pdi ∧
      (∀ (copy : ProjDataInfoCylindricalArcCorr K) (round : K → ℤ) (bin0 : Bin K)
          (lor : LOR K), store2.deref copy_ptr = some copy →
        get_bin round bin0 copy lor = get_bin round bin0 pdi lor) ∧
      (∀ v : K,
        (store2.set_tangential_sampling copy_ptr v).deref copy_ptr
          = some (pdi.set_tangential_sampling v) ∧
        (store2.set_tangential_sampling copy_ptr v).deref this_ptr = some pdi ∧
        ∀ (original : ProjDataInfoCylindricalArcCorr K),
          (store2.set_tangential_sampling copy_ptr v).deref this_ptr = some original →
          original.get_tangential_sampling = pdi.get_tangential_sampling ∧
          ∀ (round : K → ℤ) (bin0 : Bin K) (lor : LOR K),
            get_bin round bin0 original lor = get_bin round bin0 pdi lor) := by
  have hlt := ObjectStore.lt_length_of_deref store this_ptr pdi hobj
  have hget : store.objects[this_ptr]? = some pdi := hobj
  have hcopy : (store.objects ++ [pdi])[store.objects.length]? = some pdi := by
    rw [List.getElem?_append_right (le_refl _)]
    simp
  have horig : (store.objects ++ [pdi])[this_ptr]? = some pdi := by
    rw [List.getElem?_append_left hlt]
    exact hget
  have hne : store.objects.length ≠ this_ptr := by omega
  refine ⟨{ objects := store.objects ++ [pdi] }, store.objects.length, ?_, hne, ?_, hcopy,
    horig, ?_, ?_⟩
  · simp only [ObjectStore.clone, ObjectStore.deref, hget]
  · simp only [ObjectStore.deref]
    exact List.getElem?_eq_none (le_refl _)
  · intro copy round bin0 lor hc
    have heq : some copy = some pdi := by
      rw [← hc]
      exact hcopy
    rw [Option.some.inj heq]
  · intro v
    have hafter : (ObjectStore.set_tangential_sampling
        { objects := store.objects ++ [pdi] } store.objects.length v).deref this_ptr
          = some pdi := by
      simp only [ObjectStore.set_tangential_sampling, ObjectStore.deref, hcopy,
        List.getElem?_set, if_neg hne]
      exact horig
    refine ⟨?_, hafter, ?_⟩
    · simp only [ObjectStore.set_tangential_sampling, ObjectStore.deref, hcopy,
        List.getElem?_set, if_true]
      simp
    · intro original horiginal
      have heq : some original = some pdi := by
        rw [← horiginal]
        exact hafter
      rw [Option.some.inj heq]
      exact ⟨rfl, fun _ _ _ => rfl⟩

end store_theorems

/-- C19, at a concrete input: the store of the concrete scenario, new sampling 3 mm. -/
theorem set_tangential_sampling_frame_witness :
    scenario_store.deref 0 = some scenario_proj_data_info ∧
    (scenario_store.set_tangential_sampling 0 3).deref 0
      = some (scenario_proj_data_info.set_tangential_sampling 3) ∧
    (scenario_proj_data_info.set_tangential_sampling 3).get_tangential_sampling = 3 ∧
    (scenario_proj_data_info.set_tangential_sampling 3).toProjDataInfoCylindrical
      = scenario_proj_data_info.toProjDataInfoCylindrical := by
  have h := set_tangential_sampling_frame scenario_store 0 scenario_proj_data_info 3 rfl
  exact ⟨rfl, h.1, h.2.1, h.2.2.1⟩

/-- C20, at a concrete input: cloning the only object of the store of the concrete
scenario gives a second object at position 1. -/
theorem clone_independent_witness :
    scenario_store.deref 0 = some scenario_proj_data_info ∧
    ∃ (store2 : ObjectStore ℚ) (copy_ptr : ℕ),
      scenario_store.clone 0 = some (store2, copy_ptr) ∧
      copy_ptr ≠ 0 ∧
      store2.deref copy_ptr = some scenario_proj_data_info ∧
      (store2.set_tangential_sampling copy_ptr 3).deref 0
        = some scenario_proj_data_info := by
  obtain ⟨store2, copy_ptr, hclone, hne, -, hcopy, -, -, hset⟩ :=
    clone_independent scenario_store 0 scenario_proj_data_info rfl
  exact ⟨rfl, store2, copy_ptr, hclone, hne, hcopy, (hset 3).2.1⟩

/-! ## Purity and assertions of `get_bin` -/

/-- C23: validity of the assertions.  With `0 <= phi < pi`, `num_views >= 1`, azimuthal
sampling `pi / num_views`, `max_view_num = num_views - 1` and a nearest-integer `round`,
the rounded view number lies in `[0, num_views]`, so both `assert` statements of `get_bin`
hold, and the direction is swapped exactly when the view number equals `num_views`. -/
theorem get_bin_asserts_hold (round : ℝ → ℤ)
    (hround : ∀ x : ℝ, |x - (round x : ℝ)| ≤ 1 / 2)
    (pdi : ProjDataInfoCylindricalArcCorr ℝ) (lor : LOR ℝ)
    (lor_coords : LORInAxialAndSinogramCoordinates ℝ)
    (hconv : lor.change_representation pdi.get_ring_radius = some lor_coords)
    (hphi : 0 ≤ lor_coords.phi ∧ lor_coords.phi < Real.pi)
    (hviews : 1 ≤ pdi.get_num_views)
    (hsampling : pdi.get_azimuthal_angle_sampling = Real.pi / (pdi.get_num_views : ℝ))
    (hmax : pdi.get_max_view_num = pdi.get_num_views - 1) :
    (0 ≤ get_bin_view_num round pdi lor_coords ∧
      get_bin_view_num round pdi lor_coords ≤ pdi.get_num_views) ∧
    get_bin_asserts round pdi lor ∧
    (get_bin_swap_direction round pdi lor_coords = true ↔
      get_bin_view_num round pdi lor_coords = pdi.get_num_views) := by
  have hpi := Real.pi_pos
  have hn : (0 : ℝ) < (pdi.get_num_views : ℝ) := by exact_mod_cast (by omega : 0 < pdi.get_num_views)
  have hquot : lor_coords.phi / (Real.pi / (pdi.get_num_views : ℝ))
      = lor_coords.phi * (pdi.get_num_views : ℝ) / Real.pi := by
    field_simp
  have hlo : 0 ≤ lor_coords.phi * (pdi.get_num_views : ℝ) / Real.pi :=
    div_nonneg (mul_nonneg hphi.1 hn.le) hpi.le
  have hhi : lor_coords.phi * (pdi.get_num_views : ℝ) / Real.pi < (pdi.get_num_views : ℝ) := by
    rw [div_lt_iff₀ hpi]
    nlinarith [hphi.2]
  have hnear := abs_le.mp (hround (lor_coords.phi / (Real.pi / (pdi.get_num_views : ℝ))))
  rw [hquot] at hnear
  have hview : get_bin_view_num round pdi lor_coords
      = round (lor_coords.phi * (pdi.get_num_views : ℝ) / Real.pi) := by
    simp only [get_bin_view_num, hsampling, hquot]
  have h0 : 0 ≤ get_bin_view_num round pdi lor_coords := by
    rw [hview]
    have h1 : ((-1 : ℤ) : ℝ) < ((round (lor_coords.phi * (pdi.get_num_views : ℝ) / Real.pi) : ℤ) : ℝ) := by
      push_cast
      linarith [hnear.2]
    have h2 : (-1 : ℤ) < round (lor_coords.phi * (pdi.get_num_views : ℝ) / Real.pi) := by
      exact_mod_cast h1
    omega
  have h1 : get_bin_view_num round pdi lor_coords ≤ pdi.get_num_views := by
    rw [hview]
    have h1 : ((round (lor_coords.phi * (pdi.get_num_views : ℝ) / Real.pi) : ℤ) : ℝ)
        < ((pdi.get_num_views + 1 : ℤ) : ℝ) := by
      push_cast
      linarith [hnear.1]
    have h2 : round (lor_coords.phi * (pdi.get_num_views : ℝ) / Real.pi)
        < pdi.get_num_views + 1 := by
      exact_mod_cast h1
    omega
  refine ⟨⟨h0, h1⟩, ?_, ?_⟩
  · simp only [get_bin_asserts, hconv]
    exact ⟨h0, h1⟩
  · simp only [get_bin_swap_direction, decide_eq_true_eq, hmax]
    omega

/-- C23, at a concrete input: the concrete scenario over the reals with `phi` = 3.13,
just below pi. -/
theorem get_bin_asserts_hold_witness :
    ((0 : ℝ) ≤ 3.13 ∧ (3.13 : ℝ) < Real.pi) ∧
    get_bin_asserts (fun x : ℝ => round x) (scenario_geometry ℝ (Real.pi / 60))
      (lor_with_coords { phi := 3.13, s := 4, z1 := 50, z2 := 50 }) := by
  have hphi : (0 : ℝ) ≤ 3.13 ∧ (3.13 : ℝ) < Real.pi :=
    ⟨by norm_num, lt_trans (by norm_num) Real.pi_gt_d2⟩
  exact ⟨hphi,
    (get_bin_asserts_hold (fun x : ℝ => round x) (fun x => abs_sub_round x)
      (scenario_geometry ℝ (Real.pi / 60))
      (lor_with_coords { phi := 3.13, s := 4, z1 := 50, z2 := 50 })
      { phi := 3.13, s := 4, z1 := 50, z2 := 50 } rfl hphi
      (by norm_num [scenario_geometry])
      (by norm_num [scenario_geometry])
      (by norm_num [scenario_geometry])).2.1⟩

/-! ## The plane-range variant of the region-of-interest values -/

/-- C24: the small image with `plane_range = (0, 0)`, so that the output range is
`[0, 1]`, all planes.  For plane 0 `compute_ROI_values_per_plane` reports volume 1,
integral 2 and integral of the square 4, whereas `compute_plane_range_ROI_values_per_plane`
reports volume 2, integral 3 and integral of the square 5: its sums run over the whole
3D array instead of plane 0. -/
theorem compute_plane_range_ROI_values_per_plane_differs :
    (compute_ROI_values_per_plane scenario_image scenario_shape
        scenario_num_samples).lookup 0
      = some { roi_volume := 1, integral := 2, integral_of_square := 4, min_value := 0,
               max_value := 1 } ∧
    (compute_plane_range_ROI_values_per_plane scenario_image { y := 0, x := 0 }
        scenario_shape scenario_num_samples).lookup 0
      = some { roi_volume := 2, integral := 3, integral_of_square := 5, min_value := 0,
               max_value := 1 } := by
  constructor
  · rw [compute_ROI_values_per_plane_lookup scenario_image scenario_shape
      scenario_num_samples 0 (by simp [scenario_image])]
    simp [plane_ROI_values, VoxelsOnCartesianGrid.over_plane, array_sum, array_find_min,
      array_find_max, scenario_image, scenario_shape,
      VoxelsOnCartesianGrid.get_empty_voxels_on_cartesian_grid, index_range_zero_one,
      index_range_zero_zero]
    norm_num
  · simp [compute_plane_range_ROI_values_per_plane,
      compute_plane_range_ROI_values_per_plane_body, VectorWithOffset.lookup,
      VoxelsOnCartesianGrid.elements, VoxelsOnCartesianGrid.plane,
      VoxelsOnCartesianGrid.over_plane, VoxelsOnCartesianGrid.multiply_plane,
      VoxelsOnCartesianGrid.get_min_index, VoxelsOnCartesianGrid.get_max_index,
      VoxelsOnCartesianGrid.get_voxel_size, array_sum, array_find_min, array_find_max,
      scenario_image, scenario_shape,
      VoxelsOnCartesianGrid.get_empty_voxels_on_cartesian_grid, index_range_zero_one,
      index_range_zero_zero]
    norm_num

/-! ## Results on the time frames -/

/-- The extractions of a file that ends with white space. -/
theorem frame_def_file_trailing {K : Type} (entry : ℤ × K) (rest : List (ℤ × K)) :
    frame_def_file (entry :: rest) true
      = { num := entry.1, duration := entry.2, eof := false }
        :: frame_def_file rest true := by
  cases rest with
  | nil => simp [frame_def_file]
  | cons next more => simp [frame_def_file]

/-- The extractions of a file that holds some entries and then a last one. -/
theorem frame_def_file_append {K : Type} (entries : List (ℤ × K)) (last : ℤ × K)
    (trailing_white_space : Bool) :
    frame_def_file (entries ++ [last]) trailing_white_space
      = frame_def_file entries true
        ++ [{ num := last.1, duration := last.2, eof := !trailing_white_space }] := by
  induction entries with
  | nil => simp [frame_def_file]
  | cons entry rest ih =>
    rw [frame_def_file_trailing]
    cases rest with
    | nil => simp [frame_def_file]
    | cons next more =>
      rw [List.cons_append, List.cons_append, frame_def_file, ← List.cons_append, ih,
        List.cons_append]

section time_frame_theorems

variable {K : Type} [LinearOrderedField K]

/-- Contiguous frames over a concatenation of durations. -/
theorem contiguous_frames_append (first second : List K) :
    ∀ start : K, contiguous_frames (first ++ second) start
      = contiguous_frames first start
        ++ contiguous_frames second (first.foldl (fun a b => a + b) start) := by
  induction first with
  | nil => intro start; rfl
  | cons d rest ih =>
    intro start
    rw [List.cons_append, contiguous_frames, contiguous_frames, List.foldl_cons, ih,
      List.cons_append]

/-- The loop `while (num--)` appends `num` contiguous frames of the given duration. -/
theorem push_frames_eq (duration : K) (num : ℕ) :
    ∀ (frame_times : List (K × K)) (previous_end_time : K),
      TimeFrameDefinitions.push_frames duration num (frame_times, previous_end_time)
        = (frame_times
            ++ contiguous_frames (List.replicate num duration) previous_end_time,
          (List.replicate num duration).foldl (fun a b => a + b) previous_end_time) := by
  induction num with
  | zero => intro frame_times previous_end_time; simp [TimeFrameDefinitions.push_frames,
      contiguous_frames]
  | succ n ih =>
    intro frame_times previous_end_time
    simp only [TimeFrameDefinitions.push_frames, ih, List.replicate_succ, contiguous_frames,
      List.foldl_cons, List.append_assoc, List.singleton_append]

/-- The loop `while (true)` over valid entries that are all followed by white space
appends the contiguous frames that the entries describe, and goes on with what follows
them. -/
theorem read_frames_append (entries : List (ℤ × K)) (more : List (FrameExtraction K))
    (hvalid : ∀ entry ∈ entries, 0 < entry.1 ∧ 0 < entry.2) :
    ∀ (frame_times : List (K × K)) (previous_end_time : K),
      TimeFrameDefinitions.read_frames (frame_def_file entries true ++ more)
          (frame_times, previous_end_time)
        = TimeFrameDefinitions.read_frames more
          (frame_times ++ contiguous_frames (frame_durations entries) previous_end_time,
            (frame_durations entries).foldl (fun a b => a + b) previous_end_time) := by
  induction entries with
  | nil =>
    intro frame_times previous_end_time
    simp [frame_def_file, frame_durations, contiguous_frames]
  | cons entry rest ih =>
    intro frame_times previous_end_time
    have hentry := hvalid entry (List.mem_cons_self entry rest)
    have hnot : ¬ (entry.1 ≤ 0 ∨ entry.2 ≤ 0) := by
      rw [not_or, not_le, not_le]
      exact hentry
    have hdur : frame_durations (entry :: rest)
        = List.replicate entry.1.toNat entry.2 ++ frame_durations rest := by
      simp [frame_durations]
    rw [frame_def_file_trailing, List.cons_append, TimeFrameDefinitions.read_frames]
    simp only [Bool.false_eq_true, if_false]
    rw [if_neg hnot, push_frames_eq,
      ih (fun e he => hvalid e (List.mem_cons_of_mem entry he)), hdur,
      contiguous_frames_append, List.foldl_append, List.append_assoc]

/-- The loop `while (true)` over valid entries that are all followed by white space
appends the contiguous frames that the entries describe. -/
theorem read_frames_eq (entries : List (ℤ × K))
    (hvalid : ∀ entry ∈ entries, 0 < entry.1 ∧ 0 < entry.2) :
    ∀ (frame_times : List (K × K)) (previous_end_time : K),
      TimeFrameDefinitions.read_frames (frame_def_file entries true)
          (frame_times, previous_end_time)
        = Except.ok (frame_times
            ++ contiguous_frames (frame_durations entries) previous_end_time,
          (frame_durations entries).foldl (fun a b => a + b) previous_end_time) := by
  intro frame_times previous_end_time
  have h := read_frames_append entries [] hvalid frame_times previous_end_time
  rw [List.append_nil] at h
  rw [h, TimeFrameDefinitions.read_frames]

/-- The loop `while (true)` stops with an error at the first entry that is not valid, if
white space follows that entry. -/
theorem read_frames_error (valid : List (ℤ × K)) (bad : ℤ × K)
    (more : List (FrameExtraction K))
    (hvalid : ∀ entry ∈ valid, 0 < entry.1 ∧ 0 < entry.2)
    (hbad : bad.1 ≤ 0 ∨ bad.2 ≤ 0) :
    ∀ state : List (K × K) × K,
      TimeFrameDefinitions.read_frames
          (frame_def_file valid true
            ++ { num := bad.1, duration := bad.2, eof := false } :: more) state
        = Except.error TimeFrameDefinitionsError.encountered_negative_numbers := by
  intro state
  rw [read_frames_append valid _ hvalid state.1 state.2, TimeFrameDefinitions.read_frames]
  simp only [Bool.false_eq_true, if_false]
  rw [if_pos hbad]

/-- The loop `while (true)` stops without an error at a last entry that ends the file: the
entry is neither checked nor stored. -/
theorem read_frames_dropped (valid : List (ℤ × K)) (last : ℤ × K)
    (hvalid : ∀ entry ∈ valid, 0 < entry.1 ∧ 0 < entry.2) :
    ∀ (frame_times : List (K × K)) (previous_end_time : K),
      TimeFrameDefinitions.read_frames (frame_def_file (valid ++ [last]) false)
          (frame_times, previous_end_time)
        = Except.ok (frame_times
            ++ contiguous_frames (frame_durations valid) previous_end_time,
          (frame_durations valid).foldl (fun a b => a + b) previous_end_time) := by
  intro frame_times previous_end_time
  rw [frame_def_file_append, read_frames_append valid _ hvalid,
    TimeFrameDefinitions.read_frames]
  simp

/-- There are as many contiguous frames as durations. -/
theorem contiguous_frames_length (durations : List K) :
    ∀ start : K, (contiguous_frames durations start).length = durations.length := by
  induction durations with
  | nil => intro start; rfl
  | cons d rest ih => intro start; simp [contiguous_frames, ih]

/-- The first contiguous frame starts at `start`. -/
theorem contiguous_frames_head (durations : List K) (start : K) (frame : K × K)
    (h : (contiguous_frames durations start)[0]? = some frame) : frame.1 = start := by
  cases durations with
  | nil => simp [contiguous_frames] at h
  | cons d rest =>
    simp only [contiguous_frames, List.getElem?_cons_zero, Option.some.injEq] at h
    rw [← h]

/-- Frame `k` ends its duration after it starts. -/
theorem contiguous_frames_duration (durations : List K) :
    ∀ (start : K) (k : ℕ) (frame : K × K),
      (contiguous_frames durations start)[k]? = some frame →
      ∃ d, durations[k]? = some d ∧ frame.2 = frame.1 + d := by
  induction durations with
  | nil => intro start k frame h; simp [contiguous_frames] at h
  | cons d rest ih =>
    intro start k frame h
    cases k with
    | zero =>
      simp only [contiguous_frames, List.getElem?_cons_zero, Option.some.injEq] at h
      exact ⟨d, by simp, by rw [← h]⟩
    | succ n =>
      simp only [contiguous_frames, List.getElem?_cons_succ] at h
      obtain ⟨d2, hd2, hframe⟩ := ih _ n frame h
      exact ⟨d2, by simpa using hd2, hframe⟩

/-- Frame `k + 1` starts where frame `k` ends. -/
theorem contiguous_frames_next (durations : List K) :
    ∀ (start : K) (k : ℕ) (frame next : K × K),
      (contiguous_frames durations start)[k]? = some frame →
      (contiguous_frames durations start)[k + 1]? = some next →
      next.1 = frame.2 := by
  induction durations with
  | nil => intro start k frame next h; simp [contiguous_frames] at h
  | cons d rest ih =>
    intro start k frame next h hnext
    simp only [contiguous_frames, List.getElem?_cons_succ] at hnext
    cases k with
    | zero =>
      simp only [contiguous_frames, List.getElem?_cons_zero, Option.some.injEq] at h
      rw [contiguous_frames_head rest (start + d) next hnext, ← h]
    | succ n =>
      simp only [contiguous_frames, List.getElem?_cons_succ] at h
      exact ih _ n frame next h hnext

/-- The number of frames that valid entries describe is the sum of their `num` values. -/
theorem frame_durations_length (entries : List (ℤ × K))
    (hvalid : ∀ entry ∈ entries, 0 < entry.1 ∧ 0 < entry.2) :
    ((frame_durations entries).length : ℤ) = (entries.map Prod.fst).sum := by
  induction entries with
  | nil => simp [frame_durations]
  | cons entry rest ih =>
    have hentry := hvalid entry (List.mem_cons_self entry rest)
    have hdur : frame_durations (entry :: rest)
        = List.replicate entry.1.toNat entry.2 ++ frame_durations rest := by
      simp [frame_durations]
    rw [hdur, List.length_append, List.length_replicate, List.map_cons, List.sum_cons]
    push_cast
    rw [ih (fun e he => hvalid e (List.mem_cons_of_mem entry he)),
      Int.toNat_of_nonneg hentry.1.le]

/-- The constructor, given valid entries that are all followed by white space, stores the
contiguous frames they describe, starting at 0. -/
theorem from_file_eq (entries : List (ℤ × K))
    (hvalid : ∀ entry ∈ entries, 0 < entry.1 ∧ 0 < entry.2) :
    TimeFrameDefinitions.from_file (some (frame_def_file entries true))
      = Except.ok { frame_times := contiguous_frames (frame_durations entries) 0 } := by
  simp only [TimeFrameDefinitions.from_file, read_frames_eq entries hvalid, List.nil_append]

/-- The constructor drops a last entry that ends the file, valid or not: it stores the
frames of the entries before it and raises no error. -/
theorem from_file_dropped (valid : List (ℤ × K)) (last : ℤ × K)
    (hvalid : ∀ entry ∈ valid, 0 < entry.1 ∧ 0 < entry.2) :
    TimeFrameDefinitions.from_file (some (frame_def_file (valid ++ [last]) false))
      = Except.ok { frame_times := contiguous_frames (frame_durations valid) 0 } := by
  simp only [TimeFrameDefinitions.from_file, read_frames_dropped valid last hvalid,
    List.nil_append]

/-- Time frames built from a file whose entries are valid (`num > 0` and `duration > 0`)
and are all followed by white space are contiguous and start at zero.  The number of
frames is the sum of the `num` values, `get_start_time(1) = 0`,
`get_start_time(k+1) = get_end_time(k)` for `1 <= k < num_frames`, and
`get_end_time(k) - get_start_time(k)` is the duration of the entry that frame `k` came
from.  A file in which valid entries are followed by an entry with `num <= 0` or
`duration <= 0`, itself followed by white space, is rejected with an error. -/
theorem time_frames_contiguous_before_end_of_file (valid : List (ℤ × K)) (bad : ℤ × K)
    (more : List (FrameExtraction K))
    (hvalid : ∀ entry ∈ valid, 0 < entry.1 ∧ 0 < entry.2)
    (hbad : bad.1 ≤ 0 ∨ bad.2 ≤ 0) :
    (∃ frame_defs : TimeFrameDefinitions K,
      TimeFrameDefinitions.from_file (some (frame_def_file valid true))
        = Except.ok frame_defs ∧
      (frame_defs.get_num_frames : ℤ) = (valid.map Prod.fst).sum ∧
      (1 ≤ frame_defs.get_num_frames → frame_defs.get_start_time 1 = some 0) ∧
      (∀ k : ℕ, 1 ≤ k → k < frame_defs.get_num_frames →
        ∃ t : K, frame_defs.get_start_time (k + 1) = some t ∧
          frame_defs.get_end_time k = some t) ∧
      (∀ k : ℕ, 1 ≤ k → k ≤ frame_defs.get_num_frames →
        ∃ t0 t1 d : K, frame_defs.get_start_time k = some t0 ∧
          frame_defs.get_end_time k = some t1 ∧
          (frame_durations valid)[k - 1]? = some d ∧ t1 - t0 = d)) ∧
    TimeFrameDefinitions.from_file
        (some (frame_def_file valid true
          ++ { num := bad.1, duration := bad.2, eof := false } :: more))
      = Except.error TimeFrameDefinitionsError.encountered_negative_numbers := by
  constructor
  · refine ⟨_, from_file_eq valid hvalid, ?_, ?_, ?_, ?_⟩
    · simp only [TimeFrameDefinitions.get_num_frames, contiguous_frames_length]
      exact frame_durations_length valid hvalid
    · intro h1
      simp only [TimeFrameDefinitions.get_num_frames] at h1
      simp only [TimeFrameDefinitions.get_start_time, TimeFrameDefinitions.get_num_frames,
        ge_iff_le, le_refl, true_and, if_pos h1, Nat.sub_self]
      rw [List.getElem?_eq_getElem (by omega)]
      simp only [Option.map_some', Option.some.injEq]
      exact contiguous_frames_head _ _ _ (List.getElem?_eq_getElem (by omega))
    · intro k hk1 hk2
      simp only [TimeFrameDefinitions.get_num_frames] at hk2
      obtain ⟨j, rfl⟩ : ∃ j, k = j + 1 := ⟨k - 1, by omega⟩
      have hj : j < (contiguous_frames (frame_durations valid) (0 : K)).length := by omega
      have hnext := contiguous_frames_next (frame_durations valid) 0 j _ _
        (List.getElem?_eq_getElem hj) (List.getElem?_eq_getElem hk2)
      refine ⟨((contiguous_frames (frame_durations valid) (0 : K))[j]).2, ?_, ?_⟩
      · simp only [TimeFrameDefinitions.get_start_time,
          TimeFrameDefinitions.get_num_frames]
        rw [if_pos (by omega), Nat.add_sub_cancel, List.getElem?_eq_getElem hk2]
        simp only [Option.map_some', Option.some.injEq]
        exact hnext
      · simp only [TimeFrameDefinitions.get_end_time, TimeFrameDefinitions.get_num_frames]
        rw [if_pos (by omega), Nat.add_sub_cancel, List.getElem?_eq_getElem hj]
        rfl
    · intro k hk1 hk2
      simp only [TimeFrameDefinitions.get_num_frames] at hk2
      obtain ⟨j, rfl⟩ : ∃ j, k = j + 1 := ⟨k - 1, by omega⟩
      have hj : j < (contiguous_frames (frame_durations valid) (0 : K)).length := by omega
      obtain ⟨d, hd, hframe⟩ := contiguous_frames_duration (frame_durations valid) 0 j
        _ (List.getElem?_eq_getElem hj)
      refine ⟨((contiguous_frames (frame_durations valid) (0 : K))[j]).1,
        ((contiguous_frames (frame_durations valid) (0 : K))[j]).2, d, ?_, ?_, ?_, ?_⟩
      · simp only [TimeFrameDefinitions.get_start_time,
          TimeFrameDefinitions.get_num_frames]
        rw [if_pos (by omega), Nat.add_sub_cancel, List.getElem?_eq_getElem hj]
        rfl
      · simp only [TimeFrameDefinitions.get_end_time, TimeFrameDefinitions.get_num_frames]
        rw [if_pos (by omega), Nat.add_sub_cancel, List.getElem?_eq_getElem hj]
        rfl
      · rw [Nat.add_sub_cancel]
        exact hd
      · rw [hframe]
        ring
  · simp only [TimeFrameDefinitions.from_file,
      read_frames_error valid bad more hvalid hbad]

end time_frame_theorems

/-- C25: the file `2 10`, newline, `1 30`, with and without a final newline.  With the
final newline the constructor builds the three frames (0, 10), (10, 20), (20, 50), as the
claim says.  Without it the extraction of `1 30` leaves the stream at the end of the
file, line 148 leaves the loop, and only the two frames (0, 10), (10, 20) are built.  In
the same way the entry `-1 30` is rejected with an error when a newline follows it and is
dropped without an error when it ends the file. -/
theorem time_frames_last_entry_dropped :
    TimeFrameDefinitions.from_file (some (frame_def_file [(2, (10 : ℚ)), (1, 30)] true))
      = Except.ok { frame_times := [(0, 10), (10, 20), (20, 50)] } ∧
    frame_def_file [(2, (10 : ℚ)), (1, 30)] false
      = [{ num := 2, duration := 10, eof := false },
          { num := 1, duration := 30, eof := true }] ∧
    TimeFrameDefinitions.from_file (some (frame_def_file [(2, (10 : ℚ)), (1, 30)] false))
      = Except.ok { frame_times := [(0, 10), (10, 20)] } ∧
    (TimeFrameDefinitions.from_file
        (some (frame_def_file [(2, (10 : ℚ)), (1, 30)] false))).map
          TimeFrameDefinitions.get_num_frames = Except.ok 2 ∧
    TimeFrameDefinitions.from_file (some (frame_def_file [(2, (10 : ℚ)), (-1, 30)] true))
      = Except.error TimeFrameDefinitionsError.encountered_negative_numbers ∧
    TimeFrameDefinitions.from_file (some (frame_def_file [(2, (10 : ℚ)), (-1, 30)] false))
      = Except.ok { frame_times := [(0, 10), (10, 20)] } := by
  have hpush : ∀ state : List (ℚ × ℚ) × ℚ,
      TimeFrameDefinitions.push_frames 10 2 state
        = (state.1 ++ [(state.2, state.2 + 10), (state.2 + 10, state.2 + 10 + 10)],
          state.2 + 10 + 10) := by
    intro state
    simp [TimeFrameDefinitions.push_frames]
  have hpush1 : ∀ state : List (ℚ × ℚ) × ℚ,
      TimeFrameDefinitions.push_frames 30 1 state
        = (state.1 ++ [(state.2, state.2 + 30)], state.2 + 30) := by
    intro state
    simp [TimeFrameDefinitions.push_frames]
  refine ⟨?_, ?_, ?_, ?_, ?_, ?_⟩
  · simp [TimeFrameDefinitions.from_file, TimeFrameDefinitions.read_frames,
      frame_def_file, hpush, hpush1]
    norm_num
  · simp [frame_def_file]
  · simp [TimeFrameDefinitions.from_file, TimeFrameDefinitions.read_frames,
      frame_def_file, hpush]
    norm_num
  · simp [TimeFrameDefinitions.from_file, TimeFrameDefinitions.read_frames,
      frame_def_file, hpush, TimeFrameDefinitions.get_num_frames, Except.map]
    norm_num
  · simp [TimeFrameDefinitions.from_file, TimeFrameDefinitions.read_frames,
      frame_def_file, hpush]
  · simp [TimeFrameDefinitions.from_file, TimeFrameDefinitions.read_frames,
      frame_def_file, hpush]
    norm_num

/-! ## Results on the parabolic fit and the level width -/

section find_fwhm_theorems

variable {K : Type} [LinearOrderedField K]

/-- The invariant of the loop of `std::max_element`: after the positions before `i`, `best`
is a position before `i` holding the value `best.2`, every earlier element is strictly
smaller and every element before `i` is at most `best.2`. -/
theorem max_element_from_spec (range : List K) :
    ∀ (rest before : List K) (best : ℕ × K), range = before ++ rest →
      best.1 < before.length → range[best.1]? = some best.2 →
      (∀ (j : ℕ) (x : K), j < best.1 → range[j]? = some x → x < best.2) →
      (∀ (j : ℕ) (x : K), j < before.length → range[j]? = some x → x ≤ best.2) →
      (max_element_from rest before.length best).1 < range.length ∧
      range[(max_element_from rest before.length best).1]?
        = some (max_element_from rest before.length best).2 ∧
      (∀ (j : ℕ) (x : K), j < (max_element_from rest before.length best).1 →
        range[j]? = some x → x < (max_element_from rest before.length best).2) ∧
      (∀ (j : ℕ) (x : K), range[j]? = some x →
        x ≤ (max_element_from rest before.length best).2) := by
  intro rest
  induction rest with
  | nil =>
    intro before best hrange hlt hbest hsmaller hle
    have hlen : range.length = before.length := by rw [hrange, List.append_nil]
    refine ⟨by simpa [max_element_from, hlen] using hlt, by simpa [max_element_from] using hbest,
      by simpa [max_element_from] using hsmaller, ?_⟩
    intro j x hj
    have hjlt : j < range.length := by
      by_contra hge
      rw [List.getElem?_eq_none (by omega)] at hj
      exact absurd hj (by simp)
    simpa [max_element_from] using hle j x (by omega) hj
  | cons y rest ih =>
    intro before best hrange hlt hbest hsmaller hle
    have hrange2 : range = (before ++ [y]) ++ rest := by
      rw [hrange, List.append_assoc, List.singleton_append]
    have hlen2 : (before ++ [y]).length = before.length + 1 := by simp
    have hy : range[before.length]? = some y := by
      rw [hrange, List.getElem?_append_right (le_refl _)]
      simp
    have hstep := ih (before ++ [y]) (if best.2 < y then (before.length, y) else best) hrange2
    rw [hlen2] at hstep
    rw [max_element_from]
    by_cases hcmp : best.2 < y
    · rw [if_pos hcmp] at hstep ⊢
      apply hstep (by simp) hy
      · intro j x hj hx
        exact lt_of_le_of_lt (hle j x hj hx) hcmp
      · intro j x hj hx
        rcases Nat.lt_succ_iff_lt_or_eq.mp hj with h | h
        · exact le_of_lt (lt_of_le_of_lt (hle j x h hx) hcmp)
        · rw [h, hy] at hx
          exact le_of_eq (Option.some.inj hx).symm
    · rw [if_neg hcmp] at hstep ⊢
      apply hstep (by omega) hbest hsmaller
      intro j x hj hx
      rcases Nat.lt_succ_iff_lt_or_eq.mp hj with h | h
      · exact hle j x h hx
      · rw [h, hy] at hx
        rw [← Option.some.inj hx]
        exact not_lt.mp hcmp

/-- The standard algorithm `std::max_element` on a non-empty range: the position is
inside the range, every earlier element is strictly smaller than the element there and
no element is larger. -/
theorem max_element_spec (range : List K) (hne : range ≠ []) :
    ∃ y2 : K, max_element range < range.length ∧ range[max_element range]? = some y2 ∧
      (∀ (j : ℕ) (x : K), j < max_element range → range[j]? = some x → x < y2) ∧
      (∀ (j : ℕ) (x : K), range[j]? = some x → x ≤ y2) := by
  cases range with
  | nil => exact absurd rfl hne
  | cons a rest =>
    have h := max_element_from_spec (a :: rest) rest [a] (0, a) rfl (by simp) (by simp)
      (by intro j x hj; omega)
      (by
        intro j x hj hx
        have hj0 : j = 0 := by simpa using hj
        rw [hj0] at hx
        simp only [List.getElem?_cons_zero, Option.some.injEq] at hx
        exact le_of_eq hx.symm)
    exact ⟨_, h⟩

/-- The three samples around an interior first maximum: the left neighbour is strictly
smaller, the right neighbour is not larger, and no sample is larger. -/
theorem max_element_interior (range : List K) (hbegin : max_element range ≠ 0)
    (hend : max_element range + 1 ≠ range.length) :
    ∃ y1 y2 y3 : K, range[max_element range - 1]? = some y1 ∧
      range[max_element range]? = some y2 ∧ range[max_element range + 1]? = some y3 ∧
      y1 < y2 ∧ y3 ≤ y2 ∧ (∀ (j : ℕ) (x : K), range[j]? = some x → x ≤ y2) := by
  have hne : range ≠ [] := by
    intro h
    rw [h] at hbegin
    exact hbegin rfl
  obtain ⟨y2, hlt, hy2, hsmaller, hle⟩ := max_element_spec range hne
  have h1 : max_element range - 1 < range.length := by omega
  have h3 : max_element range + 1 < range.length := by omega
  refine ⟨range[max_element range - 1], y2, range[max_element range + 1],
    List.getElem?_eq_getElem h1, hy2, List.getElem?_eq_getElem h3, ?_, ?_, hle⟩
  · exact hsmaller _ _ (by omega) (List.getElem?_eq_getElem h1)
  · exact hle _ _ (List.getElem?_eq_getElem h3)

/-- The source's expression for the vertex offset, simplified. -/
theorem parabola_x0_eq (y1 y2 y3 : K) :
    0.5 * ((-1 : K) * (((-1 : K) - 0) * ((-1 : K) - 1))
          * (y2 * (((1 : K) - 0) * ((1 : K) - -1)) + y3 * (((0 : K) - -1) * ((0 : K) - 1)))
        + (0 : K) * (((0 : K) - -1) * ((0 : K) - 1))
          * (y1 * (((1 : K) - 0) * ((1 : K) - -1)) + y3 * (((-1 : K) - 0) * ((-1 : K) - 1)))
        + (1 : K) * (((1 : K) - 0) * ((1 : K) - -1))
          * (y1 * (((0 : K) - -1) * ((0 : K) - 1)) + y2 * (((-1 : K) - 0) * ((-1 : K) - 1))))
      / (y1 * (((0 : K) - -1) * ((0 : K) - 1)) * (((1 : K) - 0) * ((1 : K) - -1))
        + y2 * (((-1 : K) - 0) * ((-1 : K) - 1)) * (((1 : K) - 0) * ((1 : K) - -1))
        + y3 * (((-1 : K) - 0) * ((-1 : K) - 1)) * (((0 : K) - -1) * ((0 : K) - 1)))
      = (y3 - y1) / (2 * (2 * y2 - y1 - y3)) := by
  congr 1
  · norm_num
    ring
  · ring

/-- The result of `parabolic_3points_fit_x0` for an interior first maximum, in exact
arithmetic. -/
theorem parabolic_3points_fit_x0_interior (range : List K) (y1 y2 y3 : K)
    (hbegin : max_element range ≠ 0) (hend : max_element range + 1 ≠ range.length)
    (h1 : range[max_element range - 1]? = some y1)
    (h2 : range[max_element range]? = some y2)
    (h3 : range[max_element range + 1]? = some y3) :
    parabolic_3points_fit_x0 (FloatConversion.exact K) range
      = some ((y3 - y1) / (2 * (2 * y2 - y1 - y3))) := by
  simp only [parabolic_3points_fit_x0, FloatConversion.exact, if_neg hend, if_neg hbegin,
    h1, h2, h3, Option.bind_eq_bind, Option.some_bind]
  rw [parabola_x0_eq]

/-- In exact arithmetic, when the first maximum of the range is at an interior position,
the divisor `y1*a2*a3 + y2*a1*a3 + y3*a1*a2` of `parabolic_3points_fit_x0` (and of
`parabolic_3points_fit`) is `2*(2*y2 - y1 - y3)` and strictly positive, because
`y2 > y1` and `y2 >= y3`, and the vertex offset `x0 = (y3 - y1) / (2*(2*y2 - y1 - y3))`
that is returned satisfies `-1/2 < x0 <= 1/2`.  For every range whose maximum is at
either border the result is 0. -/
theorem parabolic_3points_fit_x0_bounds_exact (range : List K)
    (hbegin : max_element range ≠ 0) (hend : max_element range + 1 ≠ range.length) :
    (∃ y1 y2 y3 x0 : K, range[max_element range - 1]? = some y1 ∧
      range[max_element range]? = some y2 ∧ range[max_element range + 1]? = some y3 ∧
      (y1 < y2 ∧ y3 ≤ y2) ∧
      y1 * (((0 : K) - -1) * ((0 : K) - 1)) * (((1 : K) - 0) * ((1 : K) - -1))
          + y2 * (((-1 : K) - 0) * ((-1 : K) - 1)) * (((1 : K) - 0) * ((1 : K) - -1))
          + y3 * (((-1 : K) - 0) * ((-1 : K) - 1)) * (((0 : K) - -1) * ((0 : K) - 1))
        = 2 * (2 * y2 - y1 - y3) ∧
      0 < 2 * (2 * y2 - y1 - y3) ∧
      parabolic_3points_fit_x0 (FloatConversion.exact K) range = some x0 ∧
      x0 = (y3 - y1) / (2 * (2 * y2 - y1 - y3)) ∧
      -1 / 2 < x0 ∧ x0 ≤ 1 / 2) ∧
    (∀ border : List K,
      max_element border = 0 ∨ max_element border + 1 = border.length →
      parabolic_3points_fit_x0 (FloatConversion.exact K) border = some 0) := by
  constructor
  · obtain ⟨y1, y2, y3, h1, h2, h3, hlt, hle, -⟩ := max_element_interior range hbegin hend
    have hpos : 0 < 2 * (2 * y2 - y1 - y3) := by linarith
    refine ⟨y1, y2, y3, _, h1, h2, h3, ⟨hlt, hle⟩, by ring, hpos,
      parabolic_3points_fit_x0_interior range y1 y2 y3 hbegin hend h1 h2 h3, rfl, ?_, ?_⟩
    · rw [lt_div_iff₀ hpos]
      linarith
    · rw [div_le_iff₀ hpos]
      linarith
  · intro border hborder
    simp only [parabolic_3points_fit_x0]
    rcases hborder with h | h
    · by_cases hlast : max_element border + 1 = border.length
      · rw [if_pos hlast]
      · rw [if_neg hlast, if_pos h]
    · rw [if_pos h]

/-- In exact arithmetic, `parabolic_3points_fit` of a range whose first maximum is at an
interior position returns the value at the vertex of the parabola through `(-1, y1)`, `(0, y2)`,
`(1, y3)`: there are coefficients `a`, `b`, `c` of a parabola through the three points
whose derivative vanishes at `x0`, and the result is its value at `x0`.  The result is
`y2 + (y3 - y1)^2 / (8*(2*y2 - y1 - y3))`, and no sample is larger than it.  For every
non-empty range whose maximum is the first or the last element the result is the largest
sample itself. -/
theorem parabolic_3points_fit_vertex_exact (range : List K)
    (hbegin : max_element range ≠ 0) (hend : max_element range + 1 ≠ range.length) :
    (∃ y1 y2 y3 x0 real_max_value : K, range[max_element range - 1]? = some y1 ∧
      range[max_element range]? = some y2 ∧ range[max_element range + 1]? = some y3 ∧
      parabolic_3points_fit_x0 (FloatConversion.exact K) range = some x0 ∧
      parabolic_3points_fit (FloatConversion.exact K) range = some real_max_value ∧
      (∃ a b c : K, a * (-1) ^ 2 + b * (-1) + c = y1 ∧ a * 0 ^ 2 + b * 0 + c = y2 ∧
        a * 1 ^ 2 + b * 1 + c = y3 ∧ a ≠ 0 ∧ 2 * a * x0 + b = 0 ∧
        real_max_value = a * x0 ^ 2 + b * x0 + c) ∧
      real_max_value = y2 + (y3 - y1) ^ 2 / (8 * (2 * y2 - y1 - y3)) ∧
      y2 ≤ real_max_value ∧
      (∀ (j : ℕ) (x : K), range[j]? = some x → x ≤ real_max_value)) ∧
    (∀ border : List K, border ≠ [] →
      max_element border = 0 ∨ max_element border + 1 = border.length →
      ∃ largest : K, parabolic_3points_fit (FloatConversion.exact K) border = some largest ∧
        border[max_element border]? = some largest ∧
        (∀ (j : ℕ) (x : K), border[j]? = some x → x ≤ largest)) := by
  constructor
  · obtain ⟨y1, y2, y3, h1, h2, h3, hlt, hle, hmax⟩ := max_element_interior range hbegin hend
    have hpos : 0 < 2 * y2 - y1 - y3 := by linarith
    have hne : 2 * y2 - y1 - y3 ≠ 0 := ne_of_gt hpos
    have hx0 := parabolic_3points_fit_x0_interior range y1 y2 y3 hbegin hend h1 h2 h3
    have hfit : parabolic_3points_fit (FloatConversion.exact K) range
        = some (y2 + (y3 - y1) ^ 2 / (8 * (2 * y2 - y1 - y3))) := by
      simp only [parabolic_3points_fit, FloatConversion.exact, not_or.mpr ⟨hend, hbegin⟩,
        if_false, h1, h2, h3, Option.bind_eq_bind, Option.some_bind, parabola_x0_eq]
      congr 1
      field_simp
      ring
    have hge : y2 ≤ y2 + (y3 - y1) ^ 2 / (8 * (2 * y2 - y1 - y3)) := by
      have : 0 ≤ (y3 - y1) ^ 2 / (8 * (2 * y2 - y1 - y3)) :=
        div_nonneg (sq_nonneg _) (by linarith)
      linarith
    refine ⟨y1, y2, y3, _, _, h1, h2, h3, hx0, hfit, ?_, rfl, hge, ?_⟩
    · refine ⟨(y1 + y3 - 2 * y2) / 2, (y3 - y1) / 2, y2, by ring, by ring, by ring, ?_, ?_, ?_⟩
      · intro h
        have : y1 + y3 - 2 * y2 = 0 := by
          rcases div_eq_zero_iff.mp h with h0 | h0
          · exact h0
          · norm_num at h0
        linarith
      · field_simp
        ring
      · field_simp
        ring
    · intro j x hx
      exact le_trans (hmax j x hx) hge
  · intro border hne hborder
    obtain ⟨largest, hlt, hlargest, -, hle⟩ := max_element_spec border hne
    refine ⟨largest, ?_, hlargest, hle⟩
    have hcond : max_element border + 1 = border.length ∨ max_element border = 0 :=
      hborder.symm
    simp only [parabolic_3points_fit, if_pos hcond, hlargest]

end find_fwhm_theorems

/-- The first maximum of the samples 1, 3, 2 is at position 1. -/
theorem max_element_one_three_two : max_element ([1, 3, 2] : List ℚ) = 1 := by
  simp only [max_element, max_element_from]
  norm_num

/-- In exact arithmetic the samples 1, 3, 2 have their maximum in the middle and the vertex
offset (2 - 1) / (2 * (6 - 1 - 2)) = 1/6. -/
theorem parabolic_3points_fit_x0_bounds_exact_witness :
    (max_element ([1, 3, 2] : List ℚ) ≠ 0 ∧
      max_element ([1, 3, 2] : List ℚ) + 1 ≠ ([1, 3, 2] : List ℚ).length) ∧
    parabolic_3points_fit_x0 (FloatConversion.exact ℚ) ([1, 3, 2] : List ℚ)
      = some (1 / 6) := by
  have hbegin : max_element ([1, 3, 2] : List ℚ) ≠ 0 := by
    rw [max_element_one_three_two]
    decide
  have hend : max_element ([1, 3, 2] : List ℚ) + 1 ≠ ([1, 3, 2] : List ℚ).length := by
    rw [max_element_one_three_two]
    decide
  obtain ⟨⟨y1, y2, y3, x0, h1, h2, h3, -, -, -, hfit, hx0, -, -⟩, -⟩ :=
    parabolic_3points_fit_x0_bounds_exact ([1, 3, 2] : List ℚ) hbegin hend
  refine ⟨⟨hbegin, hend⟩, ?_⟩
  rw [max_element_one_three_two] at h1 h2 h3
  simp only [Nat.sub_self, List.getElem?_cons_zero, List.getElem?_cons_succ,
    Option.some.injEq] at h1 h2 h3
  rw [hfit, hx0, ← h1, ← h2, ← h3]
  norm_num

/-- In exact arithmetic the samples 1, 3, 2 give the vertex value
3 + (2 - 1)^2 / (8 * (6 - 1 - 2)) = 73/24. -/
theorem parabolic_3points_fit_vertex_exact_witness :
    (max_element ([1, 3, 2] : List ℚ) ≠ 0 ∧
      max_element ([1, 3, 2] : List ℚ) + 1 ≠ ([1, 3, 2] : List ℚ).length) ∧
    parabolic_3points_fit (FloatConversion.exact ℚ) ([1, 3, 2] : List ℚ)
      = some (73 / 24) := by
  have hbegin : max_element ([1, 3, 2] : List ℚ) ≠ 0 := by
    rw [max_element_one_three_two]
    decide
  have hend : max_element ([1, 3, 2] : List ℚ) + 1 ≠ ([1, 3, 2] : List ℚ).length := by
    rw [max_element_one_three_two]
    decide
  obtain ⟨⟨y1, y2, y3, x0, real_max_value, h1, h2, h3, -, hfit, -, hvalue, -, -⟩, -⟩ :=
    parabolic_3points_fit_vertex_exact ([1, 3, 2] : List ℚ) hbegin hend
  refine ⟨⟨hbegin, hend⟩, ?_⟩
  rw [max_element_one_three_two] at h1 h2 h3
  simp only [Nat.sub_self, List.getElem?_cons_zero, List.getElem?_cons_succ,
    Option.some.injEq] at h1 h2 h3
  rw [hfit, hvalue, ← h1, ← h2, ← h3]
  norm_num

set_option maxRecDepth 100000 in
/-- C27: the samples `0.99999994f`, 1, 1 in the arithmetic of the machine.  The first
sample is `1 - 2^-24`, the largest `float` below 1, so the first maximum is at the
interior position 1.  In `float` the sums `-2*y1 + 4` and `2 - y1` are ties and round to
2 and to 1: the divisor `y1*a2*a3 + y2*a1*a3 + y3*a1*a2` is 0, not positive, the
numerator is 0 as well, and `parabolic_3points_fit_x0` returns `0.5*0/0`, a NaN.  For the
samples `0.99999994f`, 1, 0 it returns exactly -0.5, which is not above `-1/2`. -/
theorem parabolic_3points_fit_x0_division_by_zero :
    (0.99999994 : Binary32) = ⟨FloatValue.finite false 16777215 (-24)⟩ ∧
    (1 : Binary32) = ⟨FloatValue.finite false 8388608 (-23)⟩ ∧
    (0.99999994 : Binary32) < 1 ∧
    max_element ([0.99999994, 1, 1] : List Binary32) = 1 ∧
    (0.99999994 : Binary32)
          * (((0 : Binary32) - -1) * ((0 : Binary32) - 1))
          * (((1 : Binary32) - 0) * ((1 : Binary32) - -1))
        + (1 : Binary32)
          * (((-1 : Binary32) - 0) * ((-1 : Binary32) - 1))
          * (((1 : Binary32) - 0) * ((1 : Binary32) - -1))
        + (1 : Binary32)
          * (((-1 : Binary32) - 0) * ((-1 : Binary32) - 1))
          * (((0 : Binary32) - -1) * ((0 : Binary32) - 1))
      = 0 ∧
    parabolic_3points_fit_x0 FloatConversion.ieee [0.99999994, 1, 1]
      = some ⟨FloatValue.nan⟩ ∧
    max_element ([0.99999994, 1, 0] : List Binary32) = 1 ∧
    parabolic_3points_fit_x0 FloatConversion.ieee [0.99999994, 1, 0] = some (-0.5) := by
  decide

set_option maxRecDepth 100000 in
/-- C26: the samples `0.99999994f`, 1, 1 in the arithmetic of the machine.  The first
maximum is at the interior position 1, the vertex offset `x0` is `0.5*0/0`, a NaN, and
`parabolic_3points_fit` returns a NaN: not the value at the vertex of a parabola, and
not a number that is at least the largest sample 1. -/
theorem parabolic_3points_fit_not_a_number :
    max_element ([0.99999994, 1, 1] : List Binary32) = 1 ∧
    ([0.99999994, 1, 1] : List Binary32).length = 3 ∧
    parabolic_3points_fit FloatConversion.ieee [0.99999994, 1, 1]
      = some ⟨FloatValue.nan⟩ ∧
    ¬ ((1 : Binary32) < ⟨FloatValue.nan⟩) ∧
    ((⟨FloatValue.nan⟩ : Binary32) ≠ 1) := by
  decide

/-- Dereferencing an iterator at a position that is a natural number. -/
theorem dereference_natCast {K : Type} (range : List K) (i : ℕ) :
    dereference range (i : ℤ) = range[i]? := by
  simp [dereference]

section find_level_theorems

variable {K : Type} [LinearOrderedField K]

/-- The loop to the right stops at the first position `c` whose element is not above the
level. -/
theorem find_level_scan_right_eq (level_height : K) :
    ∀ (remaining : List K) (i c : ℕ) (vc : K), i ≤ c →
      (∀ (j : ℕ) (x : K), j < c - i → remaining[j]? = some x → level_height < x) →
      remaining[c - i]? = some vc → vc ≤ level_height →
      find_level_scan_right level_height remaining i = c := by
  intro remaining
  induction remaining with
  | nil => intro i c vc _ _ hvc; simp at hvc
  | cons x rest ih =>
    intro i c vc hic habove hvc hle
    rw [find_level_scan_right]
    by_cases heq : i = c
    · rw [heq, Nat.sub_self, List.getElem?_cons_zero] at hvc
      rw [Option.some.inj hvc, if_neg (not_lt.mpr hle), heq]
    · have hx : level_height < x := habove 0 x (by omega) (by simp)
      rw [if_pos hx]
      have hsub : c - i = (c - (i + 1)) + 1 := by omega
      apply ih (i + 1) c vc (by omega)
      · intro j y hj hy
        exact habove (j + 1) y (by omega) (by simpa using hy)
      · rw [hsub, List.getElem?_cons_succ] at hvc
        exact hvc
      · exact hle

/-- The loop to the left stops at the first position `c2` whose element is not above the
level. -/
theorem find_level_scan_left_eq (range : List K) (level_height : K) (c2 : ℕ) (vc2 : K)
    (hvc2 : range[c2]? = some vc2) (hle : vc2 ≤ level_height) :
    ∀ m : ℕ, c2 ≤ m → m < range.length →
      (∀ (j : ℕ) (x : K), c2 < j → j ≤ m → range[j]? = some x → level_height < x) →
      find_level_scan_left range level_height m = some (c2 : ℤ) := by
  intro m
  induction m with
  | zero =>
    intro hc2 _ _
    have h0 : c2 = 0 := by omega
    rw [h0] at hvc2
    simp only [find_level_scan_left, hvc2, if_neg (not_lt.mpr hle), h0]
    rfl
  | succ n ih =>
    intro hc2 hlen habove
    rw [find_level_scan_left]
    by_cases heq : c2 = n + 1
    · rw [heq] at hvc2
      simp only [hvc2, if_neg (not_lt.mpr hle), heq]
      push_cast
      rfl
    · have hx : level_height < range[n + 1] :=
        habove (n + 1) _ (by omega) (le_refl _) (List.getElem?_eq_getElem hlen)
      rw [List.getElem?_eq_getElem hlen]
      simp only [gt_iff_lt, if_pos hx]
      exact ih (by omega) (by omega) (fun j x h1 h2 h3 => habove j x h1 (by omega) h3)

/-- The value of `find_level_width` when the level is crossed at `c` to the right and at
`c2` to the left of the starting position `m`. -/
theorem find_level_width_crossings (range : List K) (m c c2 : ℕ) (level_height : K)
    (vc vp vc2 vn : K) (hleft : c2 < m) (hright : m < c)
    (hvc : range[c]? = some vc) (hvp : range[c - 1]? = some vp)
    (hvc2 : range[c2]? = some vc2) (hvn : range[c2 + 1]? = some vn)
    (habove : ∀ (j : ℕ) (x : K), c2 < j → j < c → range[j]? = some x → level_height < x)
    (hc : vc ≤ level_height) (hc2 : vc2 ≤ level_height) :
    find_level_width range m level_height
      = some (((c : K) - (vc - level_height) / (vc - vp))
          - ((c2 : K) + (vc2 - level_height) / (vc2 - vn))) := by
  have hclen : c < range.length := by
    by_contra hge
    rw [List.getElem?_eq_none (by omega)] at hvc
    exact absurd hvc (by simp)
  have hscan_right : find_level_scan_right level_height (range.drop m) m = c := by
    apply find_level_scan_right_eq level_height (range.drop m) m c vc (by omega)
    · intro j x hj hx
      rw [List.getElem?_drop] at hx
      exact habove (m + j) x (by omega) (by omega) hx
    · rw [List.getElem?_drop]
      have hidx : m + (c - m) = c := by omega
      rw [hidx]
      exact hvc
    · exact hc
  have hscan_left : find_level_scan_left range level_height m = some (c2 : ℤ) :=
    find_level_scan_left_eq range level_height c2 vc2 hvc2 hc2 m (by omega) (by omega)
      (fun j x h1 h2 h3 => habove j x h1 (by omega) h3)
  have hprev : ((c : ℕ) : ℤ) - 1 = ((c - 1 : ℕ) : ℤ) := by omega
  have hnext : ((c2 : ℕ) : ℤ) + 1 = ((c2 + 1 : ℕ) : ℤ) := by omega
  simp only [find_level_width, hscan_right, hscan_left, hprev, hnext, dereference_natCast,
    hvc, hvp, hvc2, hvn, Option.bind_eq_bind, Option.some_bind, Option.some.injEq]
  push_cast
  have hcast : (((c - 1 : ℕ) : ℤ) : K) = (c : K) - 1 := by
    rw [← hprev]
    push_cast
    rfl
  ring

/-- C28: `find_level_width` returns the distance between the two linearly interpolated
level crossings.  If all samples strictly between the positions `c2` and `c` are above
`level_height`, the samples at `c2` and at `c` are not, and the starting position `m`
lies strictly between them, the result is
`(c - (v[c]-L)/(v[c]-v[c-1])) - (c2 + (v[c2]-L)/(v[c2]-v[c2+1]))`, whatever `m` is, and
it satisfies `c - c2 - 2 < result <= c - c2`.  The three-argument overload, which starts
at the maximum, returns the same value. -/
theorem find_level_width_interpolated (range : List K) (m c c2 : ℕ) (level_height : K)
    (vc vp vc2 vn : K) (hleft : c2 < m) (hright : m < c)
    (hvc : range[c]? = some vc) (hvp : range[c - 1]? = some vp)
    (hvc2 : range[c2]? = some vc2) (hvn : range[c2 + 1]? = some vn)
    (habove : ∀ (j : ℕ) (x : K), c2 < j → j < c → range[j]? = some x → level_height < x)
    (hc : vc ≤ level_height) (hc2 : vc2 ≤ level_height) :
    find_level_width range m level_height
      = some (((c : K) - (vc - level_height) / (vc - vp))
          - ((c2 : K) + (vc2 - level_height) / (vc2 - vn))) ∧
    ((c : K) - (c2 : K) - 2
        < ((c : K) - (vc - level_height) / (vc - vp))
          - ((c2 : K) + (vc2 - level_height) / (vc2 - vn)) ∧
      ((c : K) - (vc - level_height) / (vc - vp))
          - ((c2 : K) + (vc2 - level_height) / (vc2 - vn))
        ≤ (c : K) - (c2 : K)) ∧
    (c2 < max_element range → max_element range < c →
      find_level_width_of_max range level_height
        = some (((c : K) - (vc - level_height) / (vc - vp))
            - ((c2 : K) + (vc2 - level_height) / (vc2 - vn)))) := by
  have hvp_above : level_height < vp := habove (c - 1) vp (by omega) (by omega) hvp
  have hvn_above : level_height < vn := habove (c2 + 1) vn (by omega) (by omega) hvn
  have hright_neg : vc - vp < 0 := by linarith
  have hleft_neg : vc2 - vn < 0 := by linarith
  have hr0 : 0 ≤ (vc - level_height) / (vc - vp) :=
    div_nonneg_of_nonpos (by linarith) hright_neg.le
  have hr1 : (vc - level_height) / (vc - vp) < 1 := by
    rw [div_lt_one_of_neg hright_neg]
    linarith
  have hl0 : 0 ≤ (vc2 - level_height) / (vc2 - vn) :=
    div_nonneg_of_nonpos (by linarith) hleft_neg.le
  have hl1 : (vc2 - level_height) / (vc2 - vn) < 1 := by
    rw [div_lt_one_of_neg hleft_neg]
    linarith
  refine ⟨find_level_width_crossings range m c c2 level_height vc vp vc2 vn hleft hright
    hvc hvp hvc2 hvn habove hc hc2, ⟨by linarith, by linarith⟩, ?_⟩
  intro h1 h2
  exact find_level_width_crossings range (max_element range) c c2 level_height vc vp vc2 vn
    h1 h2 hvc hvp hvc2 hvn habove hc hc2

end find_level_theorems

/-- C28, at a concrete input: the profile 0, 2, 4, 1 with level 3/2, started at the
maximum (position 2), crosses the level at 3 - 1/6 on the right and at 3/4 on the left. -/
theorem find_level_width_interpolated_witness :
    find_level_width ([0, 2, 4, 1] : List ℚ) 2 (3 / 2) = some (25 / 12) ∧
    find_level_width_of_max ([0, 2, 4, 1] : List ℚ) (3 / 2) = some (25 / 12) := by
  have habove : ∀ (j : ℕ) (x : ℚ), 0 < j → j < 3 →
      ([0, 2, 4, 1] : List ℚ)[j]? = some x → (3 / 2 : ℚ) < x := by
    intro j x h1 h2 hx
    interval_cases j
    · simp only [List.getElem?_cons_succ, List.getElem?_cons_zero, Option.some.injEq] at hx
      rw [← hx]
      norm_num
    · simp only [List.getElem?_cons_succ, List.getElem?_cons_zero, Option.some.injEq] at hx
      rw [← hx]
      norm_num
  have hmax : max_element ([0, 2, 4, 1] : List ℚ) = 2 := by
    simp only [max_element, max_element_from]
    norm_num
  have h := find_level_width_interpolated ([0, 2, 4, 1] : List ℚ) 2 3 0 (3 / 2) 1 4 0 2
    (by decide) (by decide) rfl rfl rfl rfl habove (by norm_num) (by norm_num)
  constructor
  · rw [h.1]
    norm_num
  · rw [h.2.2 (by rw [hmax]; decide) (by rw [hmax]; decide)]
    norm_num

/-! ## Results on the singles rates -/

/-- C29: with the two records at 2 s and 4 s, the frame from 3 s to 10 s makes the `for`
loop read `times[2]`, an index equal to `times.size()`; and the frame from 0.5 s to 1 s
contains no record, so that `i` equals `start_index` and the divisor
`4*(i - start_index)` is 0. -/
theorem get_singles_rate_out_of_range :
    scenario_singles_rates.times.length = 2 ∧
    scenario_singles_rates.get_singles_rate { axial_coord := 0, tangential_coord := 0 } 3 10
      = Except.error (SinglesFault.times_index_out_of_range 2) ∧
    scenario_singles_rates.get_singles_rate { axial_coord := 0, tangential_coord := 0 }
        (1 / 2) 1
      = Except.error SinglesFault.division_by_zero := by
  have htrunc1 : static_cast_int ((3 : ℚ) / 2) = 1 := by
    simp only [static_cast_int]
    rw [if_pos (by norm_num), Int.floor_eq_iff]
    norm_num
  have htrunc2 : static_cast_int ((1 / 2 : ℚ) / 2) = 0 := by
    simp only [static_cast_int]
    rw [if_pos (by norm_num), Int.floor_eq_iff]
    norm_num
  have hstart1 : scenario_singles_rates.advance_start_index 3 0 = Except.ok 0 := by
    rw [SinglesRatesFromSglFile.advance_start_index]
    simp [SinglesRatesFromSglFile.read_times, scenario_singles_rates]
    norm_num
  have hstart2 : scenario_singles_rates.advance_start_index (1 / 2) 0 = Except.ok 0 := by
    rw [SinglesRatesFromSglFile.advance_start_index]
    simp [SinglesRatesFromSglFile.read_times, scenario_singles_rates]
    norm_num
  have hsum1 : scenario_singles_rates.sum_singles 10 0 0 0 0
      = Except.error (SinglesFault.times_index_out_of_range 2) := by
    rw [SinglesRatesFromSglFile.sum_singles]
    simp [SinglesRatesFromSglFile.read_times, SinglesRatesFromSglFile.read_singles,
      scenario_singles_rates]
    rw [if_pos (by norm_num), SinglesRatesFromSglFile.sum_singles]
    simp [SinglesRatesFromSglFile.read_times, SinglesRatesFromSglFile.read_singles,
      scenario_singles_rates]
    rw [if_pos (by norm_num), SinglesRatesFromSglFile.sum_singles]
    simp [SinglesRatesFromSglFile.read_times, scenario_singles_rates]
  have hsum2 : scenario_singles_rates.sum_singles 1 0 0 0 0 = Except.ok (0, 0) := by
    rw [SinglesRatesFromSglFile.sum_singles]
    simp [SinglesRatesFromSglFile.read_times, scenario_singles_rates]
  have hindex1 : (max (static_cast_int
      ((3 : ℚ) / scenario_singles_rates.singles_time_interval) - 3) 0).toNat = 0 := by
    show (max (static_cast_int ((3 : ℚ) / 2) - 3) 0).toNat = 0
    rw [htrunc1]
    decide
  have hindex2 : (max (static_cast_int
      ((1 / 2 : ℚ) / scenario_singles_rates.singles_time_interval) - 3) 0).toNat = 0 := by
    show (max (static_cast_int ((1 / 2 : ℚ) / 2) - 3) 0).toNat = 0
    rw [htrunc2]
    decide
  have hbucket1 : Int.tdiv 0 (2 * scenario_singles_rates.axial_crystals_per_block) = 0 := by
    decide
  have hbucket2 : Int.tdiv 0 (scenario_singles_rates.trans_blocks_per_bucket
      * scenario_singles_rates.angular_crystals_per_block) = 0 := by
    decide
  refine ⟨rfl, ?_, ?_⟩
  · simp only [SinglesRatesFromSglFile.get_singles_rate, hbucket1, hbucket2]
    rw [if_neg (by norm_num)]
    simp only [hindex1, hstart1, hsum1]
  · simp only [SinglesRatesFromSglFile.get_singles_rate, hbucket1, hbucket2]
    rw [if_neg (by norm_num)]
    simp only [hindex2, hstart2, hsum2]
    rfl

/-! ## Results on the fan -/

/-- For an even number of detectors and detectors inside the ring, `det_num_diff` is the
ordinary remainder of `a - b + 3*(N/2)`. -/
theorem det_num_diff_eq (num_detectors_per_ring half a b : ℤ)
    (hhalf : num_detectors_per_ring = 2 * half)
    (ha : 0 ≤ a ∧ a < num_detectors_per_ring) (hb : 0 ≤ b ∧ b < num_detectors_per_ring) :
    det_num_diff num_detectors_per_ring a b = (a - b + 3 * half) % num_detectors_per_ring := by
  have hdiv : Int.tdiv (3 * num_detectors_per_ring) 2 = 3 * half := by
    rw [Int.tdiv_eq_ediv (by omega) (by omega)]
    omega
  rw [det_num_diff, hdiv, Int.tmod_eq_emod (by omega) (by omega)]

/-- The two differences of a pair of detectors add up to 0 or to the number of
detectors. -/
theorem det_num_diff_add (num_detectors_per_ring a b : ℤ)
    (heven : num_detectors_per_ring % 2 = 0)
    (ha : 0 ≤ a ∧ a < num_detectors_per_ring) (hb : 0 ≤ b ∧ b < num_detectors_per_ring) :
    (0 ≤ det_num_diff num_detectors_per_ring a b ∧
      0 ≤ det_num_diff num_detectors_per_ring b a) ∧
    (det_num_diff num_detectors_per_ring a b + det_num_diff num_detectors_per_ring b a = 0 ∨
      det_num_diff num_detectors_per_ring a b + det_num_diff num_detectors_per_ring b a
        = num_detectors_per_ring) := by
  obtain ⟨half, hhalf⟩ : ∃ half, num_detectors_per_ring = 2 * half :=
    ⟨num_detectors_per_ring / 2, by omega⟩
  have hpos : 0 < num_detectors_per_ring := by omega
  rw [det_num_diff_eq num_detectors_per_ring half a b hhalf ha hb,
    det_num_diff_eq num_detectors_per_ring half b a hhalf hb ha]
  have h1 := Int.emod_nonneg (a - b + 3 * half) (ne_of_gt hpos)
  have h2 := Int.emod_lt_of_pos (a - b + 3 * half) hpos
  have h3 := Int.emod_nonneg (b - a + 3 * half) (ne_of_gt hpos)
  have h4 := Int.emod_lt_of_pos (b - a + 3 * half) hpos
  have hsum : ((a - b + 3 * half) % num_detectors_per_ring
      + (b - a + 3 * half) % num_detectors_per_ring) % num_detectors_per_ring = 0 := by
    rw [← Int.add_emod]
    have h6 : a - b + 3 * half + (b - a + 3 * half) = num_detectors_per_ring * 3 := by
      rw [hhalf]
      ring
    rw [h6]
    exact Int.mul_emod_right _ _
  obtain ⟨k, hk⟩ := Int.dvd_of_emod_eq_zero hsum
  have hk0 : 0 ≤ k := by
    by_contra hneg
    have hk1 : k ≤ -1 := by omega
    nlinarith
  have hk2 : k < 2 := by
    by_contra hge
    have hk3 : 2 ≤ k := by omega
    nlinarith
  refine ⟨⟨h1, h3⟩, ?_⟩
  have hcases : k = 0 ∨ k = 1 := by omega
  rcases hcases with h | h
  · left
    rw [hk, h, mul_zero]
  · right
    rw [hk, h, mul_one]

/-- C30: the fan acceptance test is symmetric in the two detectors.  For an even number
of detectors `N`, any `fan_size` and detectors `0 <= a, b < N`, the condition
`d(a,b) <= fan_size/2 || d(a,b) >= N - fan_size/2` holds if and only if it holds for
`d(b,a)`. -/
theorem fan_accepts_symmetric (num_detectors_per_ring fan_size a b : ℤ)
    (heven : num_detectors_per_ring % 2 = 0)
    (ha : 0 ≤ a ∧ a < num_detectors_per_ring) (hb : 0 ≤ b ∧ b < num_detectors_per_ring) :
    fan_accepts num_detectors_per_ring fan_size a b
      ↔ fan_accepts num_detectors_per_ring fan_size b a := by
  obtain ⟨⟨h1, h2⟩, hsum⟩ := det_num_diff_add num_detectors_per_ring a b heven ha hb
  simp only [fan_accepts]
  rcases hsum with h | h <;> constructor <;> intro hacc <;> omega

/-- C30, at a concrete input: 8 detectors, fan size 4, detectors 1 and 6. -/
theorem fan_accepts_symmetric_witness :
    ((8 : ℤ) % 2 = 0 ∧ (0 ≤ (1 : ℤ) ∧ (1 : ℤ) < 8) ∧ (0 ≤ (6 : ℤ) ∧ (6 : ℤ) < 8)) ∧
    (fan_accepts 8 4 1 6 ↔ fan_accepts 8 4 6 1) :=
  ⟨by decide, fan_accepts_symmetric 8 4 1 6 (by decide) (by decide) (by decide)⟩

/-! ## Results on `correct_projection_data` -/

section correct_projdata_results

variable {ι K : Type}

/-- The inner loop over the views stores `g` at the basic views of the segment and leaves
the rest of the projection data alone. -/
theorem related_viewgrams_foldl_views (is_basic : ViewSegmentNumbers → Bool)
    (g : ViewSegmentNumbers → ι → K) (segment_num : ℤ) (views : List ℤ)
    (output : ProjData ι K) (vs : ViewSegmentNumbers) :
    (views.foldl
        (fun (output : ProjData ι K) (view_num : ℤ) =>
          if !is_basic { view_num := view_num, segment_num := segment_num } then output
          else
            output.set_related_viewgrams
              { view_num := view_num, segment_num := segment_num }
              (g { view_num := view_num, segment_num := segment_num }))
        output).related_viewgrams vs =
      if vs.segment_num = segment_num ∧ vs.view_num ∈ views ∧ is_basic vs = true then g vs
      else output.related_viewgrams vs := by
  induction views generalizing output with
  | nil => simp
  | cons v rest ih =>
    rw [List.foldl_cons, ih]
    obtain ⟨view, seg⟩ := vs
    by_cases hb : is_basic { view_num := v, segment_num := segment_num } = true
    · by_cases hv : view = v
      · by_cases hs : seg = segment_num
        · subst hv hs
          simp [hb, ProjData.set_related_viewgrams]
        · simp [hb, hs, ProjData.set_related_viewgrams]
      · by_cases hs : seg = segment_num
        · subst hs
          simp [hb, hv, ProjData.set_related_viewgrams]
        · simp [hb, hs, ProjData.set_related_viewgrams]
    · by_cases hv : view = v
      · by_cases hs : seg = segment_num
        · subst hv hs
          simp [hb]
        · simp [hb, hs]
      · simp [hb, hv]

/-- The inner loop over the views leaves the ranges of the projection data alone. -/
theorem ranges_foldl_views (is_basic : ViewSegmentNumbers → Bool)
    (g : ViewSegmentNumbers → ι → K) (segment_num : ℤ) (views : List ℤ)
    (output : ProjData ι K) :
    (views.foldl
        (fun (output : ProjData ι K) (view_num : ℤ) =>
          if !is_basic { view_num := view_num, segment_num := segment_num } then output
          else
            output.set_related_viewgrams
              { view_num := view_num, segment_num := segment_num }
              (g { view_num := view_num, segment_num := segment_num }))
        output).min_view_num = output.min_view_num ∧
    (views.foldl
        (fun (output : ProjData ι K) (view_num : ℤ) =>
          if !is_basic { view_num := view_num, segment_num := segment_num } then output
          else
            output.set_related_viewgrams
              { view_num := view_num, segment_num := segment_num }
              (g { view_num := view_num, segment_num := segment_num }))
        output).max_view_num = output.max_view_num := by
  induction views generalizing output with
  | nil => simp
  | cons v rest ih =>
    rw [List.foldl_cons]
    obtain ⟨h1, h2⟩ := ih
      (if !is_basic { view_num := v, segment_num := segment_num } then output
        else
          output.set_related_viewgrams { view_num := v, segment_num := segment_num }
            (g { view_num := v, segment_num := segment_num }))
    rw [h1, h2]
    by_cases hb : is_basic { view_num := v, segment_num := segment_num } = true
    · simp [hb, ProjData.set_related_viewgrams]
    · simp [hb]

/-- The two nested loops store `g` at the basic views and segments of the ranges and
leave the rest of the projection data alone. -/
theorem related_viewgrams_foldl_segments (is_basic : ViewSegmentNumbers → Bool)
    (g : ViewSegmentNumbers → ι → K) (segments views : List ℤ)
    (output : ProjData ι K) (vs : ViewSegmentNumbers) :
    (segments.foldl
        (fun (output : ProjData ι K) (segment_num : ℤ) =>
          views.foldl
            (fun (output : ProjData ι K) (view_num : ℤ) =>
              if !is_basic { view_num := view_num, segment_num := segment_num } then output
              else
                output.set_related_viewgrams
                  { view_num := view_num, segment_num := segment_num }
                  (g { view_num := view_num, segment_num := segment_num }))
            output)
        output).related_viewgrams vs =
      if vs.segment_num ∈ segments ∧ vs.view_num ∈ views ∧ is_basic vs = true then g vs
      else output.related_viewgrams vs := by
  induction segments generalizing output with
  | nil => simp
  | cons s rest ih =>
    rw [List.foldl_cons, ih, related_viewgrams_foldl_views]
    by_cases hs : vs.segment_num = s
    · by_cases hr : vs.view_num ∈ views ∧ is_basic vs = true
      · simp [hs, hr]
      · simp [hs, hr]
    · simp [hs]

/-- The two nested loops leave the view range of the projection data alone. -/
theorem ranges_foldl_segments (is_basic : ViewSegmentNumbers → Bool)
    (g : ViewSegmentNumbers → ι → K) (segments views : List ℤ)
    (output : ProjData ι K) :
    (segments.foldl
        (fun (output : ProjData ι K) (segment_num : ℤ) =>
          views.foldl
            (fun (output : ProjData ι K) (view_num : ℤ) =>
              if !is_basic { view_num := view_num, segment_num := segment_num } then output
              else
                output.set_related_viewgrams
                  { view_num := view_num, segment_num := segment_num }
                  (g { view_num := view_num, segment_num := segment_num }))
            output)
        output).min_view_num = output.min_view_num ∧
    (segments.foldl
        (fun (output : ProjData ι K) (segment_num : ℤ) =>
          views.foldl
            (fun (output : ProjData ι K) (view_num : ℤ) =>
              if !is_basic { view_num := view_num, segment_num := segment_num } then output
              else
                output.set_related_viewgrams
                  { view_num := view_num, segment_num := segment_num }
                  (g { view_num := view_num, segment_num := segment_num }))
            output)
        output).max_view_num = output.max_view_num := by
  induction segments generalizing output with
  | nil => simp
  | cons s rest ih =>
    rw [List.foldl_cons]
    obtain ⟨h1, h2⟩ := ih
      (views.foldl
        (fun (output : ProjData ι K) (view_num : ℤ) =>
          if !is_basic { view_num := view_num, segment_num := s } then output
          else
            output.set_related_viewgrams { view_num := view_num, segment_num := s }
              (g { view_num := view_num, segment_num := s }))
        output)
    rw [h1, h2]
    exact ranges_foldl_views is_basic g s views output

end correct_projdata_results

section correct_projdata_round_trip

variable {ι K : Type} [Field K]

/-- At a basic view and segment inside the loop ranges, `correct_projection_data` stores
the viewgrams computed by the loop body. -/
theorem correct_projection_data_related_viewgrams (exp : K → K)
    (output_projdata input_projdata : ProjData ι K)
    (use_data_or_set_to_1 apply_or_undo_correction : Bool)
    (scatter_projdata_ptr : Option (ProjData ι K))
    (attenuation_image_ptr : Option (VoxelsOnCartesianGrid K))
    (forward_projector_ptr : ForwardProjectorByBin ι K)
    (normalisation : BinNormalisation ι K)
    (randoms_projdata_ptr : Option (ProjData ι K))
    (start_frame end_frame : K) (vs : ViewSegmentNumbers)
    (hseg : output_projdata.min_segment_num ≤ vs.segment_num ∧
      vs.segment_num ≤ output_projdata.max_segment_num)
    (hview : input_projdata.min_view_num ≤ vs.view_num ∧
      vs.view_num ≤ input_projdata.max_view_num)
    (hbasic : attenuation_image_ptr = none ∨ forward_projector_ptr.is_basic vs = true) :
    (correct_projection_data exp output_projdata input_projdata use_data_or_set_to_1
        apply_or_undo_correction scatter_projdata_ptr attenuation_image_ptr
        forward_projector_ptr normalisation randoms_projdata_ptr start_frame
        end_frame).related_viewgrams vs =
      corrected_viewgrams exp output_projdata input_projdata use_data_or_set_to_1
        apply_or_undo_correction scatter_projdata_ptr attenuation_image_ptr
        forward_projector_ptr normalisation randoms_projdata_ptr start_frame end_frame
        vs := by
  unfold correct_projection_data
  simp only []
  rw [related_viewgrams_foldl_segments, if_pos]
  refine ⟨(mem_index_range _ _ _).2 hseg, (mem_index_range _ _ _).2 hview, ?_⟩
  cases attenuation_image_ptr with
  | none => rfl
  | some attenuation_image =>
    rcases hbasic with h | h
    · cases h
    · exact h

/-- The function `correct_projection_data` leaves the view range of `output_projdata`
alone. -/
theorem correct_projection_data_view_range (exp : K → K)
    (output_projdata input_projdata : ProjData ι K)
    (use_data_or_set_to_1 apply_or_undo_correction : Bool)
    (scatter_projdata_ptr : Option (ProjData ι K))
    (attenuation_image_ptr : Option (VoxelsOnCartesianGrid K))
    (forward_projector_ptr : ForwardProjectorByBin ι K)
    (normalisation : BinNormalisation ι K)
    (randoms_projdata_ptr : Option (ProjData ι K))
    (start_frame end_frame : K) :
    (correct_projection_data exp output_projdata input_projdata use_data_or_set_to_1
        apply_or_undo_correction scatter_projdata_ptr attenuation_image_ptr
        forward_projector_ptr normalisation randoms_projdata_ptr start_frame
        end_frame).min_view_num = output_projdata.min_view_num ∧
    (correct_projection_data exp output_projdata input_projdata use_data_or_set_to_1
        apply_or_undo_correction scatter_projdata_ptr attenuation_image_ptr
        forward_projector_ptr normalisation randoms_projdata_ptr start_frame
        end_frame).max_view_num = output_projdata.max_view_num := by
  unfold correct_projection_data
  simp only []
  exact ranges_foldl_segments _ _ _ _ _

/-- The viewgrams of the loop body when the corrections are applied to the data:
`((data - randoms) normalised * attenuation factors) - scatter`, where an absent term
is 0 and an absent factor is 1. -/
theorem corrected_viewgrams_apply (exp : K → K)
    (output_projdata input_projdata : ProjData ι K)
    (scatter_projdata_ptr : Option (ProjData ι K))
    (attenuation_image_ptr : Option (VoxelsOnCartesianGrid K))
    (forward_projector_ptr : ForwardProjectorByBin ι K)
    (normalisation : BinNormalisation ι K)
    (randoms_projdata_ptr : Option (ProjData ι K))
    (start_frame end_frame : K) (vs : ViewSegmentNumbers) :
    corrected_viewgrams exp output_projdata input_projdata true true
        scatter_projdata_ptr attenuation_image_ptr forward_projector_ptr normalisation
        randoms_projdata_ptr start_frame end_frame vs =
      normalisation.apply
          (input_projdata.related_viewgrams vs -
            randoms_projdata_ptr.elim 0 (fun randoms => randoms.related_viewgrams vs))
          start_frame end_frame *
        attenuation_image_ptr.elim 1
          (fun image bin => exp (forward_projector_ptr.forward_project image vs bin)) -
      scatter_projdata_ptr.elim 0 (fun scatter => scatter.related_viewgrams vs) := by
  have hempty : output_projdata.get_empty_related_viewgrams vs = (0 : ι → K) := rfl
  cases scatter_projdata_ptr <;> cases attenuation_image_ptr <;>
    cases randoms_projdata_ptr <;>
    simp [corrected_viewgrams, ProjData.get_related_viewgrams, hempty]

/-- The viewgrams of the loop body when the corrections are undone:
`(normalisation undone on (data + scatter)) / attenuation factors + randoms`, where an
absent term is 0 and an absent factor is 1. -/
theorem corrected_viewgrams_undo (exp : K → K)
    (output_projdata input_projdata : ProjData ι K)
    (scatter_projdata_ptr : Option (ProjData ι K))
    (attenuation_image_ptr : Option (VoxelsOnCartesianGrid K))
    (forward_projector_ptr : ForwardProjectorByBin ι K)
    (normalisation : BinNormalisation ι K)
    (randoms_projdata_ptr : Option (ProjData ι K))
    (start_frame end_frame : K) (vs : ViewSegmentNumbers) :
    corrected_viewgrams exp output_projdata input_projdata true false
        scatter_projdata_ptr attenuation_image_ptr forward_projector_ptr normalisation
        randoms_projdata_ptr start_frame end_frame vs =
      normalisation.undo
          (input_projdata.related_viewgrams vs +
            scatter_projdata_ptr.elim 0 (fun scatter => scatter.related_viewgrams vs))
          start_frame end_frame /
        attenuation_image_ptr.elim 1
          (fun image bin => exp (forward_projector_ptr.forward_project image vs bin)) +
      randoms_projdata_ptr.elim 0 (fun randoms => randoms.related_viewgrams vs) := by
  have hempty : output_projdata.get_empty_related_viewgrams vs = (0 : ι → K) := rfl
  cases scatter_projdata_ptr <;> cases attenuation_image_ptr <;>
    cases randoms_projdata_ptr <;>
    simp [corrected_viewgrams, ProjData.get_related_viewgrams, hempty]

end correct_projdata_round_trip

/-- C22, amended (`correct_projection_data`).  Applying the corrections to the data and
then undoing them with the same parameters gives back the original related viewgrams of
every basic view and segment of the loop ranges, given that `normalisation.undo` inverts
`normalisation.apply`, that the exponential is never 0 and, when there is an attenuation
image, that `normalisation.undo` commutes with the bin-wise multiplication by a set of
viewgrams.  Applying computes `((data - randoms) normalised * attenuation) - scatter`;
undoing adds the scatter, undoes the normalisation, divides by the attenuation factors
and adds the randoms: the normalisation comes before the attenuation in both
directions. -/
theorem correct_projection_data_round_trip {ι K : Type} [Field K] (exp : K → K)
    (output_projdata input_projdata : ProjData ι K)
    (scatter_projdata_ptr : Option (ProjData ι K))
    (attenuation_image_ptr : Option (VoxelsOnCartesianGrid K))
    (forward_projector_ptr : ForwardProjectorByBin ι K)
    (normalisation : BinNormalisation ι K)
    (randoms_projdata_ptr : Option (ProjData ι K))
    (start_frame end_frame : K) (vs : ViewSegmentNumbers)
    (hexp : ∀ x, exp x ≠ 0)
    (hinverse : ∀ viewgrams,
      normalisation.undo (normalisation.apply viewgrams start_frame end_frame)
        start_frame end_frame = viewgrams)
    (hcommute : attenuation_image_ptr = none ∨
      ∀ viewgrams factors : ι → K,
        normalisation.undo (viewgrams * factors) start_frame end_frame =
          normalisation.undo viewgrams start_frame end_frame * factors)
    (hseg : output_projdata.min_segment_num ≤ vs.segment_num ∧
      vs.segment_num ≤ output_projdata.max_segment_num)
    (hview_input : input_projdata.min_view_num ≤ vs.view_num ∧
      vs.view_num ≤ input_projdata.max_view_num)
    (hview_output : output_projdata.min_view_num ≤ vs.view_num ∧
      vs.view_num ≤ output_projdata.max_view_num)
    (hbasic : attenuation_image_ptr = none ∨ forward_projector_ptr.is_basic vs = true) :
    (correct_projection_data exp output_projdata input_projdata true true
        scatter_projdata_ptr attenuation_image_ptr forward_projector_ptr normalisation
        randoms_projdata_ptr start_frame end_frame).related_viewgrams vs =
      normalisation.apply
          (input_projdata.related_viewgrams vs -
            randoms_projdata_ptr.elim 0 (fun randoms => randoms.related_viewgrams vs))
          start_frame end_frame *
        attenuation_image_ptr.elim 1
          (fun image bin => exp (forward_projector_ptr.forward_project image vs bin)) -
      scatter_projdata_ptr.elim 0 (fun scatter => scatter.related_viewgrams vs) ∧
    (correct_projection_data exp output_projdata
        (correct_projection_data exp output_projdata input_projdata true true
          scatter_projdata_ptr attenuation_image_ptr forward_projector_ptr normalisation
          randoms_projdata_ptr start_frame end_frame)
        true false scatter_projdata_ptr attenuation_image_ptr forward_projector_ptr
        normalisation randoms_projdata_ptr start_frame end_frame).related_viewgrams vs =
      normalisation.undo
          ((correct_projection_data exp output_projdata input_projdata true true
              scatter_projdata_ptr attenuation_image_ptr forward_projector_ptr
              normalisation randoms_projdata_ptr start_frame
              end_frame).related_viewgrams vs +
            scatter_projdata_ptr.elim 0 (fun scatter => scatter.related_viewgrams vs))
          start_frame end_frame /
        attenuation_image_ptr.elim 1
          (fun image bin => exp (forward_projector_ptr.forward_project image vs bin)) +
      randoms_projdata_ptr.elim 0 (fun randoms => randoms.related_viewgrams vs) ∧
    (correct_projection_data exp output_projdata
        (correct_projection_data exp output_projdata input_projdata true true
          scatter_projdata_ptr attenuation_image_ptr forward_projector_ptr normalisation
          randoms_projdata_ptr start_frame end_frame)
        true false scatter_projdata_ptr attenuation_image_ptr forward_projector_ptr
        normalisation randoms_projdata_ptr start_frame end_frame).related_viewgrams vs =
      input_projdata.related_viewgrams vs := by
  have hrange := correct_projection_data_view_range exp output_projdata input_projdata
    true true scatter_projdata_ptr attenuation_image_ptr forward_projector_ptr
    normalisation randoms_projdata_ptr start_frame end_frame
  have happly :
      (correct_projection_data exp output_projdata input_projdata true true
          scatter_projdata_ptr attenuation_image_ptr forward_projector_ptr normalisation
          randoms_projdata_ptr start_frame end_frame).related_viewgrams vs =
        normalisation.apply
            (input_projdata.related_viewgrams vs -
              randoms_projdata_ptr.elim 0 (fun randoms => randoms.related_viewgrams vs))
            start_frame end_frame *
          attenuation_image_ptr.elim 1
            (fun image bin => exp (forward_projector_ptr.forward_project image vs bin)) -
        scatter_projdata_ptr.elim 0 (fun scatter => scatter.related_viewgrams vs) := by
    rw [correct_projection_data_related_viewgrams _ _ _ _ _ _ _ _ _ _ _ _ vs hseg
      hview_input hbasic, corrected_viewgrams_apply]
  have hundo :
      (correct_projection_data exp output_projdata
          (correct_projection_data exp output_projdata input_projdata true true
            scatter_projdata_ptr attenuation_image_ptr forward_projector_ptr normalisation
            randoms_projdata_ptr start_frame end_frame)
          true false scatter_projdata_ptr attenuation_image_ptr forward_projector_ptr
          normalisation randoms_projdata_ptr start_frame end_frame).related_viewgrams vs =
        normalisation.undo
            ((correct_projection_data exp output_projdata input_projdata true true
                scatter_projdata_ptr attenuation_image_ptr forward_projector_ptr
                normalisation randoms_projdata_ptr start_frame
                end_frame).related_viewgrams vs +
              scatter_projdata_ptr.elim 0 (fun scatter => scatter.related_viewgrams vs))
            start_frame end_frame /
          attenuation_image_ptr.elim 1
            (fun image bin => exp (forward_projector_ptr.forward_project image vs bin)) +
        randoms_projdata_ptr.elim 0 (fun randoms => randoms.related_viewgrams vs) := by
    rw [correct_projection_data_related_viewgrams _ _ _ _ _ _ _ _ _ _ _ _ vs hseg
      (by rw [hrange.1, hrange.2]; exact hview_output) hbasic, corrected_viewgrams_undo]
  refine ⟨happly, hundo, ?_⟩
  rw [hundo, happly, sub_add_cancel]
  cases attenuation_image_ptr with
  | none =>
    simp only [Option.elim, mul_one, div_one, hinverse, sub_add_cancel]
  | some attenuation_image =>
    rcases hcommute with h | h
    · cases h
    · rw [h, hinverse]
      funext bin
      simp only [Option.elim, Pi.add_apply, Pi.div_apply, Pi.mul_apply, Pi.sub_apply]
      rw [mul_div_assoc, div_self (hexp _), mul_one, sub_add_cancel]

/-- C22, witness: data 5, randoms 2, scatter 1, a normalisation that multiplies by 3 and
the attenuation factor `exp 1`. -/
theorem correct_projection_data_round_trip_witness :
    (∀ viewgrams : Unit → ℝ,
      (scenario_multiplicative_normalisation Unit ℝ).undo
        ((scenario_multiplicative_normalisation Unit ℝ).apply viewgrams 0 1) 0 1 =
        viewgrams) ∧
    (correct_projection_data Real.exp (scenario_proj_data ℝ 0)
        (correct_projection_data Real.exp (scenario_proj_data ℝ 0)
          (scenario_proj_data ℝ 5) true true (some (scenario_proj_data ℝ 1))
          (some (scenario_attenuation_image ℝ)) (scenario_forward_projector ℝ)
          (scenario_multiplicative_normalisation Unit ℝ) (some (scenario_proj_data ℝ 2))
          0 1)
        true false (some (scenario_proj_data ℝ 1)) (some (scenario_attenuation_image ℝ))
        (scenario_forward_projector ℝ) (scenario_multiplicative_normalisation Unit ℝ)
        (some (scenario_proj_data ℝ 2)) 0 1).related_viewgrams
        { view_num := 0, segment_num := 0 } =
      (scenario_proj_data ℝ 5).related_viewgrams { view_num := 0, segment_num := 0 } :=
  have hinverse : ∀ viewgrams : Unit → ℝ,
      (scenario_multiplicative_normalisation Unit ℝ).undo
        ((scenario_multiplicative_normalisation Unit ℝ).apply viewgrams 0 1) 0 1 =
        viewgrams := by
    intro viewgrams
    funext bin
    simp [scenario_multiplicative_normalisation]
  ⟨hinverse,
    (correct_projection_data_round_trip Real.exp (scenario_proj_data ℝ 0)
      (scenario_proj_data ℝ 5) (some (scenario_proj_data ℝ 1))
      (some (scenario_attenuation_image ℝ)) (scenario_forward_projector ℝ)
      (scenario_multiplicative_normalisation Unit ℝ) (some (scenario_proj_data ℝ 2)) 0 1
      { view_num := 0, segment_num := 0 } Real.exp_ne_zero hinverse
      (Or.inr (by
        intro viewgrams factors
        funext bin
        simp only [scenario_multiplicative_normalisation, Pi.div_apply, Pi.mul_apply]
        ring))
      (by simp [scenario_proj_data]) (by simp [scenario_proj_data])
      (by simp [scenario_proj_data]) (Or.inr rfl)).2.2⟩

/-- C22, as stated, fails for a normalisation that does not commute with the
multiplication by the attenuation factors.  The normalisation adds 1 to every bin and
its `undo` subtracts 1, so `undo` inverts `apply`; the attenuation factor is `exp 1`;
there are no randoms and no scatter.  From the data 0 applying gives `exp 1`, and undoing
gives `(exp 1 - 1) / exp 1`, which is not 0. -/
theorem correct_projection_data_round_trip_additive_normalisation :
    (∀ (viewgrams : Unit → ℝ) (start_frame end_frame : ℝ),
      (scenario_additive_normalisation Unit ℝ).undo
        ((scenario_additive_normalisation Unit ℝ).apply viewgrams start_frame end_frame)
        start_frame end_frame = viewgrams) ∧
    (correct_projection_data Real.exp (scenario_proj_data ℝ 0) (scenario_proj_data ℝ 0)
        true true none (some (scenario_attenuation_image ℝ))
        (scenario_forward_projector ℝ) (scenario_additive_normalisation Unit ℝ) none
        0 1).related_viewgrams { view_num := 0, segment_num := 0 } () = Real.exp 1 ∧
    (correct_projection_data Real.exp (scenario_proj_data ℝ 0)
        (correct_projection_data Real.exp (scenario_proj_data ℝ 0)
          (scenario_proj_data ℝ 0) true true none (some (scenario_attenuation_image ℝ))
          (scenario_forward_projector ℝ) (scenario_additive_normalisation Unit ℝ) none
          0 1)
        true false none (some (scenario_attenuation_image ℝ))
        (scenario_forward_projector ℝ) (scenario_additive_normalisation Unit ℝ) none
        0 1).related_viewgrams { view_num := 0, segment_num := 0 } () =
      (Real.exp 1 - 1) / Real.exp 1 ∧
    (Real.exp 1 - 1) / Real.exp 1 ≠
      (scenario_proj_data ℝ 0).related_viewgrams { view_num := 0, segment_num := 0 }
        () := by
  have hseg : (scenario_proj_data ℝ 0).min_segment_num ≤ (0 : ℤ) ∧
      (0 : ℤ) ≤ (scenario_proj_data ℝ 0).max_segment_num := by
    simp [scenario_proj_data]
  have hview : (scenario_proj_data ℝ 0).min_view_num ≤ (0 : ℤ) ∧
      (0 : ℤ) ≤ (scenario_proj_data ℝ 0).max_view_num := by
    simp [scenario_proj_data]
  have happly :
      (correct_projection_data Real.exp (scenario_proj_data ℝ 0) (scenario_proj_data ℝ 0)
          true true none (some (scenario_attenuation_image ℝ))
          (scenario_forward_projector ℝ) (scenario_additive_normalisation Unit ℝ) none
          0 1).related_viewgrams { view_num := 0, segment_num := 0 } =
        fun _ => Real.exp 1 := by
    rw [correct_projection_data_related_viewgrams _ _ _ _ _ _ _ _ _ _ _ _
      { view_num := 0, segment_num := 0 } hseg hview (Or.inr rfl),
      corrected_viewgrams_apply]
    funext bin
    simp [scenario_proj_data, scenario_additive_normalisation,
      scenario_forward_projector]
  have hrange := correct_projection_data_view_range Real.exp (scenario_proj_data ℝ 0)
    (scenario_proj_data ℝ 0) true true none (some (scenario_attenuation_image ℝ))
    (scenario_forward_projector ℝ) (scenario_additive_normalisation Unit ℝ) none 0 1
  refine ⟨?_, ?_, ?_, ?_⟩
  · intro viewgrams start_frame end_frame
    funext bin
    simp [scenario_additive_normalisation]
  · rw [happly]
  · rw [correct_projection_data_related_viewgrams _ _ _ _ _ _ _ _ _ _ _ _
      { view_num := 0, segment_num := 0 } hseg
      (by rw [hrange.1, hrange.2]; exact hview) (Or.inr rfl),
      corrected_viewgrams_undo, happly]
    simp [scenario_additive_normalisation, scenario_forward_projector]
  · have h1 : (1 : ℝ) < Real.exp 1 := by
      have := Real.add_one_lt_exp (one_ne_zero : (1 : ℝ) ≠ 0)
      linarith
    have h2 : (0 : ℝ) < (Real.exp 1 - 1) / Real.exp 1 :=
      div_pos (by linarith) (Real.exp_pos 1)
    simp only [scenario_proj_data]
    exact ne_of_gt h2

end STIR
